import Mathlib

/-!
# HANA Cloud instance mapping operator

A shallow embedding of the reconciler (`internal/controller/hanamapping_controller.go`),
of the inventory client (`internal/inventory/client.go`) and of the resource types
(`api/v1/hanamapping_types.go`), followed by theorems about them.

The collaborators the reconciler calls (the resource store, the configmap and secret
reads, the inventory) are values with a state of their own: every call takes the state
of the collaborators and returns an answer and a new state, so that a theorem stated for
every reconciler value and every state holds whatever the collaborators answer.
-/

set_option autoImplicit false

/-! ## Go error values -/

/-- Go `error` values, by dynamic type: `inventory.inventoryError` (a string type whose
values compare by their text), the API status error of the resource store (with its
reason), and every other error (`fmt.Errorf`, transport and decoding errors). -/
inductive GoError where
  | inventoryError (text : String)
  | statusError (reason : String) (message : String)
  | errorString (message : String)
  deriving DecidableEq, Repr

namespace GoError

/-- The method `Error()` of an error value: its text. -/
def Error : GoError → String
  | inventoryError text => text
  | statusError _ message => message
  | errorString message => message

end GoError

namespace errors

/-- The function `errors.IsNotFound` of apimachinery: the error is an API status error whose
reason is `NotFound`. -/
def IsNotFound : GoError → Bool
  | GoError.statusError reason _ => reason == "NotFound"
  | _ => false

end errors

/-! ## `metav1` conditions and `meta.SetStatusCondition` -/

namespace metav1

/-- The type `metav1.Condition`. Times are counted in ticks of the clock; `0` is the zero
time. The field `Type` is written `Type_`. -/
structure Condition where
  Type_ : String
  Status : String
  ObservedGeneration : Int := 0
  LastTransitionTime : Nat := 0
  Reason : String
  Message : String := ""
  deriving DecidableEq, Repr

def ConditionTrue : String := "True"

def ConditionFalse : String := "False"

/-- The method `IsZero` of `*metav1.Time`: a nil pointer or the zero time. -/
def IsZero : Option Nat → Bool
  | none => true
  | some t => t == 0

end metav1

namespace meta

open metav1

/-- The function `meta.FindStatusCondition`: the first condition of the given type. -/
def FindStatusCondition (conditions : List Condition) (conditionType : String) :
    Option Condition :=
  conditions.find? (fun c => c.Type_ == conditionType)

/-- The update `meta.SetStatusCondition` applies to an existing condition: status (with the
transition time, only when the status changes), reason, message and observed generation
are taken from the new condition. -/
def mergeCondition (now : Nat) (existing newCondition : Condition) : Condition :=
  { Type_ := existing.Type_
    Status := newCondition.Status
    ObservedGeneration := newCondition.ObservedGeneration
    LastTransitionTime :=
      if existing.Status != newCondition.Status then
        (if newCondition.LastTransitionTime != 0 then newCondition.LastTransitionTime else now)
      else existing.LastTransitionTime
    Reason := newCondition.Reason
    Message := newCondition.Message }

/-- The in-place update of the first condition of the new condition's type. -/
def updateFirst (now : Nat) (newCondition : Condition) : List Condition → List Condition
  | [] => []
  | c :: cs =>
    if c.Type_ == newCondition.Type_ then mergeCondition now c newCondition :: cs
    else c :: updateFirst now newCondition cs

/-- Modelled from the spec: `meta.SetStatusCondition` of apimachinery, a library function
whose source is not part of the repository. The conditions are keyed by condition type with
one entry per type: a report of a type that has no entry is appended (stamped with the
current time when it carries none), a report of a type that has an entry updates that entry
in place, and the transition time moves only when the status changes. -/
def SetStatusCondition (now : Nat) (conditions : List Condition) (newCondition : Condition) :
    List Condition :=
  match FindStatusCondition conditions newCondition.Type_ with
  | none =>
    conditions ++
      [{ newCondition with
          LastTransitionTime :=
            if newCondition.LastTransitionTime == 0 then now
            else newCondition.LastTransitionTime }]
  | some _ => updateFirst now newCondition conditions

end meta

/-! ## `api/v1`: the resource -/

namespace hanav1

structure NamespacedName where
  Namespace : String
  Name : String
  deriving DecidableEq, Repr

structure Mapping where
  ServiceInstanceID : String
  TargetNamespace : String
  deriving DecidableEq, Repr

structure MappingID where
  ServiceInstanceID : String
  PrimaryID : String
  SecondaryID : String
  deriving DecidableEq, Repr

/-- The type `HANAMappingSpec`: the desired state. -/
structure HANAMappingSpec where
  BTPOperatorConfigmap : NamespacedName
  AdminAPIAccessSecret : NamespacedName
  Mapping : Mapping
  deriving DecidableEq, Repr

/-- The type `HANAMappingStatus`: the observed state. `Conditions` is a Go slice, `none` is
the nil slice; `MappingID` is a pointer, `none` is nil. -/
structure HANAMappingStatus where
  Conditions : Option (List metav1.Condition)
  MappingID : Option MappingID
  deriving DecidableEq, Repr

/-- The type `HANAMapping` with the fields of its `ObjectMeta` that the reconciler reads or
writes. -/
structure HANAMapping where
  Namespace : String
  Name : String
  Generation : Int
  DeletionTimestamp : Option Nat
  Finalizers : List String
  Spec : HANAMappingSpec
  Status : HANAMappingStatus
  deriving DecidableEq, Repr

end hanav1

namespace controllerutil

open hanav1

/-- The function `controllerutil.ContainsFinalizer`. -/
def ContainsFinalizer (o : HANAMapping) (finalizer : String) : Bool :=
  o.Finalizers.contains finalizer

/-- The function `controllerutil.AddFinalizer`: appends the finalizer unless it is there. -/
def AddFinalizer (o : HANAMapping) (finalizer : String) : HANAMapping :=
  if o.Finalizers.contains finalizer then o
  else { o with Finalizers := o.Finalizers ++ [finalizer] }

/-- The function `controllerutil.RemoveFinalizer`: drops every occurrence of the finalizer. -/
def RemoveFinalizer (o : HANAMapping) (finalizer : String) : HANAMapping :=
  { o with Finalizers := o.Finalizers.filter (fun f => f != finalizer) }

end controllerutil

/-! ## `corev1` objects read for configuration -/

namespace corev1

/-- A `corev1.ConfigMap`: its `Data`. -/
structure ConfigMap where
  Data : List (String × String)
  deriving DecidableEq, Repr

/-- A `corev1.Secret`: its `Data` (byte strings as strings). -/
structure Secret where
  Data : List (String × String)
  deriving DecidableEq, Repr

/-- Indexing a Go map: the value under the key, the zero value when the key is absent. -/
def index (data : List (String × String)) (key : String) : String :=
  match data.find? (fun kv => kv.1 == key) with
  | some kv => kv.2
  | none => ""

end corev1

/-! ## `internal/inventory`: the inventory client -/

namespace inventory

/-- The wire shape of a mapping record. `IsDefault` is `omitempty`: `false` is unset. -/
structure Mapping where
  Platform : String
  PrimaryID : String
  SecondaryID : String
  IsDefault : Bool := false
  deriving DecidableEq, Repr

def ErrMappingAlreadyExists : GoError := GoError.inventoryError "mapping already exists"

def ErrMappingNotFound : GoError := GoError.inventoryError "mapping not found"

structure BindingUAA where
  URL : String
  ClientID : String
  ClientSecret : String
  deriving DecidableEq, Repr

structure Binding where
  BaseURL : String
  UAA : BindingUAA
  deriving DecidableEq, Repr

/-- The interface `Client`, with the two operations the reconciler calls; `ε` is the state
of the world behind the client. -/
structure Client (ε : Type) where
  CreateMapping : ε → String → Mapping → Option GoError × ε
  DeleteMapping : ε → String → String → String → Option GoError × ε

/-- An HTTP request as the client builds it: the JSON body of a create is kept as the
record it encodes. -/
structure Request where
  Method : String
  URL : String
  Query : List (String × String) := []
  Header : List (String × String) := []
  Body : Option Mapping := none
  deriving DecidableEq, Repr

/-- The HTTP stack under the client: `NewRequest` is the validation `http.NewRequest` does on
method and URL, `Do` sends a request with the token of the given client-credentials
configuration and answers a transport error or the status code of the response. -/
structure Transport (ε : Type) where
  NewRequest : String → String → Option GoError
  Do : ε → String → String → String → Request → Except GoError Int × ε

def mappingsPath (serviceInstanceID : String) : String :=
  "/inventory/v2/serviceInstances/" ++ serviceInstanceID ++ "/instanceMappings"

/-- The method `inventoryClient.doAuthRequest`. -/
def doAuthRequest {ε : Type} (t : Transport ε) (binding : Binding) (s : ε) (req : Request) :
    Except GoError Int × ε :=
  t.Do s (binding.UAA.URL ++ "/oauth/token?grant_type=client_credentials")
    binding.UAA.ClientID binding.UAA.ClientSecret req

/-- The method `inventoryClient.CreateMapping`. -/
def CreateMapping {ε : Type} (t : Transport ε) (binding : Binding) (s : ε)
    (serviceInstanceID : String) (mapping : Mapping) : Option GoError × ε :=
  let url := "https://" ++ binding.BaseURL ++ mappingsPath serviceInstanceID
  match t.NewRequest "POST" url with
  | some err => (some err, s)
  | none =>
    let req : Request :=
      { Method := "POST", URL := url, Header := [("Content-Type", "application/json")],
        Body := some mapping }
    match doAuthRequest t binding s req with
    | (Except.error err, s) => (some err, s)
    | (Except.ok statusCode, s) =>
      if statusCode = 201 then (none, s)
      else if statusCode = 200 then (some ErrMappingAlreadyExists, s)
      else (some (GoError.errorString
        ("failed to create mapping, HTTP " ++ toString statusCode)), s)

/-- The method `inventoryClient.DeleteMapping`. -/
def DeleteMapping {ε : Type} (t : Transport ε) (binding : Binding) (s : ε)
    (serviceInstanceID primaryID secondaryID : String) : Option GoError × ε :=
  let url := "https://" ++ binding.BaseURL ++ mappingsPath serviceInstanceID
  match t.NewRequest "DELETE" url with
  | some err => (some err, s)
  | none =>
    let req : Request :=
      { Method := "DELETE", URL := url,
        Query := [("primaryID", primaryID), ("secondaryID", secondaryID)] }
    match doAuthRequest t binding s req with
    | (Except.error err, s) => (some err, s)
    | (Except.ok statusCode, s) =>
      if statusCode = 200 then (none, s)
      else if statusCode = 404 then (some ErrMappingNotFound, s)
      else (some (GoError.errorString
        ("failed to delete mapping, HTTP " ++ toString statusCode)), s)

/-- The constructor `NewClient`: the client of a binding over an HTTP stack. -/
def NewClient {ε : Type} (t : Transport ε) (binding : Binding) : Client ε :=
  { CreateMapping := CreateMapping t binding
    DeleteMapping := DeleteMapping t binding }

end inventory

/-! ## The resource store as the reconciler calls it -/

namespace client

open hanav1

/-- The `client.Client` of controller-runtime, restricted to the calls of the reconciler.
`Get`, `Update` and `StatusUpdate` (for `Status().Update`) answer nil or an error for the
resource of the request; what a successful call reads or writes is fixed by `World`
below. The reads of the configmap and of the secret answer the object or an error. -/
structure Client (ε : Type) where
  Get : ε → NamespacedName → Option GoError × ε
  Update : ε → HANAMapping → Option GoError × ε
  StatusUpdate : ε → HANAMapping → Option GoError × ε
  GetConfigMap : ε → NamespacedName → Except GoError corev1.ConfigMap × ε
  GetSecret : ε → NamespacedName → Except GoError corev1.Secret × ε

end client

namespace ctrl

/-- The type `ctrl.Result`. -/
structure Result where
  Requeue : Bool := false
  RequeueAfter : Nat := 0
  deriving DecidableEq, Repr

end ctrl

/-! ## `internal/controller`: the reconciler -/

namespace controller

open hanav1

def defaultBTPOperatorConfigmapNamespace : String := "kyma-system"

def defaultBTPOperatorConfigmapName : String := "sap-btp-operator-config"

def finalizerName : String := "hanamappings.hana.cloud.sap.com/finalizer"

def conditionTypeReady : String := "Ready"

def conditionReasonInProgress : String := "InProgress"

def conditionReasonSucceeded : String := "Succeeded"

def conditionReasonFailed : String := "Failed"

/-- The type `HANAMappingReconciler`: the store client and the factory of inventory
clients. `Unmarshal` stands for `json.Unmarshal` into a `BindingUAA` and `Now` for
`time.Now`, the two library calls whose result the reconciler depends on. -/
structure HANAMappingReconciler (ε : Type) where
  Client : client.Client ε
  GetInventoryClient : inventory.Binding → inventory.Client ε
  Unmarshal : String → Except GoError inventory.BindingUAA
  Now : ε → Nat

/-- A call the reconciler issued to a collaborator, with its arguments and its answer
(`none` is a nil error). -/
inductive Event where
  | Get (key : NamespacedName) (err : Option GoError)
  | Update (obj : HANAMapping) (err : Option GoError)
  | StatusUpdate (obj : HANAMapping) (err : Option GoError)
  | GetConfigMap (key : NamespacedName) (err : Option GoError)
  | GetSecret (key : NamespacedName) (err : Option GoError)
  | CreateMapping (serviceInstanceID : String) (mapping : inventory.Mapping)
      (err : Option GoError)
  | DeleteMapping (serviceInstanceID primaryID secondaryID : String) (err : Option GoError)
  deriving DecidableEq, Repr

/-- The world around one reconciler: the state of the collaborators, the resource the store
holds under the name of the request (`none`: no such resource), and the calls issued so
far, oldest first. -/
structure World (ε : Type) where
  env : ε
  stored : Option HANAMapping
  trace : List Event

variable {ε : Type}

/-- The call `r.Client.Get` for the resource: an error of the client, or the stored
resource, or the API error NotFound when the store holds none. -/
def clientGet (r : HANAMappingReconciler ε) (w : World ε) (key : NamespacedName) :
    Except GoError HANAMapping × World ε :=
  match r.Client.Get w.env key with
  | (some err, env) =>
    (Except.error err, { env := env, stored := w.stored,
                         trace := w.trace ++ [Event.Get key (some err)] })
  | (none, env) =>
    match w.stored with
    | some obj =>
      (Except.ok obj, { env := env, stored := w.stored,
                        trace := w.trace ++ [Event.Get key none] })
    | none =>
      let err := GoError.statusError "NotFound" ("hanamappings " ++ key.Name ++ " not found")
      (Except.error err, { env := env, stored := w.stored,
                           trace := w.trace ++ [Event.Get key (some err)] })

/-- The call `r.Client.Update`: when the client answers nil the store holds the object. -/
def clientUpdate (r : HANAMappingReconciler ε) (w : World ε) (obj : HANAMapping) :
    Option GoError × World ε :=
  match r.Client.Update w.env obj with
  | (some err, env) =>
    (some err, { env := env, stored := w.stored,
                 trace := w.trace ++ [Event.Update obj (some err)] })
  | (none, env) =>
    (none, { env := env, stored := some obj, trace := w.trace ++ [Event.Update obj none] })

/-- The call `r.Client.Status().Update`: when the client answers nil the store holds the
object. -/
def clientStatusUpdate (r : HANAMappingReconciler ε) (w : World ε) (obj : HANAMapping) :
    Option GoError × World ε :=
  match r.Client.StatusUpdate w.env obj with
  | (some err, env) =>
    (some err, { env := env, stored := w.stored,
                 trace := w.trace ++ [Event.StatusUpdate obj (some err)] })
  | (none, env) =>
    (none, { env := env, stored := some obj,
             trace := w.trace ++ [Event.StatusUpdate obj none] })

/-- The call `r.Client.Get` for a configmap. -/
def clientGetConfigMap (r : HANAMappingReconciler ε) (w : World ε) (key : NamespacedName) :
    Except GoError corev1.ConfigMap × World ε :=
  match r.Client.GetConfigMap w.env key with
  | (Except.error err, env) =>
    (Except.error err, { env := env, stored := w.stored,
                         trace := w.trace ++ [Event.GetConfigMap key (some err)] })
  | (Except.ok cm, env) =>
    (Except.ok cm, { env := env, stored := w.stored,
                     trace := w.trace ++ [Event.GetConfigMap key none] })

/-- The call `r.Client.Get` for a secret. -/
def clientGetSecret (r : HANAMappingReconciler ε) (w : World ε) (key : NamespacedName) :
    Except GoError corev1.Secret × World ε :=
  match r.Client.GetSecret w.env key with
  | (Except.error err, env) =>
    (Except.error err, { env := env, stored := w.stored,
                         trace := w.trace ++ [Event.GetSecret key (some err)] })
  | (Except.ok secret, env) =>
    (Except.ok secret, { env := env, stored := w.stored,
                         trace := w.trace ++ [Event.GetSecret key none] })

/-- The call `inventoryClient.CreateMapping`. -/
def callCreateMapping (c : inventory.Client ε) (w : World ε) (serviceInstanceID : String)
    (mapping : inventory.Mapping) : Option GoError × World ε :=
  match c.CreateMapping w.env serviceInstanceID mapping with
  | (err, env) =>
    (err, { env := env, stored := w.stored,
            trace := w.trace ++ [Event.CreateMapping serviceInstanceID mapping err] })

/-- The call `inventoryClient.DeleteMapping`. -/
def callDeleteMapping (c : inventory.Client ε) (w : World ε)
    (serviceInstanceID primaryID secondaryID : String) : Option GoError × World ε :=
  match c.DeleteMapping w.env serviceInstanceID primaryID secondaryID with
  | (err, env) =>
    (err, { env := env, stored := w.stored,
            trace := w.trace ++
              [Event.DeleteMapping serviceInstanceID primaryID secondaryID err] })

/-- The method `getClusterID`. -/
def getClusterID (r : HANAMappingReconciler ε) (w : World ε) (hanaMapping : HANAMapping) :
    Except GoError String × World ε :=
  let cmNamespace :=
    if hanaMapping.Spec.BTPOperatorConfigmap.Namespace.length = 0 then
      defaultBTPOperatorConfigmapNamespace
    else hanaMapping.Spec.BTPOperatorConfigmap.Namespace
  let cmName :=
    if hanaMapping.Spec.BTPOperatorConfigmap.Name.length = 0 then
      defaultBTPOperatorConfigmapName
    else hanaMapping.Spec.BTPOperatorConfigmap.Name
  match clientGetConfigMap r w { Namespace := cmNamespace, Name := cmName } with
  | (Except.error err, w) => (Except.error err, w)
  | (Except.ok cm, w) => (Except.ok (corev1.index cm.Data "CLUSTER_ID"), w)

/-- The method `getAdminAPIAccessBinding`. -/
def getAdminAPIAccessBinding (r : HANAMappingReconciler ε) (w : World ε)
    (hanaMapping : HANAMapping) : Except GoError inventory.Binding × World ε :=
  match clientGetSecret r w
      { Namespace := hanaMapping.Spec.AdminAPIAccessSecret.Namespace,
        Name := hanaMapping.Spec.AdminAPIAccessSecret.Name } with
  | (Except.error err, w) => (Except.error err, w)
  | (Except.ok secret, w) =>
    let baseURL := corev1.index secret.Data "baseurl"
    match r.Unmarshal (corev1.index secret.Data "uaa") with
    | Except.error err => (Except.error err, w)
    | Except.ok uaa => (Except.ok { BaseURL := baseURL, UAA := uaa }, w)

/-- The in-memory effect of `meta.SetStatusCondition` on the conditions of the resource
(a nil slice counts as empty). -/
def withCondition (now : Nat) (hanaMapping : HANAMapping) (condition : metav1.Condition) :
    HANAMapping :=
  { hanaMapping with
    Status :=
      { hanaMapping.Status with
        Conditions :=
          some (meta.SetStatusCondition now (hanaMapping.Status.Conditions.getD [])
            condition) } }

/-- The method `setStatusInProgress`: the resource as changed in memory, and the result of
the status write. -/
def setStatusInProgress (r : HANAMappingReconciler ε) (w : World ε)
    (hanaMapping : HANAMapping) : HANAMapping × Option GoError × World ε :=
  let condition : metav1.Condition :=
    { Type_ := conditionTypeReady
      Status := metav1.ConditionFalse
      Reason := conditionReasonInProgress }
  let hanaMapping := withCondition (r.Now w.env) hanaMapping condition
  (hanaMapping, clientStatusUpdate r w hanaMapping)

/-- The method `setStatusSucceeded`. -/
def setStatusSucceeded (r : HANAMappingReconciler ε) (w : World ε)
    (hanaMapping : HANAMapping) (mappingID : MappingID) :
    HANAMapping × Option GoError × World ε :=
  let condition : metav1.Condition :=
    { Type_ := conditionTypeReady
      Status := metav1.ConditionTrue
      Reason := conditionReasonSucceeded }
  let hanaMapping := withCondition (r.Now w.env) hanaMapping condition
  let hanaMapping :=
    { hanaMapping with Status := { hanaMapping.Status with MappingID := some mappingID } }
  (hanaMapping, clientStatusUpdate r w hanaMapping)

/-- The method `setStatusFailed`. -/
def setStatusFailed (r : HANAMappingReconciler ε) (w : World ε)
    (hanaMapping : HANAMapping) (err : GoError) : HANAMapping × Option GoError × World ε :=
  let condition : metav1.Condition :=
    { Type_ := conditionTypeReady
      Status := metav1.ConditionFalse
      Reason := conditionReasonFailed
      Message := err.Error }
  let hanaMapping := withCondition (r.Now w.env) hanaMapping condition
  (hanaMapping, clientStatusUpdate r w hanaMapping)

/-- Lines 181-188 of `syncMapping`: the old mapping is deleted when `deleteOldMapping` holds;
the answer `ErrMappingNotFound` is not an error. The result is the error `syncMapping`
returns at this point, if any. -/
def deleteOldMapping (inventoryClient : inventory.Client ε) (w : World ε)
    (oldMappingID : Option MappingID) (newMappingID : MappingID) : Option GoError × World ε :=
  match oldMappingID with
  | some old =>
    if newMappingID != old then
      match callDeleteMapping inventoryClient w old.ServiceInstanceID old.PrimaryID
          old.SecondaryID with
      | (some inventoryErr, w) =>
        if inventoryErr != inventory.ErrMappingNotFound then (some inventoryErr, w)
        else (none, w)
      | (none, w) => (none, w)
    else (none, w)
  | none => (none, w)

/-- The method `syncMapping`. -/
def syncMapping (r : HANAMappingReconciler ε) (w : World ε) (hanaMapping : HANAMapping) :
    Except GoError MappingID × World ε :=
  match getClusterID r w hanaMapping with
  | (Except.error err, w) => (Except.error err, w)
  | (Except.ok clusterID, w) =>
    let oldMappingID := hanaMapping.Status.MappingID
    let newMappingID : MappingID :=
      { ServiceInstanceID := hanaMapping.Spec.Mapping.ServiceInstanceID
        PrimaryID := clusterID
        SecondaryID := hanaMapping.Spec.Mapping.TargetNamespace }
    let overwriteNewMapping : Bool :=
      match oldMappingID with
      | some old => newMappingID == old
      | none => false
    match getAdminAPIAccessBinding r w hanaMapping with
    | (Except.error err, w) => (Except.error err, w)
    | (Except.ok adminAPIAccessBinding, w) =>
      let inventoryClient := r.GetInventoryClient adminAPIAccessBinding
      match deleteOldMapping inventoryClient w oldMappingID newMappingID with
      | (some inventoryErr, w) => (Except.error inventoryErr, w)
      | (none, w) =>
        let mapping : inventory.Mapping :=
          { Platform := "kubernetes"
            PrimaryID := newMappingID.PrimaryID
            SecondaryID := newMappingID.SecondaryID }
        match callCreateMapping inventoryClient w newMappingID.ServiceInstanceID mapping with
        | (some inventoryErr, w) =>
          if !overwriteNewMapping ||
              (overwriteNewMapping && inventoryErr != inventory.ErrMappingAlreadyExists) then
            (Except.error inventoryErr, w)
          else (Except.ok newMappingID, w)
        | (none, w) => (Except.ok newMappingID, w)

/-- The method `deleteMapping`. -/
def deleteMapping (r : HANAMappingReconciler ε) (w : World ε) (hanaMapping : HANAMapping) :
    Option GoError × World ε :=
  match hanaMapping.Status.MappingID with
  | some mappingID =>
    match getAdminAPIAccessBinding r w hanaMapping with
    | (Except.error err, w) => (some err, w)
    | (Except.ok adminAPIAccessBinding, w) =>
      let inventoryClient := r.GetInventoryClient adminAPIAccessBinding
      match callDeleteMapping inventoryClient w mappingID.ServiceInstanceID
          mappingID.PrimaryID mappingID.SecondaryID with
      | (some inventoryErr, w) =>
        if inventoryErr != inventory.ErrMappingNotFound then (some inventoryErr, w)
        else (none, w)
      | (none, w) => (none, w)
  | none => (none, w)

/-- Lines 118-124 of `Reconcile`: the finalizer is added and the resource updated when the
finalizer is absent. The result is the resource in memory and the error of the update. -/
def attachFinalizer (r : HANAMappingReconciler ε) (w : World ε) (hanaMapping : HANAMapping) :
    HANAMapping × Option GoError × World ε :=
  if !controllerutil.ContainsFinalizer hanaMapping finalizerName then
    let hanaMapping := controllerutil.AddFinalizer hanaMapping finalizerName
    (hanaMapping, clientUpdate r w hanaMapping)
  else (hanaMapping, none, w)

/-- Lines 126-132 of `Reconcile`: nil conditions are replaced by an empty slice and the
condition InProgress is written. -/
def initStatus (r : HANAMappingReconciler ε) (w : World ε) (hanaMapping : HANAMapping) :
    HANAMapping × Option GoError × World ε :=
  match hanaMapping.Status.Conditions with
  | none =>
    setStatusInProgress r w
      { hanaMapping with Status := { hanaMapping.Status with Conditions := some [] } }
  | some _ => (hanaMapping, none, w)

/-- Lines 143-156 of `Reconcile`: the mapping is synced and the outcome written to the
status. -/
def syncAndReport (r : HANAMappingReconciler ε) (w : World ε) (hanaMapping : HANAMapping) :
    (ctrl.Result × Option GoError) × World ε :=
  match syncMapping r w hanaMapping with
  | (Except.error err, w) =>
    match setStatusFailed r w hanaMapping err with
    | (_, some statusErr, w) => (({}, some statusErr), w)
    | (_, none, w) => (({}, some err), w)
  | (Except.ok newMappingID, w) =>
    match setStatusSucceeded r w hanaMapping newMappingID with
    | (_, some statusErr, w) => (({}, some statusErr), w)
    | (_, none, w) => (({}, none), w)

/-- Lines 98-116 of `Reconcile`: the branch of a resource marked for deletion. -/
def reconcileDeletion (r : HANAMappingReconciler ε) (w : World ε)
    (hanaMapping : HANAMapping) : (ctrl.Result × Option GoError) × World ε :=
  if controllerutil.ContainsFinalizer hanaMapping finalizerName then
    match deleteMapping r w hanaMapping with
    | (some err, w) =>
      match setStatusFailed r w hanaMapping err with
      | (_, some statusErr, w) => (({}, some statusErr), w)
      | (_, none, w) => (({}, some err), w)
    | (none, w) =>
      let hanaMapping := controllerutil.RemoveFinalizer hanaMapping finalizerName
      match clientUpdate r w hanaMapping with
      | (some err, w) => (({}, some err), w)
      | (none, w) => (({}, none), w)
  else (({}, none), w)

/-- The method `Reconcile`: the result, the returned error (`none` is nil) and the world
after the invocation. -/
def Reconcile (r : HANAMappingReconciler ε) (w : World ε) (req : NamespacedName) :
    (ctrl.Result × Option GoError) × World ε :=
  match clientGet r w req with
  | (Except.error err, w) =>
    if !errors.IsNotFound err then (({}, some err), w) else (({}, none), w)
  | (Except.ok hanaMapping, w) =>
    if !metav1.IsZero hanaMapping.DeletionTimestamp then reconcileDeletion r w hanaMapping
    else
      match attachFinalizer r w hanaMapping with
      | (_, some err, w) => (({}, some err), w)
      | (hanaMapping, none, w) =>
        match initStatus r w hanaMapping with
        | (_, some statusErr, w) => (({}, some statusErr), w)
        | (hanaMapping, none, w) =>
          if hanaMapping.Spec.Mapping.TargetNamespace.length = 0 then
            let hanaMapping :=
              { hanaMapping with
                Spec :=
                  { hanaMapping.Spec with
                    Mapping :=
                      { hanaMapping.Spec.Mapping with
                        TargetNamespace := hanaMapping.Namespace } } }
            match clientUpdate r w hanaMapping with
            | (some err, w) => (({}, some err), w)
            | (none, w) => (({ Requeue := true }, none), w)
          else syncAndReport r w hanaMapping

end controller

/-! ## Derived notions used to state the properties -/

namespace controller

open hanav1

variable {ε : Type}

/-- The calls one invocation of `Reconcile` issues, oldest first. -/
def calls (r : HANAMappingReconciler ε) (w : World ε) (req : NamespacedName) : List Event :=
  (Reconcile r w req).2.trace.drop w.trace.length

/-- A call of the inventory. -/
def Event.isInventoryCall : Event → Bool
  | Event.CreateMapping _ _ _ => true
  | Event.DeleteMapping _ _ _ _ => true
  | _ => false

/-- A call of `CreateMapping`. -/
def Event.isCreateMapping : Event → Bool
  | Event.CreateMapping _ _ _ => true
  | _ => false

/-- A call of `DeleteMapping`. -/
def Event.isDeleteMapping : Event → Bool
  | Event.DeleteMapping _ _ _ _ => true
  | _ => false

/-- A read of configuration: the configmap of the cluster identity or the secret of the
binding. -/
def Event.isConfigRead : Event → Bool
  | Event.GetConfigMap _ _ => true
  | Event.GetSecret _ _ => true
  | _ => false

/-- A write of the status of the resource, whatever its answer. -/
def Event.isStatusWrite : Event → Bool
  | Event.StatusUpdate _ _ => true
  | _ => false

/-- The effect of one call on the resource the store holds: a write that answered nil
replaces it, every other call leaves it. -/
def Event.persist : Option HANAMapping → Event → Option HANAMapping
  | _, Event.Update obj none => some obj
  | _, Event.StatusUpdate obj none => some obj
  | stored, _ => stored

/-- The resource the store holds after a sequence of calls, oldest first. -/
def storeAfter (stored : Option HANAMapping) (evs : List Event) : Option HANAMapping :=
  evs.foldl Event.persist stored

/-- The conditions of the resource are as the reconciler leaves them: at most one entry, of
type Ready (the data model has this one condition type, with one entry per type). -/
def ReadyOnly (obj : HANAMapping) : Prop :=
  (obj.Status.Conditions.getD []).length ≤ 1 ∧
    ∀ c ∈ obj.Status.Conditions.getD [], c.Type_ = conditionTypeReady

/-- The store answers every call for the resource without error, the configmap read yields
the cluster identity `C`, the secret read yields the base URL `base` and a binding that
decodes, and none of these calls changes the state of the collaborators. -/
def StoreSucceeds (r : HANAMappingReconciler ε) (C base : String) : Prop :=
  (∀ s k, r.Client.Get s k = (none, s)) ∧
    (∀ s o, r.Client.Update s o = (none, s)) ∧
    (∀ s o, r.Client.StatusUpdate s o = (none, s)) ∧
    (∀ s k, ∃ cm, r.Client.GetConfigMap s k = (Except.ok cm, s) ∧
      corev1.index cm.Data "CLUSTER_ID" = C) ∧
    (∀ s k, ∃ secret uaa, r.Client.GetSecret s k = (Except.ok secret, s) ∧
      corev1.index secret.Data "baseurl" = base ∧
      r.Unmarshal (corev1.index secret.Data "uaa") = Except.ok uaa)

/-- The number of conditions of type Ready of a resource. -/
def readyCount (obj : HANAMapping) : Nat :=
  (obj.Status.Conditions.getD []).countP (fun c => c.Type_ == conditionTypeReady)

/-- The stored resource has at most one condition of type Ready, and every status write
issued so far carried exactly one. -/
def StatusCardinality (w : World ε) : Prop :=
  (∀ o, w.stored = some o → readyCount o ≤ 1) ∧
    ∀ o a, Event.StatusUpdate o a ∈ w.trace → readyCount o = 1

/-- A finite sequence of invocations of `Reconcile`, each on the world the previous one
left. -/
def ReconcileAll (r : HANAMappingReconciler ε) (w : World ε) : List NamespacedName → World ε
  | [] => w
  | req :: reqs => ReconcileAll r (Reconcile r w req).2 reqs

/-- The resource in memory and the world at the moment `Reconcile` calls `syncMapping`
(line 143); `none` when the invocation returns before that line. -/
def syncEntry (r : HANAMappingReconciler ε) (w : World ε) (req : NamespacedName) :
    Option (HANAMapping × World ε) :=
  match clientGet r w req with
  | (Except.error _, _) => none
  | (Except.ok hanaMapping, w) =>
    if !metav1.IsZero hanaMapping.DeletionTimestamp then none
    else
      match attachFinalizer r w hanaMapping with
      | (_, some _, _) => none
      | (hanaMapping, none, w) =>
        match initStatus r w hanaMapping with
        | (_, some _, _) => none
        | (hanaMapping, none, w) =>
          if hanaMapping.Spec.Mapping.TargetNamespace.length = 0 then none
          else some (hanaMapping, w)

/-- The resource in memory and the world at the moment `Reconcile` calls `deleteMapping`
(line 100); `none` when the invocation does not reach that line. -/
def deleteEntry (r : HANAMappingReconciler ε) (w : World ε) (req : NamespacedName) :
    Option (HANAMapping × World ε) :=
  match clientGet r w req with
  | (Except.error _, _) => none
  | (Except.ok hanaMapping, w) =>
    if !metav1.IsZero hanaMapping.DeletionTimestamp then
      if controllerutil.ContainsFinalizer hanaMapping finalizerName then some (hanaMapping, w)
      else none
    else none

end controller

/-! ## Test doubles

Collaborators with fixed answers, after the stub `inventoryClientStub` of the tests of the
controller, and the resources used as concrete inputs. -/

namespace controller

open hanav1

/-- The answers of collaborators that answer every call the same way. -/
structure Answers where
  get : Option GoError := none
  update : Option GoError := none
  statusUpdate : Option GoError := none
  configMap : Except GoError corev1.ConfigMap :=
    Except.ok { Data := [("CLUSTER_ID", "cluster-42")] }
  secret : Except GoError corev1.Secret :=
    Except.ok { Data := [("baseurl", "inventory.example"), ("uaa", "uaa-json")] }
  uaa : Except GoError inventory.BindingUAA :=
    Except.ok { URL := "https://uaa.example", ClientID := "id", ClientSecret := "secret" }
  createMappingsReturns : Option GoError := none
  deleteMappingsReturns : Option GoError := none

/-- The stub `inventoryClientStub` of the tests: both operations return what they were told
to return. -/
def inventoryClientStub (a : Answers) : inventory.Client Unit :=
  { CreateMapping := fun s _ _ => (a.createMappingsReturns, s)
    DeleteMapping := fun s _ _ _ => (a.deleteMappingsReturns, s) }

/-- A store client with fixed answers. -/
def clientStub {ε : Type} (a : Answers) : client.Client ε :=
  { Get := fun s _ => (a.get, s)
    Update := fun s _ => (a.update, s)
    StatusUpdate := fun s _ => (a.statusUpdate, s)
    GetConfigMap := fun s _ => (a.configMap, s)
    GetSecret := fun s _ => (a.secret, s) }

/-- A reconciler over a store with fixed answers and the given inventory clients. -/
def reconcilerOver {ε : Type} (a : Answers)
    (getInventoryClient : inventory.Binding → inventory.Client ε) : HANAMappingReconciler ε :=
  { Client := clientStub a
    GetInventoryClient := getInventoryClient
    Unmarshal := fun _ => a.uaa
    Now := fun _ => 7 }

/-- A reconciler over collaborators with fixed answers. -/
def stubReconciler (a : Answers) : HANAMappingReconciler Unit :=
  reconcilerOver a (fun _ => inventoryClientStub a)

/-- An HTTP stack that answers every POST and every DELETE with a fixed status code. -/
def fixedTransport (postStatus deleteStatus : Int) : inventory.Transport Unit :=
  { NewRequest := fun _ _ => none
    Do := fun s _ _ _ req =>
      (Except.ok (if req.Method = "POST" then postStatus else deleteStatus), s) }

/-- A resource as a user creates it: service instance `svc-1` mapped to namespace `ns-a`. -/
def newHANAMapping : HANAMapping :=
  { Namespace := "default"
    Name := "test-hanamapping"
    Generation := 1
    DeletionTimestamp := none
    Finalizers := []
    Spec :=
      { BTPOperatorConfigmap := { Namespace := "", Name := "" }
        AdminAPIAccessSecret := { Namespace := "default", Name := "admin-api-access" }
        Mapping := { ServiceInstanceID := "svc-1", TargetNamespace := "ns-a" } }
    Status := { Conditions := none, MappingID := none } }

/-- The resource after a successful sync: finalizer, condition Succeeded and the observed
mapping `svc-1`, `cluster-42`, `ns-a`. -/
def syncedHANAMapping : HANAMapping :=
  { newHANAMapping with
    Finalizers := [finalizerName]
    Status :=
      { Conditions := some [{ Type_ := conditionTypeReady, Status := metav1.ConditionTrue,
                              LastTransitionTime := 7, Reason := conditionReasonSucceeded }]
        MappingID := some { ServiceInstanceID := "svc-1", PrimaryID := "cluster-42",
                            SecondaryID := "ns-a" } } }

/-- The synced resource marked for deletion. -/
def deletingHANAMapping : HANAMapping :=
  { syncedHANAMapping with DeletionTimestamp := some 9 }

/-- The synced resource after its target namespace was edited to `ns-b`. -/
def movedHANAMapping : HANAMapping :=
  { syncedHANAMapping with
    Spec :=
      { syncedHANAMapping.Spec with
        Mapping := { ServiceInstanceID := "svc-1", TargetNamespace := "ns-b" } } }

/-- A resource as a user creates it, on which another party has reported a condition of a
type of its own. -/
def reportedHANAMapping : HANAMapping :=
  { newHANAMapping with
    Status :=
      { Conditions := some [{ Type_ := "Reachable", Status := metav1.ConditionTrue,
                              LastTransitionTime := 3, Reason := "ProbeSucceeded" }]
        MappingID := none } }

/-- The request for the resource of the examples. -/
def testRequest : NamespacedName := { Namespace := "default", Name := "test-hanamapping" }

/-- A world that holds the given resource and has seen no call. -/
def worldOf {ε : Type} (env : ε) (obj : HANAMapping) : World ε :=
  { env := env, stored := some obj, trace := [] }

end controller

/-! ## The inventory service as a set of records -/

namespace inventory

/-- A record of the inventory service, keyed by the service instance (the URL of its
mappings, which holds the service instance ID), the primary ID and the secondary ID. -/
structure Record where
  URL : String
  PrimaryID : String
  SecondaryID : String
  deriving DecidableEq, Repr

/-- The inventory service behind the HTTP stack, as a set of records: a POST answers 201 and
inserts the record when its key is absent, and answers 200 without inserting when it is
present; a DELETE answers 200 and removes the record when its key is present, and answers
404 when it is absent. -/
def service : Transport (List Record) :=
  { NewRequest := fun _ _ => none
    Do := fun s _ _ _ req =>
      if req.Method = "POST" then
        match req.Body with
        | some mapping =>
          let key : Record :=
            { URL := req.URL, PrimaryID := mapping.PrimaryID,
              SecondaryID := mapping.SecondaryID }
          if key ∈ s then (Except.ok 200, s) else (Except.ok 201, s ++ [key])
        | none => (Except.ok 400, s)
      else if req.Method = "DELETE" then
        let key : Record :=
          { URL := req.URL, PrimaryID := corev1.index req.Query "primaryID",
            SecondaryID := corev1.index req.Query "secondaryID" }
        if key ∈ s then (Except.ok 200, s.filter (fun x => x != key))
        else (Except.ok 404, s)
      else (Except.ok 405, s) }

/-- The key under which the service holds the mapping of a service instance. -/
def recordOf (baseURL serviceInstanceID primaryID secondaryID : String) : Record :=
  { URL := "https://" ++ baseURL ++ mappingsPath serviceInstanceID
    PrimaryID := primaryID
    SecondaryID := secondaryID }

end inventory

/-! ## Configuration errors -/

namespace controller

open hanav1

variable {ε : Type}

/-- The name under which `getClusterID` reads the configmap of the cluster identity (lines
229-237): the reference of the spec, with the defaults for an empty namespace or name. -/
def btpOperatorConfigmapKey (hanaMapping : HANAMapping) : NamespacedName :=
  { Namespace :=
      if hanaMapping.Spec.BTPOperatorConfigmap.Namespace.length = 0 then
        defaultBTPOperatorConfigmapNamespace
      else hanaMapping.Spec.BTPOperatorConfigmap.Namespace
    Name :=
      if hanaMapping.Spec.BTPOperatorConfigmap.Name.length = 0 then
        defaultBTPOperatorConfigmapName
      else hanaMapping.Spec.BTPOperatorConfigmap.Name }

/-- The name under which `getAdminAPIAccessBinding` reads the secret (line 251). -/
def adminAPIAccessSecretKey (hanaMapping : HANAMapping) : NamespacedName :=
  { Namespace := hanaMapping.Spec.AdminAPIAccessSecret.Namespace
    Name := hanaMapping.Spec.AdminAPIAccessSecret.Name }

/-- The configuration of the resource cannot be used, with error `e`: the configmap of the
cluster identity cannot be read, or it can and the secret of the credentials cannot be read,
or both can and the `uaa` entry of the secret does not decode. -/
def ConfigurationError (r : HANAMappingReconciler ε) (w : World ε) (hanaMapping : HANAMapping)
    (e : GoError) : Prop :=
  (∃ env, r.Client.GetConfigMap w.env (btpOperatorConfigmapKey hanaMapping) =
      (Except.error e, env)) ∨
    ∃ cm env, r.Client.GetConfigMap w.env (btpOperatorConfigmapKey hanaMapping) =
        (Except.ok cm, env) ∧
      ((∃ env1, r.Client.GetSecret env (adminAPIAccessSecretKey hanaMapping) =
          (Except.error e, env1)) ∨
        ∃ secret env1, r.Client.GetSecret env (adminAPIAccessSecretKey hanaMapping) =
            (Except.ok secret, env1) ∧
          r.Unmarshal (corev1.index secret.Data "uaa") = Except.error e)

end controller

/-! ## The inventory service with outages -/

namespace inventory

/-- The state of an inventory service that can be out of order: the records it holds, and the
status codes it answers to the next POST requests instead of serving them. -/
structure Outage where
  records : List Record
  faults : List Int
  deriving DecidableEq, Repr

/-- The inventory service of `service` with outages: a POST that meets a pending fault is
answered with the status code of the fault and changes no record; every other request is
served by `service` on the records. -/
def faultyService : Transport Outage :=
  { NewRequest := fun _ _ => none
    Do := fun s tokenURL clientID clientSecret req =>
      if req.Method = "POST" then
        match s.faults with
        | code :: rest => (Except.ok code, { records := s.records, faults := rest })
        | [] =>
          match service.Do s.records tokenURL clientID clientSecret req with
          | (response, records) => (response, { records := records, faults := [] })
      else
        match service.Do s.records tokenURL clientID clientSecret req with
        | (response, records) => (response, { records := records, faults := s.faults }) }

end inventory


/-! ## What one call does to the world -/

namespace controller

open hanav1

variable {ε : Type}

theorem clientGet_ok_inv {r : HANAMappingReconciler ε} {w w1 : World ε}
    {key : NamespacedName} {o : HANAMapping} (h : clientGet r w key = (Except.ok o, w1)) :
    w.stored = some o ∧ w1.stored = w.stored ∧ w1.trace = w.trace ++ [Event.Get key none] := by
  simp only [clientGet] at h
  rcases hg : r.Client.Get w.env key with ⟨_ | e, env1⟩ <;> simp only [hg] at h
  · rcases hs : w.stored with _ | o <;> simp only [hs] at h <;>
      simp only [Prod.mk.injEq] at h
    · exact absurd h.1 (by simp)
    · obtain ⟨h1, rfl⟩ := h
      simpa [hs] using h1
  · simp only [Prod.mk.injEq] at h
    exact absurd h.1 (by simp)

theorem clientGet_error_inv {r : HANAMappingReconciler ε} {w w1 : World ε}
    {key : NamespacedName} {e : GoError} (h : clientGet r w key = (Except.error e, w1)) :
    w1.stored = w.stored ∧ w1.trace = w.trace ++ [Event.Get key (some e)] := by
  simp only [clientGet] at h
  rcases hg : r.Client.Get w.env key with ⟨_ | e, env1⟩ <;> simp only [hg] at h
  · rcases hs : w.stored with _ | o <;> simp only [hs] at h <;>
      simp only [Prod.mk.injEq] at h
    · obtain ⟨h1, rfl⟩ := h
      simpa [hs] using h1
    · exact absurd h.1 (by simp)
  · simp only [Prod.mk.injEq] at h
    obtain ⟨h1, rfl⟩ := h
    simpa using h1

theorem clientUpdate_inv {r : HANAMappingReconciler ε} {w w1 : World ε} {obj : HANAMapping}
    {a : Option GoError} (h : clientUpdate r w obj = (a, w1)) :
    w1.trace = w.trace ++ [Event.Update obj a] ∧
      w1.stored = (if a = none then some obj else w.stored) := by
  simp only [clientUpdate] at h
  rcases hg : r.Client.Update w.env obj with ⟨_ | e, env1⟩ <;> simp only [hg] at h <;>
    simp only [Prod.mk.injEq] at h <;> obtain ⟨rfl, rfl⟩ := h <;> simp

theorem clientStatusUpdate_inv {r : HANAMappingReconciler ε} {w w1 : World ε}
    {obj : HANAMapping} {a : Option GoError} (h : clientStatusUpdate r w obj = (a, w1)) :
    w1.trace = w.trace ++ [Event.StatusUpdate obj a] ∧
      w1.stored = (if a = none then some obj else w.stored) := by
  simp only [clientStatusUpdate] at h
  rcases hg : r.Client.StatusUpdate w.env obj with ⟨_ | e, env1⟩ <;> simp only [hg] at h <;>
    simp only [Prod.mk.injEq] at h <;> obtain ⟨rfl, rfl⟩ := h <;> simp

theorem clientGetConfigMap_inv {r : HANAMappingReconciler ε} {w w1 : World ε}
    {key : NamespacedName} {res : Except GoError corev1.ConfigMap}
    (h : clientGetConfigMap r w key = (res, w1)) :
    w1.stored = w.stored ∧
      w1.trace = w.trace ++ [Event.GetConfigMap key
        (match res with | Except.ok _ => none | Except.error e => some e)] := by
  simp only [clientGetConfigMap] at h
  rcases hg : r.Client.GetConfigMap w.env key with ⟨e | cm, env1⟩ <;> simp only [hg] at h <;>
    simp only [Prod.mk.injEq] at h <;> obtain ⟨rfl, rfl⟩ := h <;> simp

theorem clientGetSecret_inv {r : HANAMappingReconciler ε} {w w1 : World ε}
    {key : NamespacedName} {res : Except GoError corev1.Secret}
    (h : clientGetSecret r w key = (res, w1)) :
    w1.stored = w.stored ∧
      w1.trace = w.trace ++ [Event.GetSecret key
        (match res with | Except.ok _ => none | Except.error e => some e)] := by
  simp only [clientGetSecret] at h
  rcases hg : r.Client.GetSecret w.env key with ⟨e | cm, env1⟩ <;> simp only [hg] at h <;>
    simp only [Prod.mk.injEq] at h <;> obtain ⟨rfl, rfl⟩ := h <;> simp

theorem callCreateMapping_inv {c : inventory.Client ε} {w w1 : World ε} {id : String}
    {mapping : inventory.Mapping} {a : Option GoError}
    (h : callCreateMapping c w id mapping = (a, w1)) :
    w1.stored = w.stored ∧ w1.trace = w.trace ++ [Event.CreateMapping id mapping a] := by
  simp only [callCreateMapping, Prod.mk.injEq] at h
  obtain ⟨rfl, rfl⟩ := h
  simp

theorem callDeleteMapping_inv {c : inventory.Client ε} {w w1 : World ε} {id p q : String}
    {a : Option GoError} (h : callDeleteMapping c w id p q = (a, w1)) :
    w1.stored = w.stored ∧ w1.trace = w.trace ++ [Event.DeleteMapping id p q a] := by
  simp only [callDeleteMapping, Prod.mk.injEq] at h
  obtain ⟨rfl, rfl⟩ := h
  simp

theorem getClusterID_inv {r : HANAMappingReconciler ε} {w w1 : World ε} {hm : HANAMapping}
    {res : Except GoError String} (h : getClusterID r w hm = (res, w1)) :
    w1.stored = w.stored ∧ ∃ k a, w1.trace = w.trace ++ [Event.GetConfigMap k a] := by
  simp only [getClusterID] at h
  generalize hk : (⟨_, _⟩ : NamespacedName) = k at h
  rcases hc : clientGetConfigMap r w k with ⟨e | cm, w2⟩ <;> simp only [hc] at h <;>
    simp only [Prod.mk.injEq] at h <;> obtain ⟨rfl, rfl⟩ := h <;>
    exact ⟨(clientGetConfigMap_inv hc).1, k, _, (clientGetConfigMap_inv hc).2⟩

theorem getAdminAPIAccessBinding_inv {r : HANAMappingReconciler ε} {w w1 : World ε}
    {hm : HANAMapping} {res : Except GoError inventory.Binding}
    (h : getAdminAPIAccessBinding r w hm = (res, w1)) :
    w1.stored = w.stored ∧ ∃ k a, w1.trace = w.trace ++ [Event.GetSecret k a] := by
  simp only [getAdminAPIAccessBinding] at h
  generalize hk : (⟨_, _⟩ : NamespacedName) = k at h
  rcases hc : clientGetSecret r w k with ⟨e | secret, w2⟩ <;> simp only [hc] at h
  · simp only [Prod.mk.injEq] at h
    obtain ⟨rfl, rfl⟩ := h
    exact ⟨(clientGetSecret_inv hc).1, k, _, (clientGetSecret_inv hc).2⟩
  · split at h <;> simp only [Prod.mk.injEq] at h <;> obtain ⟨rfl, rfl⟩ := h <;>
      exact ⟨(clientGetSecret_inv hc).1, k, _, (clientGetSecret_inv hc).2⟩

theorem deleteMapping_inv {r : HANAMappingReconciler ε} {w w1 : World ε} {hm : HANAMapping}
    {m : MappingID} {res : Option GoError} (hmid : hm.Status.MappingID = some m)
    (h : deleteMapping r w hm = (res, w1)) :
    w1.stored = w.stored ∧ ∃ k a,
      ((∃ e, res = some e ∧ w1.trace = w.trace ++ [Event.GetSecret k a]) ∨
        (∃ d, w1.trace = w.trace ++ [Event.GetSecret k a,
            Event.DeleteMapping m.ServiceInstanceID m.PrimaryID m.SecondaryID d] ∧
          res = (if d = some inventory.ErrMappingNotFound then none else d))) := by
  simp only [deleteMapping, hmid] at h
  rcases hb : getAdminAPIAccessBinding r w hm with ⟨e | b, w2⟩ <;> simp only [hb] at h
  · simp only [Prod.mk.injEq] at h
    obtain ⟨rfl, rfl⟩ := h
    obtain ⟨hs, k, a, ht⟩ := getAdminAPIAccessBinding_inv hb
    exact ⟨hs, k, a, Or.inl ⟨e, rfl, ht⟩⟩
  · obtain ⟨hs, k, a, ht⟩ := getAdminAPIAccessBinding_inv hb
    rcases hd : callDeleteMapping (r.GetInventoryClient b) w2 m.ServiceInstanceID m.PrimaryID
      m.SecondaryID with ⟨_ | de, w3⟩ <;> simp only [hd] at h
    · simp only [Prod.mk.injEq] at h
      obtain ⟨rfl, rfl⟩ := h
      obtain ⟨hs3, ht3⟩ := callDeleteMapping_inv hd
      refine ⟨hs3.trans hs, k, a, Or.inr ⟨none, ?_, by simp⟩⟩
      simp [ht3, ht]
    · obtain ⟨hs3, ht3⟩ := callDeleteMapping_inv hd
      split at h <;> simp only [Prod.mk.injEq] at h <;> obtain ⟨rfl, rfl⟩ := h <;>
        refine ⟨hs3.trans hs, k, a, Or.inr ⟨some de, by simp [ht3, ht], ?_⟩⟩ <;> simp_all

theorem deleteMapping_nil_inv {r : HANAMappingReconciler ε} {w w1 : World ε}
    {hm : HANAMapping} {res : Option GoError} (hmid : hm.Status.MappingID = none)
    (h : deleteMapping r w hm = (res, w1)) : res = none ∧ w1 = w := by
  simp only [deleteMapping, hmid, Prod.mk.injEq] at h
  exact ⟨h.1.symm, h.2.symm⟩

theorem setStatusFailed_inv {r : HANAMappingReconciler ε} {w w1 : World ε}
    {hm hm1 : HANAMapping} {e : GoError} {a : Option GoError}
    (h : setStatusFailed r w hm e = (hm1, a, w1)) :
    hm1 = withCondition (r.Now w.env) hm
        { Type_ := conditionTypeReady, Status := metav1.ConditionFalse,
          Reason := conditionReasonFailed, Message := e.Error } ∧
      w1.trace = w.trace ++ [Event.StatusUpdate hm1 a] ∧
      w1.stored = (if a = none then some hm1 else w.stored) := by
  have h1 := congrArg Prod.fst h
  have h2 := congrArg Prod.snd h
  simp only [setStatusFailed] at h1 h2
  subst h1
  exact ⟨rfl, clientStatusUpdate_inv h2⟩

theorem setStatusSucceeded_inv {r : HANAMappingReconciler ε} {w w1 : World ε}
    {hm hm1 : HANAMapping} {mappingID : MappingID} {a : Option GoError}
    (h : setStatusSucceeded r w hm mappingID = (hm1, a, w1)) :
    (hm1.Status.Conditions = some (meta.SetStatusCondition (r.Now w.env)
        (hm.Status.Conditions.getD [])
        { Type_ := conditionTypeReady, Status := metav1.ConditionTrue,
          Reason := conditionReasonSucceeded }) ∧
      hm1.Status.MappingID = some mappingID ∧ hm1.Finalizers = hm.Finalizers ∧
      hm1.Spec = hm.Spec ∧ hm1.DeletionTimestamp = hm.DeletionTimestamp) ∧
      w1.trace = w.trace ++ [Event.StatusUpdate hm1 a] ∧
      w1.stored = (if a = none then some hm1 else w.stored) := by
  have h1 := congrArg Prod.fst h
  have h2 := congrArg Prod.snd h
  simp only [setStatusSucceeded] at h1 h2
  subst h1
  exact ⟨by simp [withCondition], clientStatusUpdate_inv h2⟩

theorem setStatusInProgress_inv {r : HANAMappingReconciler ε} {w w1 : World ε}
    {hm hm1 : HANAMapping} {a : Option GoError}
    (h : setStatusInProgress r w hm = (hm1, a, w1)) :
    hm1 = withCondition (r.Now w.env) hm
        { Type_ := conditionTypeReady, Status := metav1.ConditionFalse,
          Reason := conditionReasonInProgress } ∧
      w1.trace = w.trace ++ [Event.StatusUpdate hm1 a] ∧
      w1.stored = (if a = none then some hm1 else w.stored) := by
  have h1 := congrArg Prod.fst h
  have h2 := congrArg Prod.snd h
  simp only [setStatusInProgress] at h1 h2
  subst h1
  exact ⟨rfl, clientStatusUpdate_inv h2⟩

end controller

namespace controller
open hanav1
variable {ε : Type}

theorem Reconcile_of_syncEntry (r : HANAMappingReconciler ε) (w : World ε)
    (req : NamespacedName) (hm : HANAMapping) (w2 : World ε)
    (h : syncEntry r w req = some (hm, w2)) : Reconcile r w req = syncAndReport r w2 hm := by
  simp only [syncEntry] at h
  simp only [Reconcile]
  repeat' split at h
  all_goals simp_all

theorem Reconcile_of_deleteEntry (r : HANAMappingReconciler ε) (w : World ε)
    (req : NamespacedName) (hm : HANAMapping) (w0 : World ε)
    (h : deleteEntry r w req = some (hm, w0)) :
    Reconcile r w req = reconcileDeletion r w0 hm := by
  simp only [deleteEntry] at h
  simp only [Reconcile]
  repeat' split at h
  all_goals simp_all

end controller

namespace controller

open hanav1

variable {ε : Type}

theorem getClusterID_ok_inv {r : HANAMappingReconciler ε} {w w1 : World ε} {hm : HANAMapping}
    {c : String} (h : getClusterID r w hm = (Except.ok c, w1)) :
    w1.stored = w.stored ∧ ∃ k, w1.trace = w.trace ++ [Event.GetConfigMap k none] := by
  simp only [getClusterID] at h
  generalize hk : (⟨_, _⟩ : NamespacedName) = k at h
  rcases hc : clientGetConfigMap r w k with ⟨e | cm, w2⟩ <;> simp only [hc] at h <;>
    simp only [Prod.mk.injEq] at h
  · exact absurd h.1 (by simp)
  · obtain ⟨-, rfl⟩ := h
    exact ⟨(clientGetConfigMap_inv hc).1, k, (clientGetConfigMap_inv hc).2⟩

theorem getClusterID_error_inv {r : HANAMappingReconciler ε} {w w1 : World ε}
    {hm : HANAMapping} {e : GoError} (h : getClusterID r w hm = (Except.error e, w1)) :
    w1.stored = w.stored ∧ ∃ k, w1.trace = w.trace ++ [Event.GetConfigMap k (some e)] := by
  simp only [getClusterID] at h
  generalize hk : (⟨_, _⟩ : NamespacedName) = k at h
  rcases hc : clientGetConfigMap r w k with ⟨e | cm, w2⟩ <;> simp only [hc] at h <;>
    simp only [Prod.mk.injEq] at h
  · obtain ⟨h1, rfl⟩ := h
    injection h1 with h1
    subst h1
    exact ⟨(clientGetConfigMap_inv hc).1, k, (clientGetConfigMap_inv hc).2⟩
  · exact absurd h.1 (by simp)

theorem getAdminAPIAccessBinding_ok_inv {r : HANAMappingReconciler ε} {w w1 : World ε}
    {hm : HANAMapping} {b : inventory.Binding}
    (h : getAdminAPIAccessBinding r w hm = (Except.ok b, w1)) :
    w1.stored = w.stored ∧ ∃ k, w1.trace = w.trace ++ [Event.GetSecret k none] := by
  simp only [getAdminAPIAccessBinding] at h
  generalize hk : (⟨_, _⟩ : NamespacedName) = k at h
  rcases hc : clientGetSecret r w k with ⟨e | secret, w2⟩ <;> simp only [hc] at h
  · simp only [Prod.mk.injEq] at h
    exact absurd h.1 (by simp)
  · split at h <;> simp only [Prod.mk.injEq] at h
    · exact absurd h.1 (by simp)
    · obtain ⟨-, rfl⟩ := h
      exact ⟨(clientGetSecret_inv hc).1, k, (clientGetSecret_inv hc).2⟩

end controller

/-! ## Conditions -/

namespace meta

open metav1

theorem updateFirst_map_type (now : Nat) (c : Condition) (conds : List Condition) :
    (updateFirst now c conds).map (fun x => x.Type_) = conds.map (fun x => x.Type_) := by
  induction conds with
  | nil => rfl
  | cons d ds ih =>
    simp only [updateFirst]
    split
    · simp [mergeCondition]
    · simp [ih]

theorem find_updateFirst (now : Nat) (c : Condition) (conds : List Condition)
    (h : FindStatusCondition conds c.Type_ ≠ none) :
    ∃ d, FindStatusCondition (updateFirst now c conds) c.Type_ = some d ∧
      d.Type_ = c.Type_ ∧ d.Status = c.Status ∧ d.Reason = c.Reason ∧
      d.Message = c.Message := by
  induction conds with
  | nil => simp [FindStatusCondition] at h
  | cons d ds ih =>
    simp only [updateFirst]
    by_cases hd : d.Type_ = c.Type_
    · simp [hd, FindStatusCondition, mergeCondition]
    · have h2 : FindStatusCondition ds c.Type_ ≠ none := by
        simpa [FindStatusCondition, List.find?_cons, hd] using h
      obtain ⟨x, hx, hx2⟩ := ih h2
      refine ⟨x, ?_, hx2⟩
      simpa [FindStatusCondition, List.find?_cons, hd] using hx

/-- After `SetStatusCondition` the first condition of the reported type carries the reported
status, reason and message. -/
theorem find_SetStatusCondition (now : Nat) (conds : List Condition) (c : Condition) :
    ∃ d, FindStatusCondition (SetStatusCondition now conds c) c.Type_ = some d ∧
      d.Type_ = c.Type_ ∧ d.Status = c.Status ∧ d.Reason = c.Reason ∧
      d.Message = c.Message := by
  unfold SetStatusCondition
  rcases hf : FindStatusCondition conds c.Type_ with _ | x
  · simp only
    unfold FindStatusCondition at hf ⊢
    simp [List.find?_append, hf]
  · simp only
    exact find_updateFirst now c conds (by simp [hf])

/-- Reporting a condition adds one entry of its type when there is none, and changes the
number of entries of no other type. -/
theorem countP_SetStatusCondition (now : Nat) (conds : List Condition) (c : Condition)
    (t : String) :
    (SetStatusCondition now conds c).countP (fun x => x.Type_ == t) =
      if FindStatusCondition conds c.Type_ = none ∧ c.Type_ = t then
        conds.countP (fun x => x.Type_ == t) + 1
      else conds.countP (fun x => x.Type_ == t) := by
  unfold SetStatusCondition
  rcases hf : FindStatusCondition conds c.Type_ with _ | x
  · by_cases ht : c.Type_ = t <;> simp [List.countP_append, ht]
  · simp only
    have h := updateFirst_map_type now c conds
    have h1 : ∀ l : List Condition, l.countP (fun x => x.Type_ == t) =
        (l.map (fun x => x.Type_)).countP (fun s => s == t) := by
      intro l
      rw [List.countP_map]
      rfl
    rw [h1, h1, h]
    simp

theorem length_SetStatusCondition (now : Nat) (conds : List Condition) (c : Condition) :
    (SetStatusCondition now conds c).length =
      if FindStatusCondition conds c.Type_ = none then conds.length + 1 else conds.length := by
  unfold SetStatusCondition
  rcases hf : FindStatusCondition conds c.Type_ with _ | x
  · simp
  · simp only
    have h := congrArg List.length (updateFirst_map_type now c conds)
    simpa using h

/-- On conditions as the reconciler leaves them (at most one entry, of the reported type) a
report leaves exactly one entry, which carries the reported status, reason and message. -/
theorem SetStatusCondition_single (now : Nat) (conds : List Condition) (c : Condition)
    (hlen : conds.length ≤ 1) (hty : ∀ x ∈ conds, x.Type_ = c.Type_) :
    ∃ d, SetStatusCondition now conds c = [d] ∧ d.Type_ = c.Type_ ∧ d.Status = c.Status ∧
      d.Reason = c.Reason ∧ d.Message = c.Message := by
  match conds, hlen, hty with
  | [], _, _ => exact ⟨_, rfl, rfl, rfl, rfl, rfl⟩
  | [x], _, hty =>
    have hx : x.Type_ = c.Type_ := hty x (by simp)
    exact ⟨mergeCondition now x c,
      by simp [SetStatusCondition, FindStatusCondition, updateFirst, hx],
      by simp [mergeCondition, hx], rfl, rfl, rfl⟩
  | _ :: _ :: _, hlen, _ => simp at hlen

end meta

/-! ## The steps of `Reconcile` -/

namespace controller

open hanav1

variable {ε : Type}

theorem attachFinalizer_inv {r : HANAMappingReconciler ε} {w w1 : World ε}
    {hm hm1 : HANAMapping} {a : Option GoError}
    (h : attachFinalizer r w hm = (hm1, a, w1)) :
    (controllerutil.ContainsFinalizer hm finalizerName = true ∧ hm1 = hm ∧ a = none ∧
        w1 = w) ∨
      (controllerutil.ContainsFinalizer hm finalizerName = false ∧
        hm1 = controllerutil.AddFinalizer hm finalizerName ∧
        w1.trace = w.trace ++ [Event.Update hm1 a] ∧
        w1.stored = (if a = none then some hm1 else w.stored)) := by
  simp only [attachFinalizer] at h
  by_cases hc : controllerutil.ContainsFinalizer hm finalizerName = true
  · simp only [hc, Bool.not_true, Bool.false_eq_true, if_false, Prod.mk.injEq] at h
    exact Or.inl ⟨hc, h.1.symm, h.2.1.symm, h.2.2.symm⟩
  · simp only [Bool.not_eq_true] at hc
    simp only [hc, Bool.not_false, if_true, Prod.mk.injEq] at h
    obtain ⟨rfl, h2⟩ := h
    exact Or.inr ⟨hc, rfl, clientUpdate_inv h2⟩

theorem initStatus_inv {r : HANAMappingReconciler ε} {w w1 : World ε}
    {hm hm1 : HANAMapping} {a : Option GoError}
    (h : initStatus r w hm = (hm1, a, w1)) :
    (hm.Status.Conditions ≠ none ∧ hm1 = hm ∧ a = none ∧ w1 = w) ∨
      (hm.Status.Conditions = none ∧
        hm1 = withCondition (r.Now w.env)
          { hm with Status := { hm.Status with Conditions := some [] } }
          { Type_ := conditionTypeReady, Status := metav1.ConditionFalse,
            Reason := conditionReasonInProgress } ∧
        w1.trace = w.trace ++ [Event.StatusUpdate hm1 a] ∧
        w1.stored = (if a = none then some hm1 else w.stored)) := by
  simp only [initStatus] at h
  rcases hc : hm.Status.Conditions with _ | conds
  · simp only [hc] at h
    exact Or.inr ⟨rfl, setStatusInProgress_inv h⟩
  · simp only [hc, Prod.mk.injEq] at h
    exact Or.inl ⟨by simp, h.1.symm, h.2.1.symm, h.2.2.symm⟩

theorem deleteOldMapping_stored (c : inventory.Client ε) (w : World ε)
    (old : Option MappingID) (new : MappingID) :
    (deleteOldMapping c w old new).2.stored = w.stored := by
  unfold deleteOldMapping
  rcases old with _ | old
  · rfl
  · simp only
    split
    · rcases hd : callDeleteMapping c w old.ServiceInstanceID old.PrimaryID old.SecondaryID
        with ⟨_ | e, w1⟩
      · exact (callDeleteMapping_inv hd).1
      · simp only
        split <;> exact (callDeleteMapping_inv hd).1
    · rfl

/-- The method `syncMapping` writes nothing to the store. -/
theorem syncMapping_stored (r : HANAMappingReconciler ε) (w : World ε) (hm : HANAMapping) :
    (syncMapping r w hm).2.stored = w.stored := by
  unfold syncMapping
  rcases hc : getClusterID r w hm with ⟨e | c, w1⟩
  · exact (getClusterID_inv hc).1
  · have hs1 := (getClusterID_inv hc).1
    simp only
    rcases hb : getAdminAPIAccessBinding r w1 hm with ⟨e | b, w2⟩
    · exact (getAdminAPIAccessBinding_inv hb).1.trans hs1
    · have hs2 := (getAdminAPIAccessBinding_inv hb).1
      simp only
      have hs3 := deleteOldMapping_stored (r.GetInventoryClient b) w2 hm.Status.MappingID
        { ServiceInstanceID := hm.Spec.Mapping.ServiceInstanceID, PrimaryID := c,
          SecondaryID := hm.Spec.Mapping.TargetNamespace }
      rcases hd : deleteOldMapping (r.GetInventoryClient b) w2 hm.Status.MappingID
        { ServiceInstanceID := hm.Spec.Mapping.ServiceInstanceID, PrimaryID := c,
          SecondaryID := hm.Spec.Mapping.TargetNamespace } with ⟨_ | e, w3⟩
      · rw [hd] at hs3
        simp only
        rcases hcm : callCreateMapping (r.GetInventoryClient b) w3
          hm.Spec.Mapping.ServiceInstanceID
          { Platform := "kubernetes", PrimaryID := c,
            SecondaryID := hm.Spec.Mapping.TargetNamespace } with ⟨_ | e, w4⟩
        · exact (callCreateMapping_inv hcm).1.trans (hs3.trans (hs2.trans hs1))
        · simp only
          split <;> exact (callCreateMapping_inv hcm).1.trans (hs3.trans (hs2.trans hs1))
      · rw [hd] at hs3
        exact hs3.trans (hs2.trans hs1)

/-- At the moment `Reconcile` calls `syncMapping` the resource in memory is the stored one;
it is not marked for deletion, carries the finalizer, has conditions and a target namespace,
and its spec and observed mapping are those of the resource stored before the invocation. -/
theorem syncEntry_inv {r : HANAMappingReconciler ε} {w w2 : World ε} {req : NamespacedName}
    {obj hm : HANAMapping} (hstored : w.stored = some obj)
    (h : syncEntry r w req = some (hm, w2)) :
    w2.stored = some hm ∧ hm.Status.MappingID = obj.Status.MappingID ∧ hm.Spec = obj.Spec ∧
      hm.Namespace = obj.Namespace ∧
      metav1.IsZero obj.DeletionTimestamp = true ∧
      hm.DeletionTimestamp = obj.DeletionTimestamp ∧
      controllerutil.ContainsFinalizer hm finalizerName = true ∧
      obj.Spec.Mapping.TargetNamespace.length ≠ 0 ∧
      (hm.Status.Conditions = obj.Status.Conditions ∨
        (obj.Status.Conditions = none ∧
          ∃ now, hm.Status.Conditions = some (meta.SetStatusCondition now []
            { Type_ := conditionTypeReady, Status := metav1.ConditionFalse,
              Reason := conditionReasonInProgress }))) := by
  simp only [syncEntry] at h
  rcases hg : clientGet r w req with ⟨ge | o, w0⟩ <;> simp only [hg] at h
  · exact absurd h (by simp)
  obtain ⟨ho, hs0, -⟩ := clientGet_ok_inv hg
  obtain rfl : obj = o := by simpa [hstored] using ho
  by_cases hz : metav1.IsZero obj.DeletionTimestamp = true
  swap
  · simp [hz] at h
  simp only [hz, Bool.not_true, Bool.false_eq_true, if_false] at h
  rcases ha : attachFinalizer r w0 obj with ⟨hm1, _ | ae, w1⟩ <;> simp only [ha] at h
  swap
  · exact absurd h (by simp)
  have hfacts : w1.stored = some hm1 ∧ hm1.Status = obj.Status ∧ hm1.Spec = obj.Spec ∧
      hm1.Namespace = obj.Namespace ∧ hm1.DeletionTimestamp = obj.DeletionTimestamp ∧
      controllerutil.ContainsFinalizer hm1 finalizerName = true := by
    rcases attachFinalizer_inv ha with ⟨hc, rfl, -, rfl⟩ | ⟨hc, rfl, -, hs⟩
    · exact ⟨hs0.trans hstored, rfl, rfl, rfl, rfl, hc⟩
    · refine ⟨by simpa using hs, ?_⟩
      have hc2 : finalizerName ∉ obj.Finalizers := by
        simpa [controllerutil.ContainsFinalizer] using hc
      simp [controllerutil.AddFinalizer, controllerutil.ContainsFinalizer, hc2]
  obtain ⟨hs1, hst1, hsp1, hn1, hd1, hf1⟩ := hfacts
  rcases hi : initStatus r w1 hm1 with ⟨hm2, _ | ie, w3⟩ <;> simp only [hi] at h
  swap
  · exact absurd h (by simp)
  rcases initStatus_inv hi with ⟨hc, rfl, -, rfl⟩ | ⟨hc, rfl, -, hs⟩
  · split at h
    · exact absurd h (by simp)
    · rename_i hlen
      simp only [Option.some.injEq, Prod.mk.injEq] at h
      obtain ⟨rfl, rfl⟩ := h
      rw [hsp1] at hlen
      exact ⟨hs1, by rw [hst1], hsp1, hn1, hz, hd1, hf1, hlen, Or.inl (by rw [hst1])⟩
  · split at h
    · exact absurd h (by simp)
    · rename_i hlen
      simp only [Option.some.injEq, Prod.mk.injEq] at h
      obtain ⟨rfl, rfl⟩ := h
      simp only [withCondition] at hlen
      rw [hsp1] at hlen
      refine ⟨by simpa using hs, ?_, ?_, ?_, hz, ?_, ?_, hlen, Or.inr ⟨?_, ?_⟩⟩
      · simp [withCondition, hst1]
      · simp [withCondition, hsp1]
      · simp [withCondition, hn1]
      · simp [withCondition, hd1]
      · simpa [withCondition, controllerutil.ContainsFinalizer] using hf1
      · rw [← hst1]; exact hc
      · exact ⟨r.Now w1.env, by simp [withCondition]⟩

end controller

/-! ## Runs in which the store answers without error -/

namespace controller

open hanav1

variable {ε : Type}

theorem string_length_eq_zero (s : String) : s.length = 0 ↔ s = "" := by
  constructor
  · intro h
    cases s with
    | mk d =>
      have hd : d = [] := by simpa [String.length] using h
      subst hd
      rfl
  · rintro rfl
    rfl

theorem clientGet_ok {r : HANAMappingReconciler ε} {w : World ε} {key : NamespacedName}
    {o : HANAMapping} (h : (r.Client.Get w.env key).1 = none) (hs : w.stored = some o) :
    clientGet r w key =
      (Except.ok o,
        { env := (r.Client.Get w.env key).2
          stored := some o
          trace := w.trace ++ [Event.Get key none] }) := by
  simp only [clientGet]
  rcases hg : r.Client.Get w.env key with ⟨a, env1⟩
  rw [hg] at h
  obtain rfl : a = none := h
  simp [hs]

theorem clientUpdate_ok {r : HANAMappingReconciler ε} {w : World ε} {o : HANAMapping}
    (h : (r.Client.Update w.env o).1 = none) :
    clientUpdate r w o =
      (none,
        { env := (r.Client.Update w.env o).2
          stored := some o
          trace := w.trace ++ [Event.Update o none] }) := by
  simp only [clientUpdate]
  rcases hg : r.Client.Update w.env o with ⟨a, env1⟩
  rw [hg] at h
  obtain rfl : a = none := h
  simp

theorem clientStatusUpdate_ok {r : HANAMappingReconciler ε} {w : World ε} {o : HANAMapping}
    (h : (r.Client.StatusUpdate w.env o).1 = none) :
    clientStatusUpdate r w o =
      (none,
        { env := (r.Client.StatusUpdate w.env o).2
          stored := some o
          trace := w.trace ++ [Event.StatusUpdate o none] }) := by
  simp only [clientStatusUpdate]
  rcases hg : r.Client.StatusUpdate w.env o with ⟨a, env1⟩
  rw [hg] at h
  obtain rfl : a = none := h
  simp

theorem attachFinalizer_ok {r : HANAMappingReconciler ε} (w : World ε) (hm : HANAMapping)
    (hupd : ∀ s o, (r.Client.Update s o).1 = none) :
    ∃ hm1 w1, attachFinalizer r w hm = (hm1, none, w1) := by
  simp only [attachFinalizer]
  split
  · exact ⟨_, _, by rw [clientUpdate_ok (hupd _ _)]⟩
  · exact ⟨_, _, rfl⟩

theorem initStatus_ok {r : HANAMappingReconciler ε} (w : World ε) (hm : HANAMapping)
    (hsupd : ∀ s o, (r.Client.StatusUpdate s o).1 = none) :
    ∃ hm1 w1, initStatus r w hm = (hm1, none, w1) := by
  simp only [initStatus]
  split
  · simp only [setStatusInProgress]
    exact ⟨_, _, by rw [clientStatusUpdate_ok (hsupd _ _)]⟩
  · exact ⟨_, _, rfl⟩

/-- When the store answers every call without error, `Reconcile` reaches `syncMapping` for
every stored resource that is not marked for deletion and has a target namespace. -/
theorem syncEntry_ok {r : HANAMappingReconciler ε} (w : World ε) (req : NamespacedName)
    (obj : HANAMapping) (hstored : w.stored = some obj)
    (hdel : metav1.IsZero obj.DeletionTimestamp = true)
    (htarget : obj.Spec.Mapping.TargetNamespace ≠ "")
    (hget : ∀ s k, (r.Client.Get s k).1 = none)
    (hupd : ∀ s o, (r.Client.Update s o).1 = none)
    (hsupd : ∀ s o, (r.Client.StatusUpdate s o).1 = none) :
    ∃ hm w2, syncEntry r w req = some (hm, w2) := by
  have hg := clientGet_ok (hget w.env req) hstored
  obtain ⟨hm1, w1, ha⟩ := attachFinalizer_ok
    { env := (r.Client.Get w.env req).2, stored := some obj,
      trace := w.trace ++ [Event.Get req none] } obj hupd
  obtain ⟨hm2, w2, hi⟩ := initStatus_ok w1 hm1 hsupd
  have hsp1 : hm1.Spec = obj.Spec := by
    rcases attachFinalizer_inv ha with ⟨-, rfl, -, -⟩ | ⟨-, rfl, -, -⟩
    · rfl
    · simp only [controllerutil.AddFinalizer]
      split <;> rfl
  have hsp2 : hm2.Spec = obj.Spec := by
    rcases initStatus_inv hi with ⟨-, rfl, -, -⟩ | ⟨-, rfl, -, -⟩
    · exact hsp1
    · simpa [withCondition] using hsp1
  have hlen : ¬ hm2.Spec.Mapping.TargetNamespace.length = 0 := by
    rw [hsp2]
    intro h
    exact htarget ((string_length_eq_zero _).mp h)
  refine ⟨hm2, w2, ?_⟩
  simp only [syncEntry, hg, hdel, Bool.not_true, Bool.false_eq_true, if_false, ha, hi, hlen]

end controller

namespace controller

open hanav1

variable {ε : Type}

/-- Before it calls `syncMapping`, `Reconcile` has called the store only. -/
theorem syncEntry_trace {r : HANAMappingReconciler ε} {w w2 : World ε}
    {req : NamespacedName} {hm : HANAMapping} (h : syncEntry r w req = some (hm, w2)) :
    ∃ pre, w2.trace = w.trace ++ pre ∧ ∀ ev ∈ pre, ev.isInventoryCall = false := by
  simp only [syncEntry] at h
  rcases hg : clientGet r w req with ⟨ge | o, w0⟩ <;> simp only [hg] at h
  · exact absurd h (by simp)
  obtain ⟨-, -, ht0⟩ := clientGet_ok_inv hg
  split at h
  · exact absurd h (by simp)
  rcases ha : attachFinalizer r w0 o with ⟨hm1, _ | ae, w1⟩ <;> simp only [ha] at h
  swap
  · exact absurd h (by simp)
  rcases hi : initStatus r w1 hm1 with ⟨hm2, _ | ie, w3⟩ <;> simp only [hi] at h
  swap
  · exact absurd h (by simp)
  split at h
  · exact absurd h (by simp)
  simp only [Option.some.injEq, Prod.mk.injEq] at h
  obtain ⟨-, rfl⟩ := h
  rcases attachFinalizer_inv ha with ⟨-, -, -, rfl⟩ | ⟨-, -, ht1, -⟩ <;>
    rcases initStatus_inv hi with ⟨-, -, -, rfl⟩ | ⟨-, -, ht3, -⟩
  · exact ⟨_, ht0, by simp [Event.isInventoryCall]⟩
  · exact ⟨_, by rw [ht3, ht0, List.append_assoc], by simp [Event.isInventoryCall]⟩
  · exact ⟨_, by rw [ht1, ht0, List.append_assoc], by simp [Event.isInventoryCall]⟩
  · exact ⟨_, by rw [ht3, ht1, ht0, List.append_assoc, List.append_assoc],
      by simp [Event.isInventoryCall]⟩

theorem getClusterID_ok {r : HANAMappingReconciler ε} (w : World ε) (hm : HANAMapping)
    (C : String)
    (hcm : ∀ s k, ∃ cm, (r.Client.GetConfigMap s k).1 = Except.ok cm ∧
      corev1.index cm.Data "CLUSTER_ID" = C) :
    ∃ w1, getClusterID r w hm = (Except.ok C, w1) := by
  simp only [getClusterID, clientGetConfigMap]
  generalize (⟨_, _⟩ : NamespacedName) = k
  obtain ⟨cm, h1, h2⟩ := hcm w.env k
  rcases hg : r.Client.GetConfigMap w.env k with ⟨a, env1⟩
  rw [hg] at h1
  obtain rfl : a = Except.ok cm := h1
  simp only [h2]
  exact ⟨_, rfl⟩

theorem getAdminAPIAccessBinding_ok {r : HANAMappingReconciler ε} (w : World ε)
    (hm : HANAMapping)
    (hsec : ∀ s k, ∃ secret uaa, (r.Client.GetSecret s k).1 = Except.ok secret ∧
      r.Unmarshal (corev1.index secret.Data "uaa") = Except.ok uaa) :
    ∃ b w1, getAdminAPIAccessBinding r w hm = (Except.ok b, w1) := by
  simp only [getAdminAPIAccessBinding, clientGetSecret]
  generalize (⟨_, _⟩ : NamespacedName) = k
  obtain ⟨secret, uaa, h1, h2⟩ := hsec w.env k
  rcases hg : r.Client.GetSecret w.env k with ⟨a, env1⟩
  rw [hg] at h1
  obtain rfl : a = Except.ok secret := h1
  simp only [h2]
  exact ⟨_, _, rfl⟩

theorem callCreateMapping_ok {c : inventory.Client ε} {w : World ε} {id : String}
    {mapping : inventory.Mapping} (h : (c.CreateMapping w.env id mapping).1 = none) :
    ∃ w1, callCreateMapping c w id mapping = (none, w1) := by
  simp only [callCreateMapping, h]
  exact ⟨_, rfl⟩

/-- With no observed mapping, configuration that can be read and an inventory that accepts
the create, `syncMapping` returns the desired identity after one `CreateMapping`. -/
theorem syncMapping_create_ok {r : HANAMappingReconciler ε} (w : World ε) (hm : HANAMapping)
    (C : String) (hobs : hm.Status.MappingID = none)
    (hcm : ∀ s k, ∃ cm, (r.Client.GetConfigMap s k).1 = Except.ok cm ∧
      corev1.index cm.Data "CLUSTER_ID" = C)
    (hsec : ∀ s k, ∃ secret uaa, (r.Client.GetSecret s k).1 = Except.ok secret ∧
      r.Unmarshal (corev1.index secret.Data "uaa") = Except.ok uaa)
    (hcreate : ∀ b s id m, ((r.GetInventoryClient b).CreateMapping s id m).1 = none) :
    ∃ w3 k1 k2, syncMapping r w hm =
        (Except.ok { ServiceInstanceID := hm.Spec.Mapping.ServiceInstanceID, PrimaryID := C,
                     SecondaryID := hm.Spec.Mapping.TargetNamespace }, w3) ∧
      w3.trace = w.trace ++ [Event.GetConfigMap k1 none, Event.GetSecret k2 none,
        Event.CreateMapping hm.Spec.Mapping.ServiceInstanceID
          { Platform := "kubernetes", PrimaryID := C,
            SecondaryID := hm.Spec.Mapping.TargetNamespace } none] := by
  obtain ⟨w1, hc⟩ := getClusterID_ok w hm C hcm
  obtain ⟨b, w2, hb⟩ := getAdminAPIAccessBinding_ok w1 hm hsec
  obtain ⟨w3, hcr⟩ := callCreateMapping_ok (hcreate b w2.env hm.Spec.Mapping.ServiceInstanceID
    { Platform := "kubernetes", PrimaryID := C,
      SecondaryID := hm.Spec.Mapping.TargetNamespace })
  obtain ⟨-, k1, ht1⟩ := getClusterID_ok_inv hc
  obtain ⟨-, k2, ht2⟩ := getAdminAPIAccessBinding_ok_inv hb
  obtain ⟨-, ht3⟩ := callCreateMapping_inv hcr
  refine ⟨w3, k1, k2, ?_, by simp [ht3, ht2, ht1]⟩
  simp only [syncMapping, hc, hb, hobs, deleteOldMapping, hcr]

end controller

/-! ## Runs against the inventory service -/

namespace controller

open hanav1

variable {ε : Type}

theorem service_create (b : inventory.Binding) (s : List inventory.Record) (S P Q : String) :
    (inventory.NewClient inventory.service b).CreateMapping s S
      { Platform := "kubernetes", PrimaryID := P, SecondaryID := Q } =
      if inventory.recordOf b.BaseURL S P Q ∈ s then (some inventory.ErrMappingAlreadyExists, s)
      else (none, s ++ [inventory.recordOf b.BaseURL S P Q]) := by
  by_cases h : inventory.recordOf b.BaseURL S P Q ∈ s
  · have h' := h
    simp only [inventory.recordOf] at h'
    simp [inventory.NewClient, inventory.CreateMapping, inventory.service,
      inventory.doAuthRequest, h, h']
  · have h' := h
    simp only [inventory.recordOf] at h'
    simp [inventory.NewClient, inventory.CreateMapping, inventory.service,
      inventory.doAuthRequest, h, h', inventory.recordOf]

theorem service_delete (b : inventory.Binding) (s : List inventory.Record) (S P Q : String) :
    (inventory.NewClient inventory.service b).DeleteMapping s S P Q =
      if inventory.recordOf b.BaseURL S P Q ∈ s then
        (none, s.filter (fun x => x != inventory.recordOf b.BaseURL S P Q))
      else (some inventory.ErrMappingNotFound, s) := by
  by_cases h : inventory.recordOf b.BaseURL S P Q ∈ s
  · have h' := h
    simp only [inventory.recordOf] at h'
    simp [inventory.NewClient, inventory.DeleteMapping, inventory.service,
      inventory.doAuthRequest, h, h', corev1.index, inventory.recordOf]
  · have h' := h
    simp only [inventory.recordOf] at h'
    simp [inventory.NewClient, inventory.DeleteMapping, inventory.service,
      inventory.doAuthRequest, h, h', corev1.index]

theorem getClusterID_pure {r : HANAMappingReconciler ε} {C base : String}
    (hr : StoreSucceeds r C base) (w : World ε) (hm : HANAMapping) :
    ∃ k, getClusterID r w hm =
      (Except.ok C,
        { env := w.env, stored := w.stored, trace := w.trace ++ [Event.GetConfigMap k none] }) := by
  simp only [getClusterID, clientGetConfigMap]
  generalize (⟨_, _⟩ : NamespacedName) = k
  obtain ⟨cm, h1, h2⟩ := hr.2.2.2.1 w.env k
  exact ⟨k, by simp only [h1, h2]⟩

theorem getAdminAPIAccessBinding_pure {r : HANAMappingReconciler ε} {C base : String}
    (hr : StoreSucceeds r C base) (w : World ε) (hm : HANAMapping) :
    ∃ k uaa, getAdminAPIAccessBinding r w hm =
      (Except.ok { BaseURL := base, UAA := uaa },
        { env := w.env, stored := w.stored, trace := w.trace ++ [Event.GetSecret k none] }) := by
  simp only [getAdminAPIAccessBinding, clientGetSecret]
  generalize (⟨_, _⟩ : NamespacedName) = k
  obtain ⟨secret, uaa, h1, h2, h3⟩ := hr.2.2.2.2 w.env k
  exact ⟨k, uaa, by simp only [h1, h2, h3]⟩

theorem StoreSucceeds.fst {r : HANAMappingReconciler ε} {C base : String}
    (hr : StoreSucceeds r C base) :
    (∀ s k, (r.Client.Get s k).1 = none) ∧ (∀ s o, (r.Client.Update s o).1 = none) ∧
      (∀ s o, (r.Client.StatusUpdate s o).1 = none) :=
  ⟨fun s k => by rw [hr.1], fun s o => by rw [hr.2.1], fun s o => by rw [hr.2.2.1]⟩

theorem clientGet_env {r : HANAMappingReconciler ε} (w : World ε) (key : NamespacedName)
    (h : ∀ s k, r.Client.Get s k = (none, s)) : (clientGet r w key).2.env = w.env := by
  simp only [clientGet, h]
  split <;> rfl

theorem attachFinalizer_env {r : HANAMappingReconciler ε} (w : World ε) (hm : HANAMapping)
    (h : ∀ s o, r.Client.Update s o = (none, s)) :
    (attachFinalizer r w hm).2.2.env = w.env := by
  simp only [attachFinalizer, clientUpdate, h]
  split <;> rfl

theorem initStatus_env {r : HANAMappingReconciler ε} (w : World ε) (hm : HANAMapping)
    (h : ∀ s o, r.Client.StatusUpdate s o = (none, s)) :
    (initStatus r w hm).2.2.env = w.env := by
  simp only [initStatus, setStatusInProgress, clientStatusUpdate, h]
  split <;> rfl

/-- When the store succeeds without touching the collaborators' state, `Reconcile` reaches
`syncMapping` with that state unchanged. -/
theorem syncEntry_pure {r : HANAMappingReconciler ε} {C base : String}
    (hr : StoreSucceeds r C base) (w : World ε) (req : NamespacedName) (obj : HANAMapping)
    (hstored : w.stored = some obj) (hdel : metav1.IsZero obj.DeletionTimestamp = true)
    (htarget : obj.Spec.Mapping.TargetNamespace ≠ "") :
    ∃ hm w2, syncEntry r w req = some (hm, w2) ∧ w2.env = w.env := by
  obtain ⟨hm, w2, h⟩ := syncEntry_ok w req obj hstored hdel htarget hr.fst.1 hr.fst.2.1
    hr.fst.2.2
  refine ⟨hm, w2, h, ?_⟩
  simp only [syncEntry] at h
  have he0 := clientGet_env w req hr.1
  rcases hg : clientGet r w req with ⟨ge | o, w0⟩ <;> simp only [hg] at h he0
  · exact absurd h (by simp)
  split at h
  · exact absurd h (by simp)
  have he1 := attachFinalizer_env w0 o hr.2.1
  rcases ha : attachFinalizer r w0 o with ⟨hm1, _ | ae, w1⟩ <;> simp only [ha] at h he1
  swap
  · exact absurd h (by simp)
  have he3 := initStatus_env w1 hm1 hr.2.2.1
  rcases hi : initStatus r w1 hm1 with ⟨hm2, _ | ie, w3⟩ <;> simp only [hi] at h he3
  swap
  · exact absurd h (by simp)
  split at h
  · exact absurd h (by simp)
  simp only [Option.some.injEq, Prod.mk.injEq] at h
  obtain ⟨-, rfl⟩ := h
  rw [he3, he1, he0]

end controller

namespace controller

open hanav1

/-- One `Reconcile` against the inventory service, for a resource whose observed mapping is
absent (and the service holds no record of the desired identity) or equal to the desired
identity: it succeeds, the service holds the record (inserted if it was absent), and the
stored resource reports Succeeded with the desired identity as observed mapping. -/
theorem Reconcile_on_service (r : HANAMappingReconciler (List inventory.Record))
    (w : World (List inventory.Record)) (req : NamespacedName) (obj : HANAMapping)
    (C base : String) (hr : StoreSucceeds r C base)
    (hinv : ∀ b, r.GetInventoryClient b = inventory.NewClient inventory.service b)
    (hstored : w.stored = some obj) (hdel : metav1.IsZero obj.DeletionTimestamp = true)
    (htarget : obj.Spec.Mapping.TargetNamespace ≠ "")
    (hcase : (obj.Status.MappingID = none ∧
        inventory.recordOf base obj.Spec.Mapping.ServiceInstanceID C
          obj.Spec.Mapping.TargetNamespace ∉ w.env) ∨
      obj.Status.MappingID = some
        { ServiceInstanceID := obj.Spec.Mapping.ServiceInstanceID, PrimaryID := C,
          SecondaryID := obj.Spec.Mapping.TargetNamespace }) :
    (Reconcile r w req).1 = ({}, none) ∧
      (Reconcile r w req).2.env =
        (if inventory.recordOf base obj.Spec.Mapping.ServiceInstanceID C
            obj.Spec.Mapping.TargetNamespace ∈ w.env then w.env
          else w.env ++ [inventory.recordOf base obj.Spec.Mapping.ServiceInstanceID C
            obj.Spec.Mapping.TargetNamespace]) ∧
      ∃ o, (Reconcile r w req).2.stored = some o ∧ o.Spec = obj.Spec ∧
        o.DeletionTimestamp = obj.DeletionTimestamp ∧
        o.Status.MappingID = some
          { ServiceInstanceID := obj.Spec.Mapping.ServiceInstanceID, PrimaryID := C,
            SecondaryID := obj.Spec.Mapping.TargetNamespace } ∧
        ∃ c, meta.FindStatusCondition (o.Status.Conditions.getD []) conditionTypeReady =
            some c ∧
          c.Status = metav1.ConditionTrue ∧ c.Reason = conditionReasonSucceeded := by
  obtain ⟨hm, w2, hentry, henv⟩ := syncEntry_pure hr w req obj hstored hdel htarget
  obtain ⟨-, hmid, hspec, -, -, hdt, -, -, -⟩ := syncEntry_inv hstored hentry
  rw [Reconcile_of_syncEntry r w req hm w2 hentry]
  obtain ⟨env2, st2, tr2⟩ := w2
  simp only at henv
  subst henv
  obtain ⟨k1, hc⟩ := getClusterID_pure hr { env := w.env, stored := st2, trace := tr2 } hm
  obtain ⟨k2, uaa, hb⟩ := getAdminAPIAccessBinding_pure hr
    { env := w.env, stored := st2, trace := tr2 ++ [Event.GetConfigMap k1 none] } hm
  have hdelete : ∀ c : inventory.Client (List inventory.Record),
      deleteOldMapping c
        { env := w.env, stored := st2,
          trace := tr2 ++ [Event.GetConfigMap k1 none] ++ [Event.GetSecret k2 none] }
        hm.Status.MappingID
        { ServiceInstanceID := hm.Spec.Mapping.ServiceInstanceID, PrimaryID := C,
          SecondaryID := hm.Spec.Mapping.TargetNamespace } =
      (none, { env := w.env, stored := st2,
               trace := tr2 ++ [Event.GetConfigMap k1 none] ++
                 [Event.GetSecret k2 none] }) := by
    intro c
    rw [hmid, hspec]
    rcases hcase with ⟨h, -⟩ | h <;> simp [deleteOldMapping, h]
  simp only [syncAndReport, syncMapping, hc, hb, hdelete, callCreateMapping, hinv,
    service_create]
  rw [hspec]
  by_cases hin : inventory.recordOf base obj.Spec.Mapping.ServiceInstanceID C
      obj.Spec.Mapping.TargetNamespace ∈ w.env
  · have hobs : hm.Status.MappingID = some
        { ServiceInstanceID := obj.Spec.Mapping.ServiceInstanceID, PrimaryID := C,
          SecondaryID := obj.Spec.Mapping.TargetNamespace } := by
      rcases hcase with ⟨-, h⟩ | h
      · exact absurd hin h
      · rw [hmid, h]
    obtain ⟨d, hd, -, hd2, hd3, -⟩ := meta.find_SetStatusCondition (r.Now w.env)
      (hm.Status.Conditions.getD [])
      { Type_ := conditionTypeReady, Status := metav1.ConditionTrue,
        Reason := conditionReasonSucceeded }
    simp only [hin, if_true, hobs, setStatusSucceeded, clientStatusUpdate, hr.2.2.1]
    simp [withCondition, hspec, hdt, hd, hd2, hd3]
  · obtain ⟨d, hd, -, hd2, hd3, -⟩ := meta.find_SetStatusCondition
      (r.Now (w.env ++ [inventory.recordOf base obj.Spec.Mapping.ServiceInstanceID C
        obj.Spec.Mapping.TargetNamespace]))
      (hm.Status.Conditions.getD [])
      { Type_ := conditionTypeReady, Status := metav1.ConditionTrue,
        Reason := conditionReasonSucceeded }
    simp only [hin, if_false, setStatusSucceeded, clientStatusUpdate, hr.2.2.1]
    simp [withCondition, hspec, hdt, hd, hd2, hd3]

end controller

/-! ## The calls of `syncMapping` and `deleteMapping` -/

namespace controller

open hanav1

variable {ε : Type}

/-- The method `deleteMapping` writes nothing to the store and calls only the secret read
and the inventory. -/
theorem deleteMapping_quiet (r : HANAMappingReconciler ε) (w : World ε) (hm : HANAMapping) :
    (deleteMapping r w hm).2.stored = w.stored ∧
      ∃ evs, (deleteMapping r w hm).2.trace = w.trace ++ evs ∧
        ∀ e ∈ evs, e.isConfigRead = true ∨ e.isInventoryCall = true := by
  rcases hmid : hm.Status.MappingID with _ | m
  · rcases hd : deleteMapping r w hm with ⟨res, w1⟩
    obtain ⟨-, rfl⟩ := deleteMapping_nil_inv hmid hd
    exact ⟨rfl, [], by simp, by simp⟩
  · rcases hd : deleteMapping r w hm with ⟨res, w1⟩
    obtain ⟨hs, k, a, h⟩ := deleteMapping_inv hmid hd
    refine ⟨hs, ?_⟩
    rcases h with ⟨e, -, ht⟩ | ⟨d, ht, -⟩
    · exact ⟨_, ht, by simp [Event.isConfigRead]⟩
    · exact ⟨_, ht, by simp [Event.isConfigRead, Event.isInventoryCall]⟩

theorem deleteOldMapping_trace (c : inventory.Client ε) (w : World ε)
    (old : Option MappingID) (new : MappingID) :
    ∃ evs, (deleteOldMapping c w old new).2.trace = w.trace ++ evs ∧
      ∀ e ∈ evs, e.isInventoryCall = true := by
  unfold deleteOldMapping
  rcases old with _ | old
  · exact ⟨[], by simp, by simp⟩
  · simp only
    split
    · rcases hd : callDeleteMapping c w old.ServiceInstanceID old.PrimaryID old.SecondaryID
        with ⟨_ | e, w1⟩
      · exact ⟨_, (callDeleteMapping_inv hd).2, by simp [Event.isInventoryCall]⟩
      · simp only
        split <;> exact ⟨_, (callDeleteMapping_inv hd).2, by simp [Event.isInventoryCall]⟩
    · exact ⟨[], by simp, by simp⟩

/-- The method `syncMapping` calls only the configuration reads and the inventory. -/
theorem syncMapping_trace (r : HANAMappingReconciler ε) (w : World ε) (hm : HANAMapping) :
    ∃ evs, (syncMapping r w hm).2.trace = w.trace ++ evs ∧
      ∀ e ∈ evs, e.isConfigRead = true ∨ e.isInventoryCall = true := by
  unfold syncMapping
  rcases hc : getClusterID r w hm with ⟨e | c, w1⟩
  · obtain ⟨-, k, a, ht⟩ := getClusterID_inv hc
    exact ⟨_, ht, by simp [Event.isConfigRead]⟩
  · obtain ⟨-, k1, a1, ht1⟩ := getClusterID_inv hc
    simp only
    rcases hb : getAdminAPIAccessBinding r w1 hm with ⟨e | b, w2⟩
    · obtain ⟨-, k2, a2, ht2⟩ := getAdminAPIAccessBinding_inv hb
      exact ⟨_, by rw [ht2, ht1, List.append_assoc], by simp [Event.isConfigRead]⟩
    · obtain ⟨-, k2, a2, ht2⟩ := getAdminAPIAccessBinding_inv hb
      simp only
      obtain ⟨evs3, ht3, he3⟩ := deleteOldMapping_trace (r.GetInventoryClient b) w2
        hm.Status.MappingID
        { ServiceInstanceID := hm.Spec.Mapping.ServiceInstanceID, PrimaryID := c,
          SecondaryID := hm.Spec.Mapping.TargetNamespace }
      rcases hd : deleteOldMapping (r.GetInventoryClient b) w2 hm.Status.MappingID
        { ServiceInstanceID := hm.Spec.Mapping.ServiceInstanceID, PrimaryID := c,
          SecondaryID := hm.Spec.Mapping.TargetNamespace } with ⟨_ | e, w3⟩
      · rw [hd] at ht3
        simp only at ht3 ⊢
        rcases hcm : callCreateMapping (r.GetInventoryClient b) w3
          hm.Spec.Mapping.ServiceInstanceID
          { Platform := "kubernetes", PrimaryID := c,
            SecondaryID := hm.Spec.Mapping.TargetNamespace } with ⟨ca, w4⟩
        obtain ⟨-, ht4⟩ := callCreateMapping_inv hcm
        have hfin : ∃ evs, w4.trace = w.trace ++ evs ∧
            ∀ e ∈ evs, e.isConfigRead = true ∨ e.isInventoryCall = true := by
          refine ⟨[Event.GetConfigMap k1 a1, Event.GetSecret k2 a2] ++ evs3 ++
            [Event.CreateMapping hm.Spec.Mapping.ServiceInstanceID
              { Platform := "kubernetes", PrimaryID := c,
                SecondaryID := hm.Spec.Mapping.TargetNamespace } ca], ?_, ?_⟩
          · rw [ht4, ht3, ht2, ht1]
            simp
          · intro e he
            simp only [List.mem_append, List.mem_cons, List.mem_singleton,
              List.not_mem_nil, or_false] at he
            rcases he with ((rfl | rfl) | he) | rfl
            · simp [Event.isConfigRead]
            · simp [Event.isConfigRead]
            · exact Or.inr (he3 e he)
            · simp [Event.isInventoryCall]
        rcases ca with _ | ce
        · exact hfin
        · simp only
          split <;> exact hfin
      · rw [hd] at ht3
        simp only at ht3 ⊢
        refine ⟨[Event.GetConfigMap k1 a1, Event.GetSecret k2 a2] ++ evs3, ?_, ?_⟩
        · rw [ht3, ht2, ht1]
          simp
        · intro e he
          simp only [List.mem_append, List.mem_cons, List.mem_singleton,
            List.not_mem_nil, or_false] at he
          rcases he with (rfl | rfl) | he
          · simp [Event.isConfigRead]
          · simp [Event.isConfigRead]
          · exact Or.inr (he3 e he)

end controller
/-! ## The migrate path over a store that succeeds -/

namespace controller

open hanav1

variable {ε : Type}

/-- The migrate path of `syncMapping` over a store that succeeds: the observed mapping differs
from the desired identity, the delete answers nil or `ErrMappingNotFound`, and the create
answers `ca`. -/
theorem syncMapping_migrate_run {r : HANAMappingReconciler ε} {C base : String}
    (hr : StoreSucceeds r C base) (w : World ε) (hm : HANAMapping) (old : MappingID)
    (d ca : Option GoError) (env1 env2 : ε)
    (hobs : hm.Status.MappingID = some old)
    (hne : MappingID.mk hm.Spec.Mapping.ServiceInstanceID C hm.Spec.Mapping.TargetNamespace ≠
      old)
    (hd : d = none ∨ d = some inventory.ErrMappingNotFound)
    (hdelete : ∀ b : inventory.Binding, b.BaseURL = base →
      (r.GetInventoryClient b).DeleteMapping w.env old.ServiceInstanceID old.PrimaryID
        old.SecondaryID = (d, env1))
    (hcreate : ∀ b : inventory.Binding, b.BaseURL = base →
      (r.GetInventoryClient b).CreateMapping env1 hm.Spec.Mapping.ServiceInstanceID
        { Platform := "kubernetes", PrimaryID := C,
          SecondaryID := hm.Spec.Mapping.TargetNamespace } = (ca, env2)) :
    ∃ k1 k2, syncMapping r w hm =
      ((match ca with
        | none => Except.ok (MappingID.mk hm.Spec.Mapping.ServiceInstanceID C
            hm.Spec.Mapping.TargetNamespace)
        | some e => Except.error e),
        { env := env2, stored := w.stored,
          trace := w.trace ++ [Event.GetConfigMap k1 none, Event.GetSecret k2 none,
            Event.DeleteMapping old.ServiceInstanceID old.PrimaryID old.SecondaryID d,
            Event.CreateMapping hm.Spec.Mapping.ServiceInstanceID
              { Platform := "kubernetes", PrimaryID := C,
                SecondaryID := hm.Spec.Mapping.TargetNamespace } ca] }) := by
  obtain ⟨k1, hc⟩ := getClusterID_pure hr w hm
  obtain ⟨k2, uaa, hb⟩ := getAdminAPIAccessBinding_pure hr
    { env := w.env, stored := w.stored, trace := w.trace ++ [Event.GetConfigMap k1 none] } hm
  have hdel := hdelete { BaseURL := base, UAA := uaa } rfl
  have hcre := hcreate { BaseURL := base, UAA := uaa } rfl
  have hold : deleteOldMapping (r.GetInventoryClient { BaseURL := base, UAA := uaa })
      { env := w.env, stored := w.stored,
        trace := w.trace ++ [Event.GetConfigMap k1 none] ++ [Event.GetSecret k2 none] }
      (some old)
      { ServiceInstanceID := hm.Spec.Mapping.ServiceInstanceID, PrimaryID := C,
        SecondaryID := hm.Spec.Mapping.TargetNamespace } =
      (none, { env := env1, stored := w.stored,
               trace := w.trace ++ [Event.GetConfigMap k1 none] ++
                 [Event.GetSecret k2 none] ++
                 [Event.DeleteMapping old.ServiceInstanceID old.PrimaryID
                   old.SecondaryID d] }) := by
    rcases hd with rfl | rfl <;> simp [deleteOldMapping, hne, callDeleteMapping, hdel]
  refine ⟨k1, k2, ?_⟩
  simp only [syncMapping, hc, hb, hobs, hold, callCreateMapping, hcre]
  rcases ca with _ | e
  · simp
  · simp [hne]

/-- One `Reconcile` on the migrate path over a store that succeeds: the delete of the observed
mapping answers nil or `ErrMappingNotFound` and the create answers `ca`. The invocation
returns `ca`; when the create failed the resource reports Failed and keeps the observed
mapping, when it succeeded the resource reports Succeeded with the desired identity. -/
theorem Reconcile_migrate_run {r : HANAMappingReconciler ε} {C base : String}
    (hr : StoreSucceeds r C base) (w : World ε) (req : NamespacedName) (obj : HANAMapping)
    (old : MappingID) (d ca : Option GoError) (env1 env2 : ε)
    (hstored : w.stored = some obj) (hdel : metav1.IsZero obj.DeletionTimestamp = true)
    (htarget : obj.Spec.Mapping.TargetNamespace ≠ "")
    (hobs : obj.Status.MappingID = some old)
    (hne : MappingID.mk obj.Spec.Mapping.ServiceInstanceID C
      obj.Spec.Mapping.TargetNamespace ≠ old)
    (hd : d = none ∨ d = some inventory.ErrMappingNotFound)
    (hdelete : ∀ b : inventory.Binding, b.BaseURL = base →
      (r.GetInventoryClient b).DeleteMapping w.env old.ServiceInstanceID old.PrimaryID
        old.SecondaryID = (d, env1))
    (hcreate : ∀ b : inventory.Binding, b.BaseURL = base →
      (r.GetInventoryClient b).CreateMapping env1 obj.Spec.Mapping.ServiceInstanceID
        { Platform := "kubernetes", PrimaryID := C,
          SecondaryID := obj.Spec.Mapping.TargetNamespace } = (ca, env2)) :
    (Reconcile r w req).1 = ({}, ca) ∧ (Reconcile r w req).2.env = env2 ∧
      Event.DeleteMapping old.ServiceInstanceID old.PrimaryID old.SecondaryID d ∈
        calls r w req ∧
      Event.CreateMapping obj.Spec.Mapping.ServiceInstanceID
        { Platform := "kubernetes", PrimaryID := C,
          SecondaryID := obj.Spec.Mapping.TargetNamespace } ca ∈ calls r w req ∧
      ∃ o c, (Reconcile r w req).2.stored = some o ∧ o.Spec = obj.Spec ∧
        o.DeletionTimestamp = obj.DeletionTimestamp ∧
        meta.FindStatusCondition (o.Status.Conditions.getD []) conditionTypeReady = some c ∧
        (ca = none → o.Status.MappingID = some (MappingID.mk
            obj.Spec.Mapping.ServiceInstanceID C obj.Spec.Mapping.TargetNamespace) ∧
          c.Status = metav1.ConditionTrue ∧ c.Reason = conditionReasonSucceeded) ∧
        ∀ e, ca = some e → o.Status.MappingID = some old ∧
          c.Status = metav1.ConditionFalse ∧ c.Reason = conditionReasonFailed ∧
          c.Message = e.Error := by
  obtain ⟨hm, w2, hentry, henv⟩ := syncEntry_pure hr w req obj hstored hdel htarget
  obtain ⟨-, hmid, hspec, -, -, hdt, -, -, -⟩ := syncEntry_inv hstored hentry
  obtain ⟨pre, htr2, -⟩ := syncEntry_trace hentry
  obtain ⟨k1, k2, hsync⟩ := syncMapping_migrate_run hr w2 hm old d ca env1 env2
    (hmid.trans hobs) (by rw [hspec]; exact hne) hd (by rw [henv]; exact hdelete)
    (by rw [hspec]; exact hcreate)
  unfold calls
  rw [Reconcile_of_syncEntry r w req hm w2 hentry]
  simp only [syncAndReport, hsync]
  rcases ca with _ | e
  · simp only
    rcases hf : setStatusSucceeded r
      { env := env2, stored := w2.stored,
        trace := w2.trace ++ [Event.GetConfigMap k1 none, Event.GetSecret k2 none,
          Event.DeleteMapping old.ServiceInstanceID old.PrimaryID old.SecondaryID d,
          Event.CreateMapping hm.Spec.Mapping.ServiceInstanceID
            { Platform := "kubernetes", PrimaryID := C,
              SecondaryID := hm.Spec.Mapping.TargetNamespace } none] } hm
      (MappingID.mk hm.Spec.Mapping.ServiceInstanceID C hm.Spec.Mapping.TargetNamespace)
      with ⟨hm1, sa, w4⟩
    have hsa : sa = none := by
      have h2 := congrArg (fun x => x.2.1) hf
      simp only [setStatusSucceeded, clientStatusUpdate_ok (hr.fst.2.2 _ _)] at h2
      exact h2.symm
    have henv4 : w4.env = env2 := by
      have h2 := congrArg (fun x => x.2.2.env) hf
      simp only [setStatusSucceeded, clientStatusUpdate_ok (hr.fst.2.2 _ _), hr.2.2.1] at h2
      exact h2.symm
    subst hsa
    obtain ⟨⟨hcond, hmid1, -, hspec1, hdt1⟩, htr4, hs4⟩ := setStatusSucceeded_inv hf
    obtain ⟨c, hc, -, hc2, hc3, -⟩ := meta.find_SetStatusCondition (r.Now env2)
      (hm.Status.Conditions.getD [])
      { Type_ := conditionTypeReady, Status := metav1.ConditionTrue,
        Reason := conditionReasonSucceeded }
    refine ⟨rfl, henv4, by simp [htr4, htr2], by simp [htr4, htr2, hspec], hm1, c,
      by simpa using hs4, hspec1.trans hspec, hdt1.trans hdt, by rw [hcond]; exact hc,
      fun _ => ⟨by rw [hmid1, hspec], hc2, hc3⟩, fun e he => by simp at he⟩
  · simp only
    rcases hf : setStatusFailed r
      { env := env2, stored := w2.stored,
        trace := w2.trace ++ [Event.GetConfigMap k1 none, Event.GetSecret k2 none,
          Event.DeleteMapping old.ServiceInstanceID old.PrimaryID old.SecondaryID d,
          Event.CreateMapping hm.Spec.Mapping.ServiceInstanceID
            { Platform := "kubernetes", PrimaryID := C,
              SecondaryID := hm.Spec.Mapping.TargetNamespace } (some e)] } hm e
      with ⟨hm1, sa, w4⟩
    have hsa : sa = none := by
      have h2 := congrArg (fun x => x.2.1) hf
      simp only [setStatusFailed, clientStatusUpdate_ok (hr.fst.2.2 _ _)] at h2
      exact h2.symm
    have henv4 : w4.env = env2 := by
      have h2 := congrArg (fun x => x.2.2.env) hf
      simp only [setStatusFailed, clientStatusUpdate_ok (hr.fst.2.2 _ _), hr.2.2.1] at h2
      exact h2.symm
    subst hsa
    obtain ⟨hhm1, htr4, hs4⟩ := setStatusFailed_inv hf
    obtain ⟨c, hc, -, hc2, hc3, hc4⟩ := meta.find_SetStatusCondition (r.Now env2)
      (hm.Status.Conditions.getD [])
      { Type_ := conditionTypeReady, Status := metav1.ConditionFalse,
        Reason := conditionReasonFailed, Message := e.Error }
    refine ⟨rfl, henv4, by simp [htr4, htr2], by simp [htr4, htr2, hspec], hm1, c,
      by simpa using hs4, ?_, ?_, ?_, fun he => by simp at he, ?_⟩
    · rw [hhm1]
      simpa [withCondition] using hspec
    · rw [hhm1]
      simpa [withCondition] using hdt
    · rw [hhm1]
      simpa [withCondition] using hc
    · intro e2 he2
      obtain rfl : e = e2 := by simpa using he2
      refine ⟨?_, hc2, hc3, hc4⟩
      rw [hhm1]
      simpa [withCondition] using hmid.trans hobs

/-- One `Reconcile` against the inventory service for a resource whose observed mapping
differs from the desired identity, when the service holds no record of the desired identity:
the old mapping is deleted (or found absent), the new one is created, and the stored resource
reports Succeeded with the desired identity as observed mapping. -/
theorem Reconcile_migrate_on_service (r : HANAMappingReconciler (List inventory.Record))
    (w : World (List inventory.Record)) (req : NamespacedName) (obj : HANAMapping)
    (C base : String) (old : MappingID) (hr : StoreSucceeds r C base)
    (hinv : ∀ b, r.GetInventoryClient b = inventory.NewClient inventory.service b)
    (hstored : w.stored = some obj) (hdel : metav1.IsZero obj.DeletionTimestamp = true)
    (htarget : obj.Spec.Mapping.TargetNamespace ≠ "")
    (hobs : obj.Status.MappingID = some old)
    (hne : MappingID.mk obj.Spec.Mapping.ServiceInstanceID C
      obj.Spec.Mapping.TargetNamespace ≠ old)
    (hnin : inventory.recordOf base obj.Spec.Mapping.ServiceInstanceID C
      obj.Spec.Mapping.TargetNamespace ∉ w.env) :
    (Reconcile r w req).1 = ({}, none) ∧
      (Reconcile r w req).2.env.count
        (inventory.recordOf base obj.Spec.Mapping.ServiceInstanceID C
          obj.Spec.Mapping.TargetNamespace) = 1 ∧
      ∃ o, (Reconcile r w req).2.stored = some o ∧ o.Spec = obj.Spec ∧
        o.DeletionTimestamp = obj.DeletionTimestamp ∧
        o.Status.MappingID = some
          { ServiceInstanceID := obj.Spec.Mapping.ServiceInstanceID, PrimaryID := C,
            SecondaryID := obj.Spec.Mapping.TargetNamespace } ∧
        ∃ c, meta.FindStatusCondition (o.Status.Conditions.getD []) conditionTypeReady =
            some c ∧
          c.Status = metav1.ConditionTrue ∧ c.Reason = conditionReasonSucceeded := by
  have hrun : ∀ (d : Option GoError) (env1 : List inventory.Record),
      (d = none ∨ d = some inventory.ErrMappingNotFound) →
      (∀ b : inventory.Binding, b.BaseURL = base →
        (r.GetInventoryClient b).DeleteMapping w.env old.ServiceInstanceID old.PrimaryID
          old.SecondaryID = (d, env1)) →
      inventory.recordOf base obj.Spec.Mapping.ServiceInstanceID C
        obj.Spec.Mapping.TargetNamespace ∉ env1 →
      (Reconcile r w req).1 = ({}, none) ∧
        (Reconcile r w req).2.env.count
          (inventory.recordOf base obj.Spec.Mapping.ServiceInstanceID C
            obj.Spec.Mapping.TargetNamespace) = 1 ∧
        ∃ o, (Reconcile r w req).2.stored = some o ∧ o.Spec = obj.Spec ∧
          o.DeletionTimestamp = obj.DeletionTimestamp ∧
          o.Status.MappingID = some
            { ServiceInstanceID := obj.Spec.Mapping.ServiceInstanceID, PrimaryID := C,
              SecondaryID := obj.Spec.Mapping.TargetNamespace } ∧
          ∃ c, meta.FindStatusCondition (o.Status.Conditions.getD []) conditionTypeReady =
              some c ∧
            c.Status = metav1.ConditionTrue ∧ c.Reason = conditionReasonSucceeded := by
    intro d env1 hd hdelete hnin1
    obtain ⟨hres, henv, -, -, o, c, hs, hspec, hdt, hc, hsucc, -⟩ :=
      Reconcile_migrate_run hr w req obj old d none env1
        (env1 ++ [inventory.recordOf base obj.Spec.Mapping.ServiceInstanceID C
          obj.Spec.Mapping.TargetNamespace])
        hstored hdel htarget hobs hne hd hdelete
        (by
          intro b hb
          rw [hinv, service_create, hb, if_neg hnin1])
    obtain ⟨hmid, hcs, hcr⟩ := hsucc rfl
    refine ⟨hres, ?_, o, hs, hspec, hdt, hmid, c, hc, hcs, hcr⟩
    rw [henv]
    simp [List.count_append, List.count_eq_zero_of_not_mem hnin1]
  by_cases hold : inventory.recordOf base old.ServiceInstanceID old.PrimaryID
      old.SecondaryID ∈ w.env
  · refine hrun none
      (w.env.filter (fun x => x != inventory.recordOf base old.ServiceInstanceID
        old.PrimaryID old.SecondaryID)) (Or.inl rfl) ?_ ?_
    · intro b hb
      rw [hinv, service_delete, hb, if_pos hold]
    · intro hmem
      exact hnin (List.mem_filter.mp hmem).1
  · refine hrun (some inventory.ErrMappingNotFound) w.env (Or.inr rfl) ?_ hnin
    intro b hb
    rw [hinv, service_delete, hb, if_neg hold]

end controller

/-! ## Conditions of other types and the number of Ready conditions -/

namespace meta

open metav1

theorem filter_updateFirst (now : Nat) (c : Condition) (conds : List Condition) :
    (updateFirst now c conds).filter (fun x => x.Type_ != c.Type_) =
      conds.filter (fun x => x.Type_ != c.Type_) := by
  induction conds with
  | nil => rfl
  | cons d ds ih =>
    simp only [updateFirst]
    by_cases hd : d.Type_ = c.Type_
    · simp [hd, mergeCondition]
    · simp [hd, ih]

/-- Reporting a condition keeps the conditions of every other type as they are. -/
theorem filter_SetStatusCondition (now : Nat) (conds : List Condition) (c : Condition) :
    (SetStatusCondition now conds c).filter (fun x => x.Type_ != c.Type_) =
      conds.filter (fun x => x.Type_ != c.Type_) := by
  unfold SetStatusCondition
  rcases hf : FindStatusCondition conds c.Type_ with _ | x
  · simp
  · exact filter_updateFirst now c conds

end meta

namespace controller

open hanav1

variable {ε : Type}

/-- A report of the Ready condition on a resource with at most one Ready condition leaves
exactly one. -/
theorem readyCount_withCondition (now : Nat) (hm : HANAMapping) (c : metav1.Condition)
    (hc : c.Type_ = conditionTypeReady) (h : readyCount hm ≤ 1) :
    readyCount (withCondition now hm c) = 1 := by
  simp only [readyCount, withCondition, Option.getD_some] at h ⊢
  rw [meta.countP_SetStatusCondition]
  rcases hf : meta.FindStatusCondition (hm.Status.Conditions.getD []) c.Type_ with _ | x
  · have h0 : (hm.Status.Conditions.getD []).countP
        (fun x => x.Type_ == conditionTypeReady) = 0 := by
      rw [List.countP_eq_zero]
      intro a ha
      have := List.find?_eq_none.mp hf a ha
      simpa [hc] using this
    simp [hc, h0]
  · have hpos : 0 < (hm.Status.Conditions.getD []).countP
        (fun x => x.Type_ == conditionTypeReady) := by
      rw [List.countP_pos_iff]
      have hx := List.find?_some hf
      exact ⟨x, List.mem_of_find?_eq_some hf, by simpa [hc] using hx⟩
    simp only [reduceCtorEq, false_and, if_false]
    omega

end controller


/-! ## The deletion gate -/

namespace controller

open hanav1

variable {ε : Type}

/-- C1, deletion gate. For a stored resource that is marked for deletion, carries the finalizer
and has an observed mapping `m`: if after `Reconcile` the stored resource lacks the finalizer,
or if any `Update` of the resource was issued, then `DeleteMapping` was called for `m` and
answered nil or `ErrMappingNotFound`; and if `DeleteMapping` for `m` answered any other error,
then the stored resource still carries the finalizer, no `Update` was issued and `Reconcile`
returns a non-nil error. -/
theorem deletion_gate (r : HANAMappingReconciler ε) (w : World ε) (req : NamespacedName)
    (obj : HANAMapping) (m : MappingID)
    (hstored : w.stored = some obj)
    (hdel : metav1.IsZero obj.DeletionTimestamp = false)
    (hfin : controllerutil.ContainsFinalizer obj finalizerName = true)
    (hm : obj.Status.MappingID = some m) :
    (((∃ o, (Reconcile r w req).2.stored = some o ∧
          controllerutil.ContainsFinalizer o finalizerName = false) ∨
        (∃ o e, Event.Update o e ∈ calls r w req)) →
      (Event.DeleteMapping m.ServiceInstanceID m.PrimaryID m.SecondaryID none ∈ calls r w req ∨
        Event.DeleteMapping m.ServiceInstanceID m.PrimaryID m.SecondaryID
          (some inventory.ErrMappingNotFound) ∈ calls r w req)) ∧
    (∀ e, Event.DeleteMapping m.ServiceInstanceID m.PrimaryID m.SecondaryID (some e) ∈
          calls r w req → e ≠ inventory.ErrMappingNotFound →
      (∃ o, (Reconcile r w req).2.stored = some o ∧
          controllerutil.ContainsFinalizer o finalizerName = true) ∧
      (∀ o e2, Event.Update o e2 ∉ calls r w req) ∧
      (Reconcile r w req).1.2 ≠ none) := by
  have hfin2 : ∀ now c, controllerutil.ContainsFinalizer (withCondition now obj c)
      finalizerName = true := fun _ _ => hfin
  unfold calls
  generalize hout : Reconcile r w req = out
  simp only [Reconcile] at hout
  rcases hg : clientGet r w req with ⟨ge | o, w0⟩ <;> simp only [hg] at hout
  · obtain ⟨hs0, ht0⟩ := clientGet_error_inv hg
    split at hout <;> subst hout <;> simp [hs0, hstored, hfin, ht0]
  · obtain ⟨ho, hs0, ht0⟩ := clientGet_ok_inv hg
    obtain rfl : obj = o := by simpa [hstored] using ho
    simp only [hdel, reconcileDeletion, hfin] at hout
    rcases hd : deleteMapping r w0 obj with ⟨de, w1⟩
    obtain ⟨hs1, k, a, hd1⟩ := deleteMapping_inv hm hd
    simp only [hd] at hout
    rcases de with _ | de
    · rcases hu : clientUpdate r w1 (controllerutil.RemoveFinalizer obj finalizerName) with
        ⟨ua, w2⟩
      obtain ⟨ht2, hs2⟩ := clientUpdate_inv hu
      have hd' : ∃ d, w1.trace = w0.trace ++ [Event.GetSecret k a,
          Event.DeleteMapping m.ServiceInstanceID m.PrimaryID m.SecondaryID d] ∧
          (d = none ∨ d = some inventory.ErrMappingNotFound) := by
        rcases hd1 with ⟨e, he, -⟩ | ⟨d, ht1, hres⟩
        · exact absurd he (by simp)
        · refine ⟨d, ht1, ?_⟩
          by_cases hx : d = some inventory.ErrMappingNotFound
          · exact Or.inr hx
          · simp only [hx, if_false] at hres
            exact Or.inl hres.symm
      obtain ⟨d, ht1, hd2⟩ := hd'
      simp only [hu] at hout
      rcases hd2 with rfl | rfl <;> rcases ua with _ | ua <;> simp only at hout <;>
        subst hout <;> simp [ht2, ht1, ht0, hs2, hs1, hs0, hstored, hfin]
    · rcases hf : setStatusFailed r w1 obj de with ⟨hm1, sa, w2⟩
      obtain ⟨rfl, ht2, hs2⟩ := setStatusFailed_inv hf
      simp only [hf] at hout
      rcases hd1 with ⟨e, -, ht1⟩ | ⟨d, ht1, hres⟩
      · rcases sa with _ | sa <;> simp only at hout <;> subst hout <;>
          simp [ht2, ht1, ht0, hs2, hs1, hs0, hstored, hfin, hfin2]
      · have hd' : d = some de ∧ de ≠ inventory.ErrMappingNotFound := by
          by_cases hx : d = some inventory.ErrMappingNotFound
          · simp [hx] at hres
          · simp only [hx, if_false] at hres
            subst hres
            exact ⟨rfl, fun h => hx (by rw [h])⟩
        obtain ⟨rfl, hne⟩ := hd'
        rcases sa with _ | sa <;> simp only at hout <;> subst hout <;>
          simp [ht2, ht1, ht0, hs2, hs1, hs0, hstored, hfin, hfin2, hne]

/-- Witness of C1: the inventory answers the delete of a resource marked for deletion with
the error of the test `should fail to delete a mapping`; the resource keeps its finalizer,
no `Update` is issued and `Reconcile` returns an error. -/
theorem deletion_gate_witness :
    (∃ o, (Reconcile (stubReconciler
          { deleteMappingsReturns := some (GoError.errorString "inventory error") })
          (worldOf () deletingHANAMapping) testRequest).2.stored = some o ∧
        controllerutil.ContainsFinalizer o finalizerName = true) ∧
      (∀ o e2, Event.Update o e2 ∉ calls (stubReconciler
          { deleteMappingsReturns := some (GoError.errorString "inventory error") })
          (worldOf () deletingHANAMapping) testRequest) ∧
      (Reconcile (stubReconciler
          { deleteMappingsReturns := some (GoError.errorString "inventory error") })
          (worldOf () deletingHANAMapping) testRequest).1.2 ≠ none :=
  (deletion_gate (stubReconciler
      { deleteMappingsReturns := some (GoError.errorString "inventory error") })
    (worldOf () deletingHANAMapping) testRequest deletingHANAMapping
    { ServiceInstanceID := "svc-1", PrimaryID := "cluster-42", SecondaryID := "ns-a" }
    rfl (by decide) (by decide) rfl).2
    (GoError.errorString "inventory error") (by decide) (by decide)

end controller

/-! ## The migrate path and the already-exists signal -/

namespace controller

open hanav1

variable {ε : Type}

/-- C2, migrate path. When the observed mapping `old` is present and differs from the desired
identity (service instance, cluster identity `c`, target namespace) in at least one field,
and the cluster identity and the binding were read, `syncMapping` first calls `DeleteMapping`
with the three fields of `old`; when that call answers nil or `ErrMappingNotFound` the next
and last call is `CreateMapping` with the new identity, and when it answers any other error
`syncMapping` returns that error and `CreateMapping` is not called. -/
theorem syncMapping_migrate (r : HANAMappingReconciler ε) (w w1 w2 : World ε)
    (hm : HANAMapping) (old : MappingID) (c : String) (b : inventory.Binding)
    (hold : hm.Status.MappingID = some old)
    (hc : getClusterID r w hm = (Except.ok c, w1))
    (hne : hm.Spec.Mapping.ServiceInstanceID ≠ old.ServiceInstanceID ∨ c ≠ old.PrimaryID ∨
      hm.Spec.Mapping.TargetNamespace ≠ old.SecondaryID)
    (hb : getAdminAPIAccessBinding r w1 hm = (Except.ok b, w2)) :
    (((r.GetInventoryClient b).DeleteMapping w2.env old.ServiceInstanceID old.PrimaryID
          old.SecondaryID).1 = none ∨
        ((r.GetInventoryClient b).DeleteMapping w2.env old.ServiceInstanceID old.PrimaryID
          old.SecondaryID).1 = some inventory.ErrMappingNotFound →
      ∃ k1 k2, (syncMapping r w hm).2.trace = w.trace ++
        [Event.GetConfigMap k1 none, Event.GetSecret k2 none,
          Event.DeleteMapping old.ServiceInstanceID old.PrimaryID old.SecondaryID
            ((r.GetInventoryClient b).DeleteMapping w2.env old.ServiceInstanceID old.PrimaryID
              old.SecondaryID).1,
          Event.CreateMapping hm.Spec.Mapping.ServiceInstanceID
            { Platform := "kubernetes", PrimaryID := c,
              SecondaryID := hm.Spec.Mapping.TargetNamespace }
            ((r.GetInventoryClient b).CreateMapping
              ((r.GetInventoryClient b).DeleteMapping w2.env old.ServiceInstanceID
                old.PrimaryID old.SecondaryID).2
              hm.Spec.Mapping.ServiceInstanceID
              { Platform := "kubernetes", PrimaryID := c,
                SecondaryID := hm.Spec.Mapping.TargetNamespace }).1]) ∧
      (∀ e, ((r.GetInventoryClient b).DeleteMapping w2.env old.ServiceInstanceID old.PrimaryID
            old.SecondaryID).1 = some e → e ≠ inventory.ErrMappingNotFound →
        (syncMapping r w hm).1 = Except.error e ∧
          ∃ k1 k2, (syncMapping r w hm).2.trace = w.trace ++
            [Event.GetConfigMap k1 none, Event.GetSecret k2 none,
              Event.DeleteMapping old.ServiceInstanceID old.PrimaryID old.SecondaryID
                (some e)]) := by
  obtain ⟨-, k1, ht1⟩ := getClusterID_ok_inv hc
  obtain ⟨-, k2, ht2⟩ := getAdminAPIAccessBinding_ok_inv hb
  have hne' : MappingID.mk hm.Spec.Mapping.ServiceInstanceID c
      hm.Spec.Mapping.TargetNamespace ≠ old := by
    intro h
    subst h
    simp at hne
  rcases hd : (r.GetInventoryClient b).DeleteMapping w2.env old.ServiceInstanceID
    old.PrimaryID old.SecondaryID with ⟨da, env3⟩
  rcases hcr : (r.GetInventoryClient b).CreateMapping env3 hm.Spec.Mapping.ServiceInstanceID
    { Platform := "kubernetes", PrimaryID := c,
      SecondaryID := hm.Spec.Mapping.TargetNamespace } with ⟨ca, env4⟩
  have hcd : callDeleteMapping (r.GetInventoryClient b) w2 old.ServiceInstanceID
      old.PrimaryID old.SecondaryID = (da, { env := env3, stored := w2.stored, trace :=
        w2.trace ++ [Event.DeleteMapping old.ServiceInstanceID old.PrimaryID
          old.SecondaryID da] }) := by
    simp only [callDeleteMapping, hd]
  simp only [syncMapping, hc, hb, hold, deleteOldMapping, hcd, bne_iff_ne, ne_eq, hne',
    not_false_eq_true, if_true]
  constructor
  · intro h
    refine ⟨k1, k2, ?_⟩
    rcases h with rfl | rfl <;> rcases ca with _ | ce <;>
      simp [callCreateMapping, hcr, hne', inventory.ErrMappingNotFound, ht1, ht2]
  · intro e he hne2
    obtain rfl : da = some e := he
    exact ⟨by simp [hne2], k1, k2, by simp [hne2, ht1, ht2]⟩

/-- Witness of C2: the synced resource of the examples edited to the target namespace `ns-b`,
the delete of the old mapping answering `ErrMappingNotFound`. -/
theorem syncMapping_migrate_witness :
    ∃ k1 k2, (syncMapping (stubReconciler
        { deleteMappingsReturns := some inventory.ErrMappingNotFound })
        (worldOf () movedHANAMapping) movedHANAMapping).2.trace =
      [Event.GetConfigMap k1 none, Event.GetSecret k2 none,
        Event.DeleteMapping "svc-1" "cluster-42" "ns-a" (some inventory.ErrMappingNotFound),
        Event.CreateMapping "svc-1"
          { Platform := "kubernetes", PrimaryID := "cluster-42", SecondaryID := "ns-b" }
          none] :=
  (syncMapping_migrate (stubReconciler
      { deleteMappingsReturns := some inventory.ErrMappingNotFound })
    (worldOf () movedHANAMapping)
    { env := (), stored := some movedHANAMapping,
      trace := [Event.GetConfigMap
        { Namespace := "kyma-system", Name := "sap-btp-operator-config" } none] }
    { env := (), stored := some movedHANAMapping,
      trace := [Event.GetConfigMap
          { Namespace := "kyma-system", Name := "sap-btp-operator-config" } none,
        Event.GetSecret { Namespace := "default", Name := "admin-api-access" } none] }
    movedHANAMapping
    { ServiceInstanceID := "svc-1", PrimaryID := "cluster-42", SecondaryID := "ns-a" }
    "cluster-42"
    { BaseURL := "inventory.example",
      UAA := { URL := "https://uaa.example", ClientID := "id", ClientSecret := "secret" } }
    rfl rfl (by decide) rfl).1 (Or.inr rfl)

end controller

namespace controller

open hanav1

variable {ε : Type}

/-- C3, tolerance of the already-exists signal. When the cluster identity `c` and the binding
were read, the deletion of the old mapping (if any) did not fail and `CreateMapping` answers
`ErrMappingAlreadyExists`, then `syncMapping` returns the desired identity without error if
and only if the observed mapping is present and equals the desired identity in its three
fields; otherwise (observed mapping absent or different in a field) it returns
`ErrMappingAlreadyExists` as its error. -/
theorem syncMapping_alreadyExists (r : HANAMappingReconciler ε) (w w1 w2 w3 : World ε)
    (hm : HANAMapping) (c : String) (b : inventory.Binding)
    (hc : getClusterID r w hm = (Except.ok c, w1))
    (hb : getAdminAPIAccessBinding r w1 hm = (Except.ok b, w2))
    (hd : deleteOldMapping (r.GetInventoryClient b) w2 hm.Status.MappingID
      { ServiceInstanceID := hm.Spec.Mapping.ServiceInstanceID, PrimaryID := c,
        SecondaryID := hm.Spec.Mapping.TargetNamespace } = (none, w3))
    (hcreate : ((r.GetInventoryClient b).CreateMapping w3.env
      hm.Spec.Mapping.ServiceInstanceID
      { Platform := "kubernetes", PrimaryID := c,
        SecondaryID := hm.Spec.Mapping.TargetNamespace }).1 =
      some inventory.ErrMappingAlreadyExists) :
    ((syncMapping r w hm).1 = Except.ok
          { ServiceInstanceID := hm.Spec.Mapping.ServiceInstanceID, PrimaryID := c,
            SecondaryID := hm.Spec.Mapping.TargetNamespace } ↔
        ∃ old, hm.Status.MappingID = some old ∧
          old.ServiceInstanceID = hm.Spec.Mapping.ServiceInstanceID ∧ old.PrimaryID = c ∧
          old.SecondaryID = hm.Spec.Mapping.TargetNamespace) ∧
      ((¬ ∃ old, hm.Status.MappingID = some old ∧
          old.ServiceInstanceID = hm.Spec.Mapping.ServiceInstanceID ∧ old.PrimaryID = c ∧
          old.SecondaryID = hm.Spec.Mapping.TargetNamespace) →
        (syncMapping r w hm).1 = Except.error inventory.ErrMappingAlreadyExists) := by
  rcases hcr : (r.GetInventoryClient b).CreateMapping w3.env hm.Spec.Mapping.ServiceInstanceID
    { Platform := "kubernetes", PrimaryID := c,
      SecondaryID := hm.Spec.Mapping.TargetNamespace } with ⟨ca, env4⟩
  rw [hcr] at hcreate
  obtain rfl : ca = some inventory.ErrMappingAlreadyExists := hcreate
  simp only [syncMapping, hc, hb, hd, callCreateMapping, hcr]
  rcases hold : hm.Status.MappingID with _ | ⟨s, p, q⟩
  · simp
  · by_cases heq : (MappingID.mk hm.Spec.Mapping.ServiceInstanceID c
        hm.Spec.Mapping.TargetNamespace) = ⟨s, p, q⟩
    · simp only [MappingID.mk.injEq] at heq
      obtain ⟨rfl, rfl, rfl⟩ := heq
      simp
    · have heq2 := heq
      simp only [MappingID.mk.injEq] at heq2
      simp [heq]
      rintro rfl rfl rfl
      exact heq2 ⟨rfl, rfl, rfl⟩

/-- Witness of C3: the synced resource of the examples is reconciled again and the inventory
answers that the mapping already exists. -/
theorem syncMapping_alreadyExists_witness :
    (syncMapping (stubReconciler
        { createMappingsReturns := some inventory.ErrMappingAlreadyExists })
      (worldOf () syncedHANAMapping) syncedHANAMapping).1 =
      Except.ok { ServiceInstanceID := "svc-1", PrimaryID := "cluster-42",
                  SecondaryID := "ns-a" } :=
  (syncMapping_alreadyExists (stubReconciler
      { createMappingsReturns := some inventory.ErrMappingAlreadyExists })
    (worldOf () syncedHANAMapping)
    { env := (), stored := some syncedHANAMapping,
      trace := [Event.GetConfigMap
        { Namespace := "kyma-system", Name := "sap-btp-operator-config" } none] }
    { env := (), stored := some syncedHANAMapping,
      trace := [Event.GetConfigMap
          { Namespace := "kyma-system", Name := "sap-btp-operator-config" } none,
        Event.GetSecret { Namespace := "default", Name := "admin-api-access" } none] }
    { env := (), stored := some syncedHANAMapping,
      trace := [Event.GetConfigMap
          { Namespace := "kyma-system", Name := "sap-btp-operator-config" } none,
        Event.GetSecret { Namespace := "default", Name := "admin-api-access" } none] }
    syncedHANAMapping "cluster-42"
    { BaseURL := "inventory.example",
      UAA := { URL := "https://uaa.example", ClientID := "id", ClientSecret := "secret" } }
    rfl rfl rfl rfl).1.2
    ⟨{ ServiceInstanceID := "svc-1", PrimaryID := "cluster-42", SecondaryID := "ns-a" },
      rfl, rfl, rfl, rfl⟩

end controller

/-! ## Outcomes of the sync branch -/

namespace controller

open hanav1

variable {ε : Type}

/-- C4, a failed sync leaves the observed mapping untouched. When `Reconcile` reaches
`syncMapping` (the resource is not marked for deletion and its target namespace is not
empty), `syncMapping` fails with `e` and the write of the Failed status succeeds, then
`Reconcile` returns `e`, and the stored resource has a Ready condition with status False,
reason Failed and the text of `e` as message, and the observed mapping it had before the
invocation. -/
theorem failed_sync_keeps_observed (r : HANAMappingReconciler ε) (w w2 w3 : World ε)
    (req : NamespacedName) (obj hm : HANAMapping) (e : GoError)
    (hstored : w.stored = some obj)
    (hentry : syncEntry r w req = some (hm, w2))
    (hsync : syncMapping r w2 hm = (Except.error e, w3))
    (hstatus : (setStatusFailed r w3 hm e).2.1 = none) :
    (Reconcile r w req).1 = ({}, some e) ∧
      metav1.IsZero obj.DeletionTimestamp = true ∧
      obj.Spec.Mapping.TargetNamespace ≠ "" ∧
      ∃ o, (Reconcile r w req).2.stored = some o ∧
        o.Status.MappingID = obj.Status.MappingID ∧
        ∃ c, meta.FindStatusCondition (o.Status.Conditions.getD []) conditionTypeReady =
            some c ∧
          c.Status = metav1.ConditionFalse ∧ c.Reason = conditionReasonFailed ∧
          c.Message = e.Error := by
  obtain ⟨hs2, hmid, hspec, -, hz, -, -, hlen, -⟩ := syncEntry_inv hstored hentry
  rw [Reconcile_of_syncEntry r w req hm w2 hentry]
  simp only [syncAndReport, hsync]
  rcases hf : setStatusFailed r w3 hm e with ⟨hm1, sa, w4⟩
  rw [hf] at hstatus
  obtain rfl : sa = none := hstatus
  obtain ⟨rfl, -, hs4⟩ := setStatusFailed_inv hf
  refine ⟨rfl, hz, ?_, _, by simpa using hs4, ?_, ?_⟩
  · intro h
    rw [h] at hlen
    exact hlen rfl
  · simpa [withCondition] using hmid
  · obtain ⟨d, hd, -, h1, h2, h3⟩ := meta.find_SetStatusCondition (r.Now w3.env)
      (hm.Status.Conditions.getD [])
      { Type_ := conditionTypeReady, Status := metav1.ConditionFalse,
        Reason := conditionReasonFailed, Message := e.Error }
    exact ⟨d, by simpa [withCondition] using hd, h1, h2, h3⟩

/-- Witness of C4: on the migrate path the delete of the old mapping is answered with 200 and
the create of the new one with 500; the observed mapping stays `svc-1`, `cluster-42`,
`ns-a` and the error names the status code. -/
theorem failed_sync_keeps_observed_witness :
    (Reconcile (reconcilerOver {} (inventory.NewClient (fixedTransport 500 200)))
        (worldOf () movedHANAMapping) testRequest).1 =
      ({}, some (GoError.errorString "failed to create mapping, HTTP 500")) :=
  (failed_sync_keeps_observed
    (reconcilerOver {} (inventory.NewClient (fixedTransport 500 200)))
    (worldOf () movedHANAMapping)
    { env := (), stored := some movedHANAMapping, trace := [Event.Get testRequest none] }
    (syncMapping (reconcilerOver {} (inventory.NewClient (fixedTransport 500 200)))
      { env := (), stored := some movedHANAMapping, trace := [Event.Get testRequest none] }
      movedHANAMapping).2
    testRequest movedHANAMapping movedHANAMapping
    (GoError.errorString "failed to create mapping, HTTP 500")
    rfl rfl rfl rfl).1

end controller

namespace controller

open hanav1

variable {ε : Type}

/-- Counterexample to C5 as stated: a resource that is not marked for deletion, asks for
`svc-1` in `ns-a`, has no observed mapping and holds a condition of another type, over a store
and an inventory that succeed. `Reconcile` creates the mapping and returns no error, and the
resource is left with two conditions, not with exactly one. -/
theorem successful_sync_keeps_reported_condition :
    Event.CreateMapping "svc-1"
        { Platform := "kubernetes", PrimaryID := "cluster-42", SecondaryID := "ns-a",
          IsDefault := false } none ∈
        calls (stubReconciler {}) (worldOf () reportedHANAMapping) testRequest ∧
      (Reconcile (stubReconciler {}) (worldOf () reportedHANAMapping) testRequest).1 =
        ({ Requeue := false }, none) ∧
      ¬ ∃ o c, (Reconcile (stubReconciler {}) (worldOf () reportedHANAMapping)
          testRequest).2.stored = some o ∧ o.Status.Conditions = some [c] := by
  refine ⟨by decide, rfl, ?_⟩
  rintro ⟨o, c, ho, hc⟩
  have h : ((Reconcile (stubReconciler {}) (worldOf () reportedHANAMapping)
      testRequest).2.stored.map (fun o => (o.Status.Conditions.getD []).length)) =
      some 2 := rfl
  rw [ho] at h
  simp [hc] at h

/-- C5 as amended, successful sync. For a stored resource that is not marked for deletion, has
a target namespace and no observed mapping, when the store answers every call without error,
the cluster identity read is `C`, the binding can be read and `CreateMapping` succeeds,
`Reconcile` calls `CreateMapping` for the service instance with the record (kubernetes, `C`,
target namespace, `IsDefault` unset), returns no error and no requeue, and the stored resource
has the observed mapping (service instance, `C`, target namespace) and a condition of type
Ready with status True and reason Succeeded. The conditions of other types are those the
resource held; the Ready condition is the only one of its type when the resource held at most
one, and it is the only condition when the resource held at most one condition, of type
Ready. -/
theorem successful_sync (r : HANAMappingReconciler ε) (w : World ε) (req : NamespacedName)
    (obj : HANAMapping) (C : String)
    (hstored : w.stored = some obj)
    (hdel : metav1.IsZero obj.DeletionTimestamp = true)
    (htarget : obj.Spec.Mapping.TargetNamespace ≠ "")
    (hobs : obj.Status.MappingID = none)
    (hget : ∀ s k, (r.Client.Get s k).1 = none)
    (hupd : ∀ s o, (r.Client.Update s o).1 = none)
    (hsupd : ∀ s o, (r.Client.StatusUpdate s o).1 = none)
    (hcm : ∀ s k, ∃ cm, (r.Client.GetConfigMap s k).1 = Except.ok cm ∧
      corev1.index cm.Data "CLUSTER_ID" = C)
    (hsec : ∀ s k, ∃ secret uaa, (r.Client.GetSecret s k).1 = Except.ok secret ∧
      r.Unmarshal (corev1.index secret.Data "uaa") = Except.ok uaa)
    (hcreate : ∀ b s id m, ((r.GetInventoryClient b).CreateMapping s id m).1 = none) :
    Event.CreateMapping obj.Spec.Mapping.ServiceInstanceID
        { Platform := "kubernetes", PrimaryID := C,
          SecondaryID := obj.Spec.Mapping.TargetNamespace, IsDefault := false } none ∈
        calls r w req ∧
      (Reconcile r w req).1 = ({ Requeue := false }, none) ∧
      ∃ o c, (Reconcile r w req).2.stored = some o ∧
        meta.FindStatusCondition (o.Status.Conditions.getD []) conditionTypeReady = some c ∧
        c.Type_ = conditionTypeReady ∧ c.Status = metav1.ConditionTrue ∧
        c.Reason = conditionReasonSucceeded ∧
        o.Status.MappingID = some
          { ServiceInstanceID := obj.Spec.Mapping.ServiceInstanceID, PrimaryID := C,
            SecondaryID := obj.Spec.Mapping.TargetNamespace } ∧
        (o.Status.Conditions.getD []).filter (fun x => x.Type_ != conditionTypeReady) =
          (obj.Status.Conditions.getD []).filter (fun x => x.Type_ != conditionTypeReady) ∧
        (readyCount obj ≤ 1 → readyCount o = 1) ∧
        (ReadyOnly obj → o.Status.Conditions = some [c]) := by
  obtain ⟨hm, w2, hentry⟩ := syncEntry_ok w req obj hstored hdel htarget hget hupd hsupd
  obtain ⟨-, hmid, hspec, -, -, -, -, -, hc⟩ := syncEntry_inv hstored hentry
  obtain ⟨pre, htr2, -⟩ := syncEntry_trace hentry
  obtain ⟨w3, k1, k2, hsync, htr3⟩ :=
    syncMapping_create_ok w2 hm C (hmid.trans hobs) hcm hsec hcreate
  obtain ⟨d, hd, hd1, hd2, hd3, -⟩ := meta.find_SetStatusCondition (r.Now w3.env)
    (hm.Status.Conditions.getD [])
    { Type_ := conditionTypeReady, Status := metav1.ConditionTrue,
      Reason := conditionReasonSucceeded }
  have hfilter : (hm.Status.Conditions.getD []).filter
      (fun x => x.Type_ != conditionTypeReady) =
      (obj.Status.Conditions.getD []).filter (fun x => x.Type_ != conditionTypeReady) := by
    rcases hc with hc | ⟨hnone, now, hc⟩
    · rw [hc]
    · rw [hc, hnone]
      exact meta.filter_SetStatusCondition now []
        { Type_ := conditionTypeReady, Status := metav1.ConditionFalse,
          Reason := conditionReasonInProgress }
  have hcount : readyCount obj ≤ 1 → readyCount hm ≤ 1 := by
    intro h
    rcases hc with hc | ⟨-, now, hc⟩
    · simpa [readyCount, hc] using h
    · simp [readyCount, hc, meta.SetStatusCondition, meta.FindStatusCondition]
  have hsingle : ReadyOnly obj → (hm.Status.Conditions.getD []).length ≤ 1 ∧
      ∀ x ∈ hm.Status.Conditions.getD [], x.Type_ = conditionTypeReady := by
    intro hconds
    rcases hc with hc | ⟨-, now, hc⟩
    · rw [hc]
      exact hconds
    · rw [hc]
      simp [meta.SetStatusCondition, meta.FindStatusCondition]
  unfold calls
  rw [Reconcile_of_syncEntry r w req hm w2 hentry]
  simp only [syncAndReport, hsync]
  rcases hf : setStatusSucceeded r w3 hm
    { ServiceInstanceID := hm.Spec.Mapping.ServiceInstanceID, PrimaryID := C,
      SecondaryID := hm.Spec.Mapping.TargetNamespace } with ⟨hm1, sa, w4⟩
  have hsa : sa = none := by
    have h2 := congrArg (fun x => x.2.1) hf
    simp only [setStatusSucceeded, clientStatusUpdate_ok (hsupd _ _)] at h2
    exact h2.symm
  subst hsa
  obtain ⟨⟨hcond, hmid1, -, -, -⟩, htr4, hs4⟩ := setStatusSucceeded_inv hf
  refine ⟨?_, rfl, hm1, d, by simpa using hs4, ?_, hd1, hd2, hd3, ?_, ?_, ?_, ?_⟩
  · simp [htr4, htr3, htr2, hspec]
  · rw [hcond]
    exact hd
  · rw [hmid1, hspec]
  · rw [hcond, ← hfilter]
    exact meta.filter_SetStatusCondition (r.Now w3.env) (hm.Status.Conditions.getD [])
      { Type_ := conditionTypeReady, Status := metav1.ConditionTrue,
        Reason := conditionReasonSucceeded }
  · intro h
    have h1 := readyCount_withCondition (r.Now w3.env) hm
      { Type_ := conditionTypeReady, Status := metav1.ConditionTrue,
        Reason := conditionReasonSucceeded } rfl (hcount h)
    simpa [readyCount, withCondition, hcond] using h1
  · intro hconds
    obtain ⟨d2, hd2eq, hd2t, -⟩ := meta.SetStatusCondition_single (r.Now w3.env)
      (hm.Status.Conditions.getD [])
      { Type_ := conditionTypeReady, Status := metav1.ConditionTrue,
        Reason := conditionReasonSucceeded } (hsingle hconds).1 (hsingle hconds).2
    rw [hd2eq] at hd
    have hdd : d2 = d := by
      simpa [meta.FindStatusCondition, List.find?_cons, hd2t] using hd
    rw [hcond, hd2eq, hdd]

/-- Witness of the amended C5: the resource that holds a condition of another type; that
condition is kept and the Ready condition reports the success. -/
theorem successful_sync_witness :
    Event.CreateMapping "svc-1"
        { Platform := "kubernetes", PrimaryID := "cluster-42", SecondaryID := "ns-a",
          IsDefault := false } none ∈
        calls (stubReconciler {}) (worldOf () reportedHANAMapping) testRequest ∧
      (Reconcile (stubReconciler {}) (worldOf () reportedHANAMapping) testRequest).1 =
        ({ Requeue := false }, none) ∧
      ∃ o c, (Reconcile (stubReconciler {}) (worldOf () reportedHANAMapping)
          testRequest).2.stored = some o ∧
        meta.FindStatusCondition (o.Status.Conditions.getD []) conditionTypeReady = some c ∧
        c.Type_ = conditionTypeReady ∧ c.Status = metav1.ConditionTrue ∧
        c.Reason = conditionReasonSucceeded ∧
        o.Status.MappingID = some
          { ServiceInstanceID := "svc-1", PrimaryID := "cluster-42", SecondaryID := "ns-a" } ∧
        (o.Status.Conditions.getD []).filter (fun x => x.Type_ != conditionTypeReady) =
          (reportedHANAMapping.Status.Conditions.getD []).filter
            (fun x => x.Type_ != conditionTypeReady) ∧
        (readyCount reportedHANAMapping ≤ 1 → readyCount o = 1) ∧
        (ReadyOnly reportedHANAMapping → o.Status.Conditions = some [c]) :=
  successful_sync (stubReconciler {}) (worldOf () reportedHANAMapping) testRequest
    reportedHANAMapping "cluster-42" rfl rfl (by decide) rfl
    (fun _ _ => rfl) (fun _ _ => rfl) (fun _ _ => rfl)
    (fun _ _ => ⟨_, rfl, rfl⟩) (fun _ _ => ⟨_, _, rfl, rfl⟩) (fun _ _ _ _ => rfl)

end controller

namespace controller

open hanav1

/-- Counterexample to C6 as stated: the new resource of the examples, which has no observed
mapping, against an inventory service that already holds the record of the desired identity
(the state a refused write of the status Succeeded leaves after a create answered 201). Over a
store that succeeds each of the two runs gets 200 for its create, returns
`ErrMappingAlreadyExists`, and ends with the condition Ready at status False and reason
Failed, not at True and Succeeded. -/
theorem idempotent_create_fails_on_held_record :
    (Reconcile (reconcilerOver {} (inventory.NewClient inventory.service))
        (worldOf [inventory.recordOf "inventory.example" "svc-1" "cluster-42" "ns-a"]
          newHANAMapping) testRequest).1.2 = some inventory.ErrMappingAlreadyExists ∧
      (Reconcile (reconcilerOver {} (inventory.NewClient inventory.service))
        (Reconcile (reconcilerOver {} (inventory.NewClient inventory.service))
          (worldOf [inventory.recordOf "inventory.example" "svc-1" "cluster-42" "ns-a"]
            newHANAMapping) testRequest).2 testRequest).1.2 =
        some inventory.ErrMappingAlreadyExists ∧
      ¬ ∃ o c, (Reconcile (reconcilerOver {} (inventory.NewClient inventory.service))
          (Reconcile (reconcilerOver {} (inventory.NewClient inventory.service))
            (worldOf [inventory.recordOf "inventory.example" "svc-1" "cluster-42" "ns-a"]
              newHANAMapping) testRequest).2 testRequest).2.stored = some o ∧
        meta.FindStatusCondition (o.Status.Conditions.getD []) conditionTypeReady = some c ∧
        c.Status = metav1.ConditionTrue ∧ c.Reason = conditionReasonSucceeded := by
  refine ⟨rfl, rfl, ?_⟩
  rintro ⟨o, c, ho, hc, hs, -⟩
  have h : ((Reconcile (reconcilerOver {} (inventory.NewClient inventory.service))
      (Reconcile (reconcilerOver {} (inventory.NewClient inventory.service))
        (worldOf [inventory.recordOf "inventory.example" "svc-1" "cluster-42" "ns-a"]
          newHANAMapping) testRequest).2 testRequest).2.stored.bind
      (fun o => meta.FindStatusCondition (o.Status.Conditions.getD [])
        conditionTypeReady)).map (fun c => c.Status) = some metav1.ConditionFalse := rfl
  rw [ho] at h
  simp only [Option.some_bind, hc, Option.map_some', hs, Option.some.injEq] at h
  exact absurd h (by decide)

/-- C6 as amended, idempotent create. Against the inventory service (a set of records: create
answers 201 and inserts when the key is absent, answers 200 without inserting when it is
present), with a store that succeeds, for a stored resource that is not marked for deletion,
has a target namespace, and whose observed mapping equals the desired identity or whose
desired identity has no record in the service yet: after two `Reconcile` runs in a row, the
second on the state the first left, the service holds exactly one record of the desired
identity, both runs return no error, both leave a Ready condition with status True and reason
Succeeded, and both leave the same observed mapping, the desired identity. -/
theorem idempotent_create (r : HANAMappingReconciler (List inventory.Record))
    (w : World (List inventory.Record)) (req : NamespacedName) (obj : HANAMapping)
    (C base : String) (hr : StoreSucceeds r C base)
    (hinv : ∀ b, r.GetInventoryClient b = inventory.NewClient inventory.service b)
    (hstored : w.stored = some obj) (hdel : metav1.IsZero obj.DeletionTimestamp = true)
    (htarget : obj.Spec.Mapping.TargetNamespace ≠ "")
    (hset : w.env.count (inventory.recordOf base obj.Spec.Mapping.ServiceInstanceID C
      obj.Spec.Mapping.TargetNamespace) ≤ 1)
    (hcase : inventory.recordOf base obj.Spec.Mapping.ServiceInstanceID C
        obj.Spec.Mapping.TargetNamespace ∉ w.env ∨
      obj.Status.MappingID = some
        { ServiceInstanceID := obj.Spec.Mapping.ServiceInstanceID, PrimaryID := C,
          SecondaryID := obj.Spec.Mapping.TargetNamespace }) :
    (Reconcile r (Reconcile r w req).2 req).2.env.count
        (inventory.recordOf base obj.Spec.Mapping.ServiceInstanceID C
          obj.Spec.Mapping.TargetNamespace) = 1 ∧
      (Reconcile r w req).1 = ({}, none) ∧
      (Reconcile r (Reconcile r w req).2 req).1 = ({}, none) ∧
      ∃ o1 o2 c1 c2, (Reconcile r w req).2.stored = some o1 ∧
        (Reconcile r (Reconcile r w req).2 req).2.stored = some o2 ∧
        meta.FindStatusCondition (o1.Status.Conditions.getD []) conditionTypeReady =
          some c1 ∧
        c1.Status = metav1.ConditionTrue ∧ c1.Reason = conditionReasonSucceeded ∧
        meta.FindStatusCondition (o2.Status.Conditions.getD []) conditionTypeReady =
          some c2 ∧
        c2.Status = metav1.ConditionTrue ∧ c2.Reason = conditionReasonSucceeded ∧
        o1.Status.MappingID = some
          { ServiceInstanceID := obj.Spec.Mapping.ServiceInstanceID, PrimaryID := C,
            SecondaryID := obj.Spec.Mapping.TargetNamespace } ∧
        o2.Status.MappingID = o1.Status.MappingID := by
  have hcount : ∀ env : List inventory.Record,
      env = (if inventory.recordOf base obj.Spec.Mapping.ServiceInstanceID C
          obj.Spec.Mapping.TargetNamespace ∈ w.env then w.env
        else w.env ++ [inventory.recordOf base obj.Spec.Mapping.ServiceInstanceID C
          obj.Spec.Mapping.TargetNamespace]) →
      env.count (inventory.recordOf base obj.Spec.Mapping.ServiceInstanceID C
        obj.Spec.Mapping.TargetNamespace) = 1 := by
    intro env henv
    rw [henv]
    split
    · rename_i hin
      exact Nat.le_antisymm hset (List.count_pos_iff.mpr hin)
    · rename_i hin
      simp [List.count_append, List.count_eq_zero_of_not_mem hin]
  have hrun1 : (Reconcile r w req).1 = ({}, none) ∧
      (Reconcile r w req).2.env.count
        (inventory.recordOf base obj.Spec.Mapping.ServiceInstanceID C
          obj.Spec.Mapping.TargetNamespace) = 1 ∧
      ∃ o, (Reconcile r w req).2.stored = some o ∧ o.Spec = obj.Spec ∧
        o.DeletionTimestamp = obj.DeletionTimestamp ∧
        o.Status.MappingID = some
          { ServiceInstanceID := obj.Spec.Mapping.ServiceInstanceID, PrimaryID := C,
            SecondaryID := obj.Spec.Mapping.TargetNamespace } ∧
        ∃ c, meta.FindStatusCondition (o.Status.Conditions.getD []) conditionTypeReady =
            some c ∧
          c.Status = metav1.ConditionTrue ∧ c.Reason = conditionReasonSucceeded := by
    by_cases heq : obj.Status.MappingID = some
        { ServiceInstanceID := obj.Spec.Mapping.ServiceInstanceID, PrimaryID := C,
          SecondaryID := obj.Spec.Mapping.TargetNamespace }
    · obtain ⟨hres, henv, rest⟩ := Reconcile_on_service r w req obj C base hr hinv hstored
        hdel htarget (Or.inr heq)
      exact ⟨hres, hcount _ henv, rest⟩
    · have hnin : inventory.recordOf base obj.Spec.Mapping.ServiceInstanceID C
          obj.Spec.Mapping.TargetNamespace ∉ w.env := by
        rcases hcase with h | h
        · exact h
        · exact absurd h heq
      rcases hobs : obj.Status.MappingID with _ | old
      · obtain ⟨hres, henv, rest⟩ := Reconcile_on_service r w req obj C base hr hinv hstored
          hdel htarget (Or.inl ⟨hobs, hnin⟩)
        exact ⟨hres, hcount _ henv, rest⟩
      · refine Reconcile_migrate_on_service r w req obj C base old hr hinv hstored hdel
          htarget hobs ?_ hnin
        intro h
        rw [hobs, h] at heq
        exact heq rfl
  obtain ⟨hres1, hcount1, o1, hs1, hsp1, hdt1, hmid1, c1, hc1, hc1s, hc1r⟩ := hrun1
  have hin1 : inventory.recordOf base obj.Spec.Mapping.ServiceInstanceID C
      obj.Spec.Mapping.TargetNamespace ∈ (Reconcile r w req).2.env :=
    List.count_pos_iff.mp (by rw [hcount1]; exact Nat.one_pos)
  obtain ⟨hres2, henv2, o2, hs2, -, -, hmid2, c2, hc2, hc2s, hc2r⟩ :=
    Reconcile_on_service r (Reconcile r w req).2 req o1 C base hr hinv hs1
      (by rw [hdt1]; exact hdel) (by rw [hsp1]; exact htarget)
      (Or.inr (by rw [hsp1]; exact hmid1))
  rw [hsp1] at henv2 hmid2
  refine ⟨?_, hres1, hres2, o1, o2, c1, c2, hs1, hs2, hc1, hc1s, hc1r, hc2, hc2s, hc2r,
    hmid1, by rw [hmid1, hmid2]⟩
  rw [henv2, if_pos hin1, hcount1]

/-- Witness of the amended C6: the new resource of the examples reconciled twice against an
inventory service that starts empty. -/
theorem idempotent_create_witness :
    (Reconcile (reconcilerOver {} (inventory.NewClient inventory.service))
        (Reconcile (reconcilerOver {} (inventory.NewClient inventory.service))
          (worldOf [] newHANAMapping) testRequest).2 testRequest).2.env.count
        (inventory.recordOf "inventory.example" "svc-1" "cluster-42" "ns-a") = 1 :=
  (idempotent_create (reconcilerOver {} (inventory.NewClient inventory.service))
    (worldOf [] newHANAMapping) testRequest newHANAMapping "cluster-42" "inventory.example"
    ⟨fun _ _ => rfl, fun _ _ => rfl, fun _ _ => rfl, fun _ _ => ⟨_, rfl, rfl⟩,
      fun _ _ => ⟨_, _, rfl, rfl, rfl⟩⟩
    (fun _ => rfl) rfl rfl (by decide) (by decide) (Or.inl (by decide))).1

end controller

/-! ## Default resolution -/

namespace controller

open hanav1

variable {ε : Type}

end controller

/-! ## Status cardinality -/

namespace controller

open hanav1

variable {ε : Type}

theorem StatusCardinality.quiet {w w1 : World ε} (h : StatusCardinality w)
    (hs : w1.stored = w.stored)
    (ht : ∃ evs, w1.trace = w.trace ++ evs ∧ ∀ e ∈ evs, e.isStatusWrite = false) :
    StatusCardinality w1 := by
  obtain ⟨evs, ht, he⟩ := ht
  refine ⟨fun o ho => h.1 o (by rw [← hs]; exact ho), fun o a hmem => ?_⟩
  rw [ht, List.mem_append] at hmem
  rcases hmem with hmem | hmem
  · exact h.2 o a hmem
  · exact absurd (he _ hmem) (by simp [Event.isStatusWrite])

theorem StatusCardinality.update {w w1 : World ε} {o : HANAMapping} {a : Option GoError}
    (h : StatusCardinality w) (ho : readyCount o ≤ 1)
    (ht : w1.trace = w.trace ++ [Event.Update o a])
    (hs : w1.stored = (if a = none then some o else w.stored)) : StatusCardinality w1 := by
  refine ⟨fun o' ho' => ?_, fun o' a' hmem => ?_⟩
  · rw [hs] at ho'
    split at ho'
    · obtain rfl : o = o' := by simpa using ho'
      exact ho
    · exact h.1 o' ho'
  · rw [ht] at hmem
    simp only [List.mem_append, List.mem_singleton, reduceCtorEq, or_false] at hmem
    exact h.2 o' a' hmem

theorem StatusCardinality.statusUpdate {w w1 : World ε} {o : HANAMapping}
    {a : Option GoError} (h : StatusCardinality w) (ho : readyCount o = 1)
    (ht : w1.trace = w.trace ++ [Event.StatusUpdate o a])
    (hs : w1.stored = (if a = none then some o else w.stored)) : StatusCardinality w1 := by
  refine ⟨fun o' ho' => ?_, fun o' a' hmem => ?_⟩
  · rw [hs] at ho'
    split at ho'
    · obtain rfl : o = o' := by simpa using ho'
      omega
    · exact h.1 o' ho'
  · rw [ht] at hmem
    simp only [List.mem_append, List.mem_singleton, Event.StatusUpdate.injEq] at hmem
    rcases hmem with hmem | ⟨rfl, -⟩
    · exact h.2 o' a' hmem
    · exact ho

theorem quiet_of_config_or_inventory {evs : List Event}
    (h : ∀ e ∈ evs, e.isConfigRead = true ∨ e.isInventoryCall = true) :
    ∀ e ∈ evs, e.isStatusWrite = false := by
  intro e he
  rcases h e he with h | h <;> cases e <;> simp_all [Event.isConfigRead,
    Event.isInventoryCall, Event.isStatusWrite]

theorem syncAndReport_cardinality (r : HANAMappingReconciler ε) (w : World ε)
    (hm : HANAMapping) (h : StatusCardinality w) (hhm : readyCount hm ≤ 1) :
    StatusCardinality (syncAndReport r w hm).2 := by
  have hq : StatusCardinality (syncMapping r w hm).2 := by
    obtain ⟨evs, ht, he⟩ := syncMapping_trace r w hm
    exact h.quiet (syncMapping_stored r w hm) ⟨evs, ht, quiet_of_config_or_inventory he⟩
  unfold syncAndReport
  rcases hsync : syncMapping r w hm with ⟨e | newMappingID, w1⟩
  · rw [hsync] at hq
    simp only
    rcases hf : setStatusFailed r w1 hm e with ⟨hm1, a, w2⟩
    obtain ⟨rfl, ht, hs⟩ := setStatusFailed_inv hf
    have := hq.statusUpdate (readyCount_withCondition _ hm _ rfl hhm) ht hs
    rcases a with _ | a <;> exact this
  · rw [hsync] at hq
    simp only
    rcases hf : setStatusSucceeded r w1 hm newMappingID with ⟨hm1, a, w2⟩
    obtain ⟨⟨hc, -⟩, ht, hs⟩ := setStatusSucceeded_inv hf
    have h1 : readyCount hm1 = 1 := by
      have := readyCount_withCondition (r.Now w1.env) hm
        { Type_ := conditionTypeReady, Status := metav1.ConditionTrue,
          Reason := conditionReasonSucceeded } rfl hhm
      simpa [readyCount, withCondition, hc] using this
    have := hq.statusUpdate h1 ht hs
    rcases a with _ | a <;> exact this

theorem reconcileDeletion_cardinality (r : HANAMappingReconciler ε) (w : World ε)
    (hm : HANAMapping) (h : StatusCardinality w) (hhm : readyCount hm ≤ 1) :
    StatusCardinality (reconcileDeletion r w hm).2 := by
  have hq : StatusCardinality (deleteMapping r w hm).2 := by
    obtain ⟨hs, evs, ht, he⟩ := deleteMapping_quiet r w hm
    exact h.quiet hs ⟨evs, ht, quiet_of_config_or_inventory he⟩
  unfold reconcileDeletion
  split
  · rcases hd : deleteMapping r w hm with ⟨_ | e, w1⟩
    · rw [hd] at hq
      simp only
      rcases hu : clientUpdate r w1 (controllerutil.RemoveFinalizer hm finalizerName) with
        ⟨a, w2⟩
      obtain ⟨ht, hs⟩ := clientUpdate_inv hu
      have := hq.update (o := controllerutil.RemoveFinalizer hm finalizerName) hhm ht hs
      rcases a with _ | a <;> exact this
    · rw [hd] at hq
      simp only
      rcases hf : setStatusFailed r w1 hm e with ⟨hm1, a, w2⟩
      obtain ⟨rfl, ht, hs⟩ := setStatusFailed_inv hf
      have := hq.statusUpdate (readyCount_withCondition _ hm _ rfl hhm) ht hs
      rcases a with _ | a <;> exact this
  · exact h

/-- One invocation of `Reconcile` keeps the cardinality of the Ready condition. -/
theorem Reconcile_cardinality (r : HANAMappingReconciler ε) (w : World ε)
    (req : NamespacedName) (h : StatusCardinality w) :
    StatusCardinality (Reconcile r w req).2 := by
  unfold Reconcile
  rcases hg : clientGet r w req with ⟨ge | obj, w0⟩
  · obtain ⟨hs0, ht0⟩ := clientGet_error_inv hg
    have := h.quiet hs0 ⟨_, ht0, by simp [Event.isStatusWrite]⟩
    simp only
    split <;> exact this
  obtain ⟨ho, hs0, ht0⟩ := clientGet_ok_inv hg
  have h0 := h.quiet hs0 ⟨_, ht0, by simp [Event.isStatusWrite]⟩
  have hobj : readyCount obj ≤ 1 := h.1 obj ho
  simp only
  split
  · exact reconcileDeletion_cardinality r w0 obj h0 hobj
  rcases ha : attachFinalizer r w0 obj with ⟨hm1, a1, w1⟩
  have h1 : StatusCardinality w1 ∧ readyCount hm1 ≤ 1 := by
    rcases attachFinalizer_inv ha with ⟨-, rfl, -, rfl⟩ | ⟨-, rfl, ht, hs⟩
    · exact ⟨h0, hobj⟩
    · have hc : readyCount (controllerutil.AddFinalizer obj finalizerName) ≤ 1 := by
        simp only [controllerutil.AddFinalizer]
        split <;> exact hobj
      exact ⟨h0.update hc ht hs, hc⟩
  rcases a1 with _ | a1
  swap
  · exact h1.1
  simp only
  rcases hi : initStatus r w1 hm1 with ⟨hm2, a2, w2⟩
  have h2 : StatusCardinality w2 ∧ readyCount hm2 ≤ 1 := by
    rcases initStatus_inv hi with ⟨-, rfl, -, rfl⟩ | ⟨-, rfl, ht, hs⟩
    · exact h1
    · have hc := readyCount_withCondition (r.Now w1.env)
        { hm1 with Status := { hm1.Status with Conditions := some [] } }
        { Type_ := conditionTypeReady, Status := metav1.ConditionFalse,
          Reason := conditionReasonInProgress } rfl (by simp [readyCount])
      exact ⟨h1.1.statusUpdate hc ht hs, by omega⟩
  rcases a2 with _ | a2
  swap
  · exact h2.1
  simp only
  split
  · rcases hu : clientUpdate r w2
      { hm2 with
        Spec :=
          { hm2.Spec with
            Mapping := { hm2.Spec.Mapping with TargetNamespace := hm2.Namespace } } } with
      ⟨a3, w3⟩
    obtain ⟨ht, hs⟩ := clientUpdate_inv hu
    have := h2.1.update (o :=
      { hm2 with
        Spec :=
          { hm2.Spec with
            Mapping := { hm2.Spec.Mapping with TargetNamespace := hm2.Namespace } } })
      h2.2 ht hs
    rcases a3 with _ | a3 <;> exact this
  · exact syncAndReport_cardinality r w2 hm2 h2.1 h2.2

theorem ReconcileAll_cardinality (r : HANAMappingReconciler ε) (reqs : List NamespacedName) :
    ∀ w : World ε, StatusCardinality w → StatusCardinality (ReconcileAll r w reqs) := by
  induction reqs with
  | nil => exact fun w h => h
  | cons req reqs ih => exact fun w h => ih _ (Reconcile_cardinality r w req h)

/-- C8, status cardinality. Starting from a world that has seen no call and stores a
resource with no conditions, after any finite sequence of `Reconcile` invocations, whatever
the store and the inventory answer, the stored resource has at most one condition of type
Ready, and every status write issued carried exactly one condition of type Ready (a report
updates the existing entry and never appends a second one). -/
theorem status_cardinality (r : HANAMappingReconciler ε) (w : World ε) (obj : HANAMapping)
    (reqs : List NamespacedName)
    (hstored : w.stored = some obj) (hnone : obj.Status.Conditions.getD [] = [])
    (htrace : w.trace = []) :
    (∀ o, (ReconcileAll r w reqs).stored = some o → readyCount o ≤ 1) ∧
      ∀ o a, Event.StatusUpdate o a ∈ (ReconcileAll r w reqs).trace → readyCount o = 1 := by
  refine ReconcileAll_cardinality r reqs w ⟨fun o ho => ?_, fun o a hmem => ?_⟩
  · rw [hstored] at ho
    obtain rfl : obj = o := by simpa using ho
    simp [readyCount, hnone]
  · simp [htrace] at hmem

/-- Witness of C8: the new resource of the examples reconciled three times while the
inventory rejects the create. -/
theorem status_cardinality_witness :
    ∃ o, (ReconcileAll
        (stubReconciler { createMappingsReturns := some (GoError.errorString "inventory error") })
        (worldOf () newHANAMapping) [testRequest, testRequest, testRequest]).stored = some o ∧
      readyCount o ≤ 1 :=
  ⟨_, rfl, (status_cardinality
    (stubReconciler { createMappingsReturns := some (GoError.errorString "inventory error") })
    (worldOf () newHANAMapping) newHANAMapping [testRequest, testRequest, testRequest]
    rfl rfl rfl).1 _ rfl⟩

end controller

/-! ## Error returns and status writes -/

namespace controller

open hanav1

variable {ε : Type}

theorem getLast_calls {r : HANAMappingReconciler ε} {w : World ε} {req : NamespacedName}
    {evs : List Event} {last : Event}
    (h : (Reconcile r w req).2.trace = w.trace ++ (evs ++ [last])) :
    (calls r w req).getLast? = some last := by
  simp [calls, h]

/-- The sync branch ends with a status write. -/
theorem syncAndReport_last (r : HANAMappingReconciler ε) (w : World ε) (hm : HANAMapping) :
    ∃ evs o a, (syncAndReport r w hm).2.trace = w.trace ++ (evs ++ [Event.StatusUpdate o a]) := by
  obtain ⟨evs, ht, -⟩ := syncMapping_trace r w hm
  unfold syncAndReport
  rcases hsync : syncMapping r w hm with ⟨e | newMappingID, w1⟩
  · rw [hsync] at ht
    simp only at ht ⊢
    rcases hf : setStatusFailed r w1 hm e with ⟨hm1, a, w2⟩
    obtain ⟨-, ht2, -⟩ := setStatusFailed_inv hf
    refine ⟨evs, hm1, a, ?_⟩
    rcases a with _ | a <;> simp [ht2, ht]
  · rw [hsync] at ht
    simp only at ht ⊢
    rcases hf : setStatusSucceeded r w1 hm newMappingID with ⟨hm1, a, w2⟩
    obtain ⟨-, ht2, -⟩ := setStatusSucceeded_inv hf
    refine ⟨evs, hm1, a, ?_⟩
    rcases a with _ | a <;> simp [ht2, ht]

/-- The deletion branch, when it returns an error, ends with a status write after a failed
`deleteMapping`, or with the failed `Update` that removes the finalizer. -/
theorem reconcileDeletion_last (r : HANAMappingReconciler ε) (w : World ε) (hm : HANAMapping)
    (e : GoError) (h : (reconcileDeletion r w hm).1.2 = some e) :
    ∃ evs last, (reconcileDeletion r w hm).2.trace = w.trace ++ (evs ++ [last]) ∧
      (((deleteMapping r w hm).1 ≠ none ∧ ∃ o a, last = Event.StatusUpdate o a) ∨
        ((deleteMapping r w hm).1 = none ∧ ∃ o, last = Event.Update o (some e))) := by
  obtain ⟨-, evs, ht, -⟩ := deleteMapping_quiet r w hm
  unfold reconcileDeletion at h ⊢
  split at h
  swap
  · exact absurd h (by simp)
  rename_i hc
  simp only [hc, if_true]
  rcases hd : deleteMapping r w hm with ⟨_ | de, w1⟩
  · rw [hd] at ht h
    simp only at ht h ⊢
    rcases hu : clientUpdate r w1 (controllerutil.RemoveFinalizer hm finalizerName) with
      ⟨a, w2⟩
    obtain ⟨ht2, -⟩ := clientUpdate_inv hu
    rw [hu] at h
    rcases a with _ | a
    · exact absurd h (by simp)
    · obtain rfl : a = e := by simpa using h
      exact ⟨evs, Event.Update (controllerutil.RemoveFinalizer hm finalizerName) (some a),
        by simp [ht2, ht], Or.inr ⟨by simp, _, rfl⟩⟩
  · rw [hd] at ht
    simp only at ht ⊢
    rcases hf : setStatusFailed r w1 hm de with ⟨hm1, a, w2⟩
    obtain ⟨-, ht2, -⟩ := setStatusFailed_inv hf
    refine ⟨evs, Event.StatusUpdate hm1 a, ?_, Or.inl ⟨by simp, _, _, rfl⟩⟩
    rcases a with _ | a <;> simp [ht2, ht]

theorem reconcileDeletion_failed_last (r : HANAMappingReconciler ε) (w : World ε)
    (hm : HANAMapping) (hc : controllerutil.ContainsFinalizer hm finalizerName = true)
    (h : (deleteMapping r w hm).1 ≠ none) :
    ∃ evs o a, (reconcileDeletion r w hm).2.trace =
      w.trace ++ (evs ++ [Event.StatusUpdate o a]) := by
  obtain ⟨-, evs, ht, -⟩ := deleteMapping_quiet r w hm
  unfold reconcileDeletion
  simp only [hc, if_true]
  rcases hd : deleteMapping r w hm with ⟨_ | de, w1⟩
  · rw [hd] at h
    exact absurd rfl h
  · rw [hd] at ht
    simp only at ht ⊢
    rcases hf : setStatusFailed r w1 hm de with ⟨hm1, a, w2⟩
    obtain ⟨-, ht2, -⟩ := setStatusFailed_inv hf
    refine ⟨evs, hm1, a, ?_⟩
    rcases a with _ | a <;> simp [ht2, ht]

theorem deleteEntry_inv {r : HANAMappingReconciler ε} {w w1 : World ε}
    {req : NamespacedName} {hm : HANAMapping} (h : deleteEntry r w req = some (hm, w1)) :
    w.stored = some hm ∧ w1.stored = w.stored ∧ w1.trace = w.trace ++ [Event.Get req none] ∧
      metav1.IsZero hm.DeletionTimestamp = false ∧
      controllerutil.ContainsFinalizer hm finalizerName = true := by
  simp only [deleteEntry] at h
  rcases hg : clientGet r w req with ⟨ge | o, w0⟩ <;> simp only [hg] at h
  · exact absurd h (by simp)
  obtain ⟨ho, hs0, ht0⟩ := clientGet_ok_inv hg
  split at h
  swap
  · exact absurd h (by simp)
  rename_i hz
  split at h
  swap
  · exact absurd h (by simp)
  rename_i hc
  simp only [Option.some.injEq, Prod.mk.injEq] at h
  obtain ⟨rfl, rfl⟩ := h
  exact ⟨ho, hs0, ht0, by simpa using hz, hc⟩

/-- C9 as the code has it. When `Reconcile` returns an error `e`, its last call is either a
write of the status, or the fetch of the resource failing with `e`, or an `Update` of the
resource (adding or removing the finalizer, persisting the defaulted spec) failing with `e`:
a failed fetch or `Update` is returned at once, with no status write after it. Whenever
`deleteMapping` or `syncMapping` fails, the last call is a write of the status. -/
theorem error_return_last_call (r : HANAMappingReconciler ε) (w : World ε)
    (req : NamespacedName) (e : GoError) (h : (Reconcile r w req).1.2 = some e) :
    ((∃ o a, (calls r w req).getLast? = some (Event.StatusUpdate o a)) ∨
        (calls r w req).getLast? = some (Event.Get req (some e)) ∨
        ∃ o, (calls r w req).getLast? = some (Event.Update o (some e))) ∧
      ∀ hm w1, ((deleteEntry r w req = some (hm, w1) ∧ (deleteMapping r w1 hm).1 ≠ none) ∨
          (syncEntry r w req = some (hm, w1) ∧
            ∃ e', (syncMapping r w1 hm).1 = Except.error e')) →
        ∃ o a, (calls r w req).getLast? = some (Event.StatusUpdate o a) := by
  constructor
  · have key : ∃ evs last, (Reconcile r w req).2.trace = w.trace ++ (evs ++ [last]) ∧
        ((∃ o a, last = Event.StatusUpdate o a) ∨ last = Event.Get req (some e) ∨
          ∃ o, last = Event.Update o (some e)) := by
      unfold Reconcile at h ⊢
      rcases hg : clientGet r w req with ⟨ge | obj, w0⟩
      · obtain ⟨-, ht0⟩ := clientGet_error_inv hg
        rw [hg] at h
        simp only at h ⊢
        split at h
        · obtain rfl : ge = e := by simpa using h
          rename_i hnf
          simp only [hnf, if_true]
          exact ⟨[], _, by simpa using ht0, Or.inr (Or.inl rfl)⟩
        · exact absurd h (by simp)
      obtain ⟨-, -, ht0⟩ := clientGet_ok_inv hg
      rw [hg] at h
      simp only at h ⊢
      split at h
      · rename_i hz
        simp only [hz, if_true]
        obtain ⟨evs, last, ht, hl⟩ := reconcileDeletion_last r w0 obj e h
        refine ⟨Event.Get req none :: evs, last, by simp [ht, ht0], ?_⟩
        rcases hl with ⟨-, o, a, rfl⟩ | ⟨-, o, rfl⟩
        · exact Or.inl ⟨o, a, rfl⟩
        · exact Or.inr (Or.inr ⟨o, rfl⟩)
      rename_i hz
      simp only [hz, if_false]
      rcases ha : attachFinalizer r w0 obj with ⟨hm1, a1, w1⟩
      rw [ha] at h
      have ht1 : ∃ evs, w1.trace = w.trace ++ evs ∧
          (a1 ≠ none → ∃ evs', evs = evs' ++ [Event.Update hm1 a1]) := by
        rcases attachFinalizer_inv ha with ⟨-, -, rfl, rfl⟩ | ⟨-, -, ht, -⟩
        · exact ⟨_, ht0, fun hx => absurd rfl hx⟩
        · exact ⟨[Event.Get req none] ++ [Event.Update hm1 a1],
            by rw [ht, ht0, List.append_assoc], fun _ => ⟨_, rfl⟩⟩
      obtain ⟨evs1, ht1, hl1⟩ := ht1
      rcases a1 with _ | a1
      swap
      · obtain rfl : a1 = e := by simpa using h
        obtain ⟨evs', rfl⟩ := hl1 (by simp)
        exact ⟨evs', _, ht1, Or.inr (Or.inr ⟨hm1, rfl⟩)⟩
      simp only at h ⊢
      rcases hi : initStatus r w1 hm1 with ⟨hm2, a2, w2⟩
      rw [hi] at h
      have ht2 : ∃ evs, w2.trace = w.trace ++ evs ∧
          (a2 ≠ none → ∃ evs', evs = evs' ++ [Event.StatusUpdate hm2 a2]) := by
        rcases initStatus_inv hi with ⟨-, -, rfl, rfl⟩ | ⟨-, -, ht, -⟩
        · exact ⟨_, ht1, fun hx => absurd rfl hx⟩
        · exact ⟨evs1 ++ [Event.StatusUpdate hm2 a2],
            by rw [ht, ht1, List.append_assoc], fun _ => ⟨_, rfl⟩⟩
      obtain ⟨evs2, ht2, hl2⟩ := ht2
      rcases a2 with _ | a2
      swap
      · obtain ⟨evs', rfl⟩ := hl2 (by simp)
        exact ⟨evs', _, ht2, Or.inl ⟨_, _, rfl⟩⟩
      simp only at h ⊢
      split at h
      · rename_i hlen
        simp only [hlen, if_true]
        rcases hu : clientUpdate r w2
          { hm2 with
            Spec :=
              { hm2.Spec with
                Mapping := { hm2.Spec.Mapping with TargetNamespace := hm2.Namespace } } } with
          ⟨a3, w3⟩
        obtain ⟨ht3, -⟩ := clientUpdate_inv hu
        rw [hu] at h
        rcases a3 with _ | a3
        · exact absurd h (by simp)
        · obtain rfl : a3 = e := by simpa using h
          obtain ⟨o3, ht3⟩ : ∃ o, w3.trace = w2.trace ++ [Event.Update o (some a3)] :=
            ⟨_, ht3⟩
          exact ⟨evs2, Event.Update o3 (some a3), by simp [ht3, ht2],
            Or.inr (Or.inr ⟨_, rfl⟩)⟩
      · rename_i hlen
        simp only [hlen, if_false]
        obtain ⟨evs, o, a, ht⟩ := syncAndReport_last r w2 hm2
        exact ⟨evs2 ++ evs, Event.StatusUpdate o a, by simp [ht, ht2], Or.inl ⟨o, a, rfl⟩⟩
    obtain ⟨evs, last, ht, hl⟩ := key
    rw [getLast_calls ht]
    rcases hl with ⟨o, a, rfl⟩ | rfl | ⟨o, rfl⟩
    · exact Or.inl ⟨o, a, rfl⟩
    · exact Or.inr (Or.inl rfl)
    · exact Or.inr (Or.inr ⟨o, rfl⟩)
  · rintro hm w1 (⟨hentry, hfail⟩ | ⟨hentry, e', hfail⟩)
    · obtain ⟨-, -, ht1, -, hc⟩ := deleteEntry_inv hentry
      obtain ⟨evs, o, a, ht⟩ := reconcileDeletion_failed_last r w1 hm hc hfail
      rw [← Reconcile_of_deleteEntry r w req hm w1 hentry, ht1, List.append_assoc,
        ← List.append_assoc [Event.Get req none]] at ht
      exact ⟨o, a, getLast_calls ht⟩
    · obtain ⟨pre, ht1, -⟩ := syncEntry_trace hentry
      obtain ⟨evs, o, a, ht⟩ := syncAndReport_last r w1 hm
      rw [← Reconcile_of_syncEntry r w req hm w1 hentry, ht1, List.append_assoc,
        ← List.append_assoc pre] at ht
      exact ⟨o, a, getLast_calls ht⟩

/-- Counterexample to C9 as stated: the `Update` that persists the finalizer of a new
resource fails; `Reconcile` returns the error and has attempted no write of the status. -/
theorem error_return_without_status_write :
    ¬ ((Reconcile (stubReconciler { update := some (GoError.errorString "conflict") })
          (worldOf () newHANAMapping) testRequest).1.2 ≠ none →
        ∃ ev ∈ calls (stubReconciler { update := some (GoError.errorString "conflict") })
          (worldOf () newHANAMapping) testRequest, ev.isStatusWrite = true) := by
  decide

/-- Witness of the amended C9: the create of the mapping fails, and the last call of the
invocation is a write of the status. -/
theorem error_return_last_call_witness :
    ∃ o a, (calls
        (stubReconciler { createMappingsReturns := some (GoError.errorString "inventory error") })
        (worldOf () newHANAMapping) testRequest).getLast? = some (Event.StatusUpdate o a) :=
  (error_return_last_call
    (stubReconciler { createMappingsReturns := some (GoError.errorString "inventory error") })
    (worldOf () newHANAMapping) testRequest (GoError.errorString "inventory error") rfl).2
    (withCondition 7 (controllerutil.AddFinalizer newHANAMapping finalizerName)
      { Type_ := conditionTypeReady, Status := metav1.ConditionFalse,
        Reason := conditionReasonInProgress })
    { env := (),
      stored := some (withCondition 7
        (controllerutil.AddFinalizer newHANAMapping finalizerName)
        { Type_ := conditionTypeReady, Status := metav1.ConditionFalse,
          Reason := conditionReasonInProgress }),
      trace :=
        [Event.Get testRequest none,
          Event.Update (controllerutil.AddFinalizer newHANAMapping finalizerName) none,
          Event.StatusUpdate (withCondition 7
            (controllerutil.AddFinalizer newHANAMapping finalizerName)
            { Type_ := conditionTypeReady, Status := metav1.ConditionFalse,
              Reason := conditionReasonInProgress }) none] }
    (Or.inr ⟨rfl, _, rfl⟩)

end controller

namespace controller

open hanav1

variable {ε : Type}

/-- C10, a failure of the status write takes precedence. When `Reconcile` reaches
`deleteMapping` or `syncMapping`, that call fails with `e`, and the write of the Failed
status that follows fails with `s`, `Reconcile` returns `s`; when that write succeeds,
`Reconcile` returns `e`. -/
theorem status_write_failure_precedence (r : HANAMappingReconciler ε) (w w1 wf : World ε)
    (req : NamespacedName) (hm : HANAMapping) (e : GoError)
    (hfail : (deleteEntry r w req = some (hm, w1) ∧ deleteMapping r w1 hm = (some e, wf)) ∨
      (syncEntry r w req = some (hm, w1) ∧ syncMapping r w1 hm = (Except.error e, wf))) :
    (∀ s, (setStatusFailed r wf hm e).2.1 = some s → (Reconcile r w req).1.2 = some s) ∧
      ((setStatusFailed r wf hm e).2.1 = none → (Reconcile r w req).1.2 = some e) := by
  have hret : (Reconcile r w req).1.2 =
      (match (setStatusFailed r wf hm e).2.1 with
        | some s => some s
        | none => some e) := by
    rcases hfail with ⟨hentry, hd⟩ | ⟨hentry, hsync⟩
    · obtain ⟨-, -, -, -, hc⟩ := deleteEntry_inv hentry
      rw [Reconcile_of_deleteEntry r w req hm w1 hentry]
      simp only [reconcileDeletion, hc, if_true, hd]
      rcases setStatusFailed r wf hm e with ⟨hm1, _ | s, w2⟩ <;> rfl
    · rw [Reconcile_of_syncEntry r w req hm w1 hentry]
      simp only [syncAndReport, hsync]
      rcases setStatusFailed r wf hm e with ⟨hm1, _ | s, w2⟩ <;> rfl
  constructor
  · intro s hs
    rw [hret, hs]
  · intro hs
    rw [hret, hs]

/-- Witness of C10: the delete of the mapping of a resource marked for deletion fails and so
does the status write; `Reconcile` returns the error of the status write. -/
theorem status_write_failure_precedence_witness :
    (Reconcile (stubReconciler
        { deleteMappingsReturns := some (GoError.errorString "inventory error"),
          statusUpdate := some (GoError.errorString "conflict") })
      (worldOf () deletingHANAMapping) testRequest).1.2 =
      some (GoError.errorString "conflict") :=
  (status_write_failure_precedence (stubReconciler
      { deleteMappingsReturns := some (GoError.errorString "inventory error"),
        statusUpdate := some (GoError.errorString "conflict") })
    (worldOf () deletingHANAMapping)
    { env := (), stored := some deletingHANAMapping, trace := [Event.Get testRequest none] }
    { env := (), stored := some deletingHANAMapping,
      trace :=
        [Event.Get testRequest none,
          Event.GetSecret { Namespace := "default", Name := "admin-api-access" } none,
          Event.DeleteMapping "svc-1" "cluster-42" "ns-a"
            (some (GoError.errorString "inventory error"))] }
    testRequest deletingHANAMapping (GoError.errorString "inventory error")
    (Or.inl ⟨rfl, rfl⟩)).1 (GoError.errorString "conflict") rfl

end controller

/-! ## The inventory client: classification of the HTTP status -/

namespace inventory

variable {ε : Type}

/-- C11, `CreateMapping` classifies the status of the response totally. When the request can
be built and the HTTP stack answers with the status code `s`, the result is nil if and only
if `s = 201`, it is `ErrMappingAlreadyExists` if and only if `s = 200`, and for every other
`s` it is a generic error, equal to neither typed signal, whose text is
`failed to create mapping, HTTP s`. -/
theorem CreateMapping_classifies (t : Transport ε) (binding : Binding) (st st1 : ε)
    (serviceInstanceID : String) (mapping : Mapping) (s : Int)
    (hreq : t.NewRequest "POST"
      ("https://" ++ binding.BaseURL ++ mappingsPath serviceInstanceID) = none)
    (hresp : doAuthRequest t binding st
      { Method := "POST"
        URL := "https://" ++ binding.BaseURL ++ mappingsPath serviceInstanceID
        Header := [("Content-Type", "application/json")]
        Body := some mapping } = (Except.ok s, st1)) :
    ((CreateMapping t binding st serviceInstanceID mapping).1 = none ↔ s = 201) ∧
      ((CreateMapping t binding st serviceInstanceID mapping).1 =
          some ErrMappingAlreadyExists ↔ s = 200) ∧
      (s ≠ 201 → s ≠ 200 →
        (CreateMapping t binding st serviceInstanceID mapping).1 =
            some (GoError.errorString ("failed to create mapping, HTTP " ++ toString s)) ∧
          GoError.errorString ("failed to create mapping, HTTP " ++ toString s) ≠
            ErrMappingAlreadyExists ∧
          GoError.errorString ("failed to create mapping, HTTP " ++ toString s) ≠
            ErrMappingNotFound ∧
          (GoError.errorString ("failed to create mapping, HTTP " ++ toString s)).Error =
            "failed to create mapping, HTTP " ++ toString s) := by
  simp only [CreateMapping, hreq, hresp]
  by_cases h1 : s = 201
  · subst h1
    simp [ErrMappingAlreadyExists]
  · by_cases h2 : s = 200
    · subst h2
      simp [ErrMappingAlreadyExists]
    · simp [h1, h2, ErrMappingAlreadyExists, ErrMappingNotFound, GoError.Error]

/-- Witness of C11: the HTTP stack answers the create with 500, and the text of the error
holds `HTTP 500`. -/
theorem CreateMapping_classifies_witness :
    (CreateMapping (controller.fixedTransport 500 200)
        { BaseURL := "inventory.example",
          UAA := { URL := "https://uaa.example", ClientID := "id", ClientSecret := "secret" } }
        () "svc-1"
        { Platform := "kubernetes", PrimaryID := "cluster-42", SecondaryID := "ns-a" }).1 =
      some (GoError.errorString "failed to create mapping, HTTP 500") :=
  ((CreateMapping_classifies (controller.fixedTransport 500 200)
    { BaseURL := "inventory.example",
      UAA := { URL := "https://uaa.example", ClientID := "id", ClientSecret := "secret" } }
    () () "svc-1"
    { Platform := "kubernetes", PrimaryID := "cluster-42", SecondaryID := "ns-a" } 500
    rfl rfl).2.2 (by decide) (by decide)).1

/-- C12, `DeleteMapping` classifies the status of the response totally. When the request can
be built and the HTTP stack answers with the status code `s`, the result is nil if and only
if `s = 200`, it is `ErrMappingNotFound` if and only if `s = 404`, and for every other `s`
(201 and 204 among them) it is a generic error, equal to neither typed signal, whose text is
`failed to delete mapping, HTTP s`. -/
theorem DeleteMapping_classifies (t : Transport ε) (binding : Binding) (st st1 : ε)
    (serviceInstanceID primaryID secondaryID : String) (s : Int)
    (hreq : t.NewRequest "DELETE"
      ("https://" ++ binding.BaseURL ++ mappingsPath serviceInstanceID) = none)
    (hresp : doAuthRequest t binding st
      { Method := "DELETE"
        URL := "https://" ++ binding.BaseURL ++ mappingsPath serviceInstanceID
        Query := [("primaryID", primaryID), ("secondaryID", secondaryID)] } =
      (Except.ok s, st1)) :
    ((DeleteMapping t binding st serviceInstanceID primaryID secondaryID).1 = none ↔
        s = 200) ∧
      ((DeleteMapping t binding st serviceInstanceID primaryID secondaryID).1 =
          some ErrMappingNotFound ↔ s = 404) ∧
      (s ≠ 200 → s ≠ 404 →
        (DeleteMapping t binding st serviceInstanceID primaryID secondaryID).1 =
            some (GoError.errorString ("failed to delete mapping, HTTP " ++ toString s)) ∧
          GoError.errorString ("failed to delete mapping, HTTP " ++ toString s) ≠
            ErrMappingAlreadyExists ∧
          GoError.errorString ("failed to delete mapping, HTTP " ++ toString s) ≠
            ErrMappingNotFound ∧
          (GoError.errorString ("failed to delete mapping, HTTP " ++ toString s)).Error =
            "failed to delete mapping, HTTP " ++ toString s) ∧
      (s = 201 ∨ s = 204 →
        (DeleteMapping t binding st serviceInstanceID primaryID secondaryID).1 =
          some (GoError.errorString ("failed to delete mapping, HTTP " ++ toString s))) := by
  simp only [DeleteMapping, hreq, hresp]
  by_cases h1 : s = 200
  · subst h1
    simp [ErrMappingNotFound]
  · by_cases h2 : s = 404
    · subst h2
      simp [ErrMappingNotFound]
    · simp [h1, h2, ErrMappingAlreadyExists, ErrMappingNotFound, GoError.Error]

/-- Witness of C12: the HTTP stack answers the delete with 204, which is not a success for
this client. -/
theorem DeleteMapping_classifies_witness :
    (DeleteMapping (controller.fixedTransport 201 204)
        { BaseURL := "inventory.example",
          UAA := { URL := "https://uaa.example", ClientID := "id", ClientSecret := "secret" } }
        () "svc-1" "cluster-42" "ns-a").1 =
      some (GoError.errorString "failed to delete mapping, HTTP 204") :=
  (DeleteMapping_classifies (controller.fixedTransport 201 204)
    { BaseURL := "inventory.example",
      UAA := { URL := "https://uaa.example", ClientID := "id", ClientSecret := "secret" } }
    () () "svc-1" "cluster-42" "ns-a" 204 rfl rfl).2.2.2 (Or.inr rfl)

end inventory

/-! ## Configuration errors surface as failures -/

namespace controller

open hanav1

variable {ε : Type}

/-- With a configuration error `syncMapping` returns that error after reading configuration
only. -/
theorem syncMapping_configurationError {r : HANAMappingReconciler ε} {w : World ε}
    {hm : HANAMapping} {e : GoError} (h : ConfigurationError r w hm e) :
    ∃ w3 cfg, syncMapping r w hm = (Except.error e, w3) ∧ w3.stored = w.stored ∧
      w3.trace = w.trace ++ cfg ∧ ∀ ev ∈ cfg, ev.isConfigRead = true := by
  rcases h with ⟨env, h1⟩ | ⟨cm, env, h1, ⟨env1, h2⟩ | ⟨secret, env1, h2, h3⟩⟩
  · have hc : getClusterID r w hm = (Except.error e,
        { env := env, stored := w.stored,
          trace := w.trace ++ [Event.GetConfigMap (btpOperatorConfigmapKey hm) (some e)] }) := by
      simp only [getClusterID, clientGetConfigMap]
      simp only [btpOperatorConfigmapKey] at h1
      simp only [h1, btpOperatorConfigmapKey]
    exact ⟨{ env := env, stored := w.stored,
             trace := w.trace ++ [Event.GetConfigMap (btpOperatorConfigmapKey hm) (some e)] },
      [Event.GetConfigMap (btpOperatorConfigmapKey hm) (some e)],
      by simp only [syncMapping, hc], rfl, rfl, by simp [Event.isConfigRead]⟩
  · have hc : getClusterID r w hm = (Except.ok (corev1.index cm.Data "CLUSTER_ID"),
        { env := env, stored := w.stored,
          trace := w.trace ++ [Event.GetConfigMap (btpOperatorConfigmapKey hm) none] }) := by
      simp only [getClusterID, clientGetConfigMap]
      simp only [btpOperatorConfigmapKey] at h1
      simp only [h1, btpOperatorConfigmapKey]
    have hb : getAdminAPIAccessBinding r
        { env := env, stored := w.stored,
          trace := w.trace ++ [Event.GetConfigMap (btpOperatorConfigmapKey hm) none] } hm =
        (Except.error e,
          { env := env1, stored := w.stored,
            trace := w.trace ++ [Event.GetConfigMap (btpOperatorConfigmapKey hm) none] ++
              [Event.GetSecret (adminAPIAccessSecretKey hm) (some e)] }) := by
      simp only [getAdminAPIAccessBinding, clientGetSecret]
      simp only [adminAPIAccessSecretKey] at h2
      simp only [h2, adminAPIAccessSecretKey]
    exact ⟨{ env := env1, stored := w.stored,
             trace := w.trace ++ [Event.GetConfigMap (btpOperatorConfigmapKey hm) none] ++
               [Event.GetSecret (adminAPIAccessSecretKey hm) (some e)] },
      [Event.GetConfigMap (btpOperatorConfigmapKey hm) none,
        Event.GetSecret (adminAPIAccessSecretKey hm) (some e)],
      by simp only [syncMapping, hc, hb], rfl, by simp, by simp [Event.isConfigRead]⟩
  · have hc : getClusterID r w hm = (Except.ok (corev1.index cm.Data "CLUSTER_ID"),
        { env := env, stored := w.stored,
          trace := w.trace ++ [Event.GetConfigMap (btpOperatorConfigmapKey hm) none] }) := by
      simp only [getClusterID, clientGetConfigMap]
      simp only [btpOperatorConfigmapKey] at h1
      simp only [h1, btpOperatorConfigmapKey]
    have hb : getAdminAPIAccessBinding r
        { env := env, stored := w.stored,
          trace := w.trace ++ [Event.GetConfigMap (btpOperatorConfigmapKey hm) none] } hm =
        (Except.error e,
          { env := env1, stored := w.stored,
            trace := w.trace ++ [Event.GetConfigMap (btpOperatorConfigmapKey hm) none] ++
              [Event.GetSecret (adminAPIAccessSecretKey hm) none] }) := by
      simp only [getAdminAPIAccessBinding, clientGetSecret]
      simp only [adminAPIAccessSecretKey] at h2
      simp only [h2, h3, adminAPIAccessSecretKey]
    exact ⟨{ env := env1, stored := w.stored,
             trace := w.trace ++ [Event.GetConfigMap (btpOperatorConfigmapKey hm) none] ++
               [Event.GetSecret (adminAPIAccessSecretKey hm) none] },
      [Event.GetConfigMap (btpOperatorConfigmapKey hm) none,
        Event.GetSecret (adminAPIAccessSecretKey hm) none],
      by simp only [syncMapping, hc, hb], rfl, by simp, by simp [Event.isConfigRead]⟩

theorem calls_of_trace {r : HANAMappingReconciler ε} {w : World ε} {req : NamespacedName}
    {evs : List Event} (h : (Reconcile r w req).2.trace = w.trace ++ evs) :
    calls r w req = evs := by
  simp [calls, h]

/-- C13, configuration errors surface as failures. When `Reconcile` reaches `syncMapping`
(the resource is not marked for deletion and has a target namespace) and the configmap of the
cluster identity cannot be read, or the secret cannot be read, or its `uaa` entry does not
decode, with error `e`: `Reconcile` returns a non-nil error, its last call is a write of the
status that carries a Ready condition with status False, reason Failed and the text of `e`
(and when that write succeeds, `Reconcile` returns `e` and the store holds that resource), the
observed mapping of the stored resource is what it was, and the inventory is not called. -/
theorem configuration_errors_surface (r : HANAMappingReconciler ε) (w w2 : World ε)
    (req : NamespacedName) (obj hm : HANAMapping) (e : GoError)
    (hstored : w.stored = some obj)
    (hentry : syncEntry r w req = some (hm, w2))
    (hcfg : ConfigurationError r w2 hm e) :
    metav1.IsZero obj.DeletionTimestamp = true ∧
      obj.Spec.Mapping.TargetNamespace ≠ "" ∧
      (Reconcile r w req).1.2 ≠ none ∧
      (∃ o a c, (calls r w req).getLast? = some (Event.StatusUpdate o a) ∧
        meta.FindStatusCondition (o.Status.Conditions.getD []) conditionTypeReady = some c ∧
        c.Status = metav1.ConditionFalse ∧ c.Reason = conditionReasonFailed ∧
        c.Message = e.Error ∧
        (a = none → (Reconcile r w req).1.2 = some e ∧
          (Reconcile r w req).2.stored = some o)) ∧
      (∃ o, (Reconcile r w req).2.stored = some o ∧
        o.Status.MappingID = obj.Status.MappingID) ∧
      ∀ ev ∈ calls r w req, ev.isInventoryCall = false := by
  obtain ⟨hs2, hmid, -, -, hz, -, -, hlen, -⟩ := syncEntry_inv hstored hentry
  obtain ⟨pre, htr2, hpre⟩ := syncEntry_trace hentry
  obtain ⟨w3, cfg, hsync, hs3, htr3, hcfgev⟩ := syncMapping_configurationError hcfg
  obtain ⟨d, hd, -, hd1, hd2, hd3⟩ := meta.find_SetStatusCondition (r.Now w3.env)
    (hm.Status.Conditions.getD [])
    { Type_ := conditionTypeReady, Status := metav1.ConditionFalse,
      Reason := conditionReasonFailed, Message := e.Error }
  have hrec : Reconcile r w req = syncAndReport r w2 hm :=
    Reconcile_of_syncEntry r w req hm w2 hentry
  rcases hf : setStatusFailed r w3 hm e with ⟨hm1, sa, w4⟩
  obtain ⟨rfl, htr4, hs4⟩ := setStatusFailed_inv hf
  have hout : Reconcile r w req =
      (({}, some (match sa with | some s => s | none => e)), w4) := by
    rw [hrec]
    simp only [syncAndReport, hsync, hf]
    rcases sa with _ | s <;> rfl
  have htrace : (Reconcile r w req).2.trace = w.trace ++ (pre ++ cfg ++
      [Event.StatusUpdate (withCondition (r.Now w3.env) hm
        { Type_ := conditionTypeReady, Status := metav1.ConditionFalse,
          Reason := conditionReasonFailed, Message := e.Error }) sa]) := by
    rw [hout]
    simp [htr4, htr3, htr2]
  have hcalls := calls_of_trace htrace
  refine ⟨hz, ?_, ?_, ?_, ?_, ?_⟩
  · intro h
    rw [h] at hlen
    exact hlen rfl
  · rw [hout]
    simp
  · refine ⟨withCondition (r.Now w3.env) hm
        { Type_ := conditionTypeReady, Status := metav1.ConditionFalse,
          Reason := conditionReasonFailed, Message := e.Error }, sa, d,
      by rw [hcalls]; simp, by simpa [withCondition] using hd, hd1, hd2, hd3, ?_⟩
    rintro rfl
    rw [hout]
    exact ⟨rfl, by simpa using hs4⟩
  · rw [hout]
    rcases sa with _ | s
    · exact ⟨_, by simpa using hs4, by simpa [withCondition] using hmid⟩
    · exact ⟨hm, by simpa [hs3, hs2] using hs4, hmid⟩
  · intro ev hev
    rw [hcalls] at hev
    simp only [List.mem_append, List.mem_singleton] at hev
    rcases hev with (hev | hev) | rfl
    · exact hpre ev hev
    · have := hcfgev ev hev
      cases ev <;> simp_all [Event.isConfigRead, Event.isInventoryCall]
    · rfl

/-- Witness of C13: the secret of the credentials cannot be read; the test `invalid admin
api access secret`. -/
theorem configuration_errors_surface_witness :
    (Reconcile (stubReconciler { secret := Except.error (GoError.statusError "NotFound"
          "secret invalid not found") })
        (worldOf () syncedHANAMapping) testRequest).1.2 ≠ none ∧
      ∀ ev ∈ calls (stubReconciler { secret := Except.error (GoError.statusError "NotFound"
          "secret invalid not found") })
        (worldOf () syncedHANAMapping) testRequest, ev.isInventoryCall = false :=
  ⟨(configuration_errors_surface (stubReconciler
      { secret := Except.error (GoError.statusError "NotFound"
          "secret invalid not found") })
      (worldOf () syncedHANAMapping)
      { env := (), stored := some syncedHANAMapping, trace := [Event.Get testRequest none] }
      testRequest syncedHANAMapping syncedHANAMapping
      (GoError.statusError "NotFound" "secret invalid not found") rfl rfl
      (Or.inr ⟨_, _, rfl, Or.inl ⟨_, rfl⟩⟩)).2.2.1,
    (configuration_errors_surface (stubReconciler
      { secret := Except.error (GoError.statusError "NotFound"
          "secret invalid not found") })
      (worldOf () syncedHANAMapping)
      { env := (), stored := some syncedHANAMapping, trace := [Event.Get testRequest none] }
      testRequest syncedHANAMapping syncedHANAMapping
      (GoError.statusError "NotFound" "secret invalid not found") rfl rfl
      (Or.inr ⟨_, _, rfl, Or.inl ⟨_, rfl⟩⟩)).2.2.2.2.2⟩

end controller

/-! ## The calls of one invocation -/

namespace controller

open hanav1

variable {ε : Type}

theorem deleteOldMapping_calls (c : inventory.Client ε) (w : World ε)
    (old : Option MappingID) (new : MappingID) :
    ∃ dels, (deleteOldMapping c w old new).2.trace = w.trace ++ dels ∧
      (dels = [] ∨ ∃ o d, old = some o ∧ new ≠ o ∧
        dels = [Event.DeleteMapping o.ServiceInstanceID o.PrimaryID o.SecondaryID d]) := by
  unfold deleteOldMapping
  rcases old with _ | old
  · exact ⟨[], by simp, Or.inl rfl⟩
  · simp only
    split
    · rename_i hne
      have hne' : new ≠ old := by simpa using hne
      rcases hd : callDeleteMapping c w old.ServiceInstanceID old.PrimaryID old.SecondaryID
        with ⟨_ | e, w1⟩
      · exact ⟨_, (callDeleteMapping_inv hd).2, Or.inr ⟨old, _, rfl, hne', rfl⟩⟩
      · simp only
        split <;> exact ⟨_, (callDeleteMapping_inv hd).2, Or.inr ⟨old, _, rfl, hne', rfl⟩⟩
    · exact ⟨[], by simp, Or.inl rfl⟩

/-- The calls of `syncMapping`: reads of configuration, then at most one `DeleteMapping`, issued
only for an observed mapping that differs from the desired identity, then at most one
`CreateMapping`, for the desired identity. -/
theorem syncMapping_calls (r : HANAMappingReconciler ε) (w : World ε) (hm : HANAMapping) :
    ∃ c cfg dels cres, (syncMapping r w hm).2.trace = w.trace ++ (cfg ++ (dels ++ cres)) ∧
      (∀ e ∈ cfg, e.isConfigRead = true) ∧
      (dels = [] ∨ ∃ old d, hm.Status.MappingID = some old ∧
        MappingID.mk hm.Spec.Mapping.ServiceInstanceID c hm.Spec.Mapping.TargetNamespace ≠
          old ∧
        dels = [Event.DeleteMapping old.ServiceInstanceID old.PrimaryID old.SecondaryID d]) ∧
      (cres = [] ∨ ∃ ca, cres = [Event.CreateMapping hm.Spec.Mapping.ServiceInstanceID
        { Platform := "kubernetes", PrimaryID := c,
          SecondaryID := hm.Spec.Mapping.TargetNamespace } ca]) ∧
      ((getClusterID r w hm).1 = Except.ok c ∨ (dels = [] ∧ cres = [])) := by
  unfold syncMapping
  rcases hc : getClusterID r w hm with ⟨e | c, w1⟩
  · obtain ⟨-, k, a, ht⟩ := getClusterID_inv hc
    exact ⟨"", [Event.GetConfigMap k a], [], [], by simpa using ht,
      by simp [Event.isConfigRead], Or.inl rfl, Or.inl rfl, Or.inr ⟨rfl, rfl⟩⟩
  · obtain ⟨-, k1, a1, ht1⟩ := getClusterID_inv hc
    simp only
    rcases hb : getAdminAPIAccessBinding r w1 hm with ⟨e | b, w2⟩
    · obtain ⟨-, k2, a2, ht2⟩ := getAdminAPIAccessBinding_inv hb
      exact ⟨c, [Event.GetConfigMap k1 a1, Event.GetSecret k2 a2], [], [],
        by simp [ht2, ht1], by simp [Event.isConfigRead], Or.inl rfl, Or.inl rfl,
        Or.inl rfl⟩
    · obtain ⟨-, k2, a2, ht2⟩ := getAdminAPIAccessBinding_inv hb
      simp only
      obtain ⟨dels, ht3, hdels⟩ := deleteOldMapping_calls (r.GetInventoryClient b) w2
        hm.Status.MappingID
        { ServiceInstanceID := hm.Spec.Mapping.ServiceInstanceID, PrimaryID := c,
          SecondaryID := hm.Spec.Mapping.TargetNamespace }
      have hdels' : dels = [] ∨ ∃ old d, hm.Status.MappingID = some old ∧
          MappingID.mk hm.Spec.Mapping.ServiceInstanceID c hm.Spec.Mapping.TargetNamespace ≠
            old ∧
          dels = [Event.DeleteMapping old.ServiceInstanceID old.PrimaryID
            old.SecondaryID d] := hdels
      rcases hd : deleteOldMapping (r.GetInventoryClient b) w2 hm.Status.MappingID
        { ServiceInstanceID := hm.Spec.Mapping.ServiceInstanceID, PrimaryID := c,
          SecondaryID := hm.Spec.Mapping.TargetNamespace } with ⟨_ | e, w3⟩
      · rw [hd] at ht3
        simp only at ht3 ⊢
        rcases hcm : callCreateMapping (r.GetInventoryClient b) w3
          hm.Spec.Mapping.ServiceInstanceID
          { Platform := "kubernetes", PrimaryID := c,
            SecondaryID := hm.Spec.Mapping.TargetNamespace } with ⟨ca, w4⟩
        obtain ⟨-, ht4⟩ := callCreateMapping_inv hcm
        have hfin : w4.trace = w.trace ++ ([Event.GetConfigMap k1 a1, Event.GetSecret k2 a2] ++
            (dels ++ [Event.CreateMapping hm.Spec.Mapping.ServiceInstanceID
              { Platform := "kubernetes", PrimaryID := c,
                SecondaryID := hm.Spec.Mapping.TargetNamespace } ca])) := by
          rw [ht4, ht3, ht2, ht1]
          simp
        refine ⟨c, [Event.GetConfigMap k1 a1, Event.GetSecret k2 a2], dels, _, ?_,
          by simp [Event.isConfigRead], hdels', Or.inr ⟨ca, rfl⟩, Or.inl rfl⟩
        rcases ca with _ | ce
        · exact hfin
        · simp only
          split <;> exact hfin
      · rw [hd] at ht3
        simp only at ht3 ⊢
        exact ⟨c, [Event.GetConfigMap k1 a1, Event.GetSecret k2 a2], dels, [],
          by rw [ht3, ht2, ht1]; simp, by simp [Event.isConfigRead], hdels', Or.inl rfl,
          Or.inl rfl⟩

/-- The sync branch is `syncMapping` followed by one write of the status. -/
theorem syncAndReport_trace (r : HANAMappingReconciler ε) (w : World ε) (hm : HANAMapping) :
    ∃ o a, (syncAndReport r w hm).2.trace =
      (syncMapping r w hm).2.trace ++ [Event.StatusUpdate o a] := by
  unfold syncAndReport
  rcases hsync : syncMapping r w hm with ⟨e | newMappingID, w1⟩
  · simp only
    rcases hf : setStatusFailed r w1 hm e with ⟨hm1, a, w2⟩
    obtain ⟨-, ht2, -⟩ := setStatusFailed_inv hf
    refine ⟨hm1, a, ?_⟩
    rcases a with _ | a <;> exact ht2
  · simp only
    rcases hf : setStatusSucceeded r w1 hm newMappingID with ⟨hm1, a, w2⟩
    obtain ⟨-, ht2, -⟩ := setStatusSucceeded_inv hf
    refine ⟨hm1, a, ?_⟩
    rcases a with _ | a <;> exact ht2

/-- The calls of the deletion branch: no inventory call at all, or the read of the secret, one
`DeleteMapping` for the observed mapping, and one write to the store. -/
theorem reconcileDeletion_calls (r : HANAMappingReconciler ε) (w : World ε)
    (hm : HANAMapping) :
    (∃ evs, (reconcileDeletion r w hm).2.trace = w.trace ++ evs ∧
        ∀ ev ∈ evs, ev.isInventoryCall = false) ∨
      ∃ m k a d last, hm.Status.MappingID = some m ∧
        (reconcileDeletion r w hm).2.trace = w.trace ++
          [Event.GetSecret k a,
            Event.DeleteMapping m.ServiceInstanceID m.PrimaryID m.SecondaryID d, last] ∧
        last.isInventoryCall = false := by
  unfold reconcileDeletion
  split
  swap
  · exact Or.inl ⟨[], by simp, by simp⟩
  rcases hd : deleteMapping r w hm with ⟨res, w1⟩
  have hlast : ∃ last, (match (res, w1) with
        | (some err, w) =>
          match setStatusFailed r w hm err with
          | (_, some statusErr, w) => ((({} : ctrl.Result), some statusErr), w)
          | (_, none, w) => (({}, some err), w)
        | (none, w) =>
          match clientUpdate r w (controllerutil.RemoveFinalizer hm finalizerName) with
          | (some err, w) => (({}, some err), w)
          | (none, w) => (({}, none), w)).2.trace = w1.trace ++ [last] ∧
      last.isInventoryCall = false := by
    rcases res with _ | e
    · simp only
      rcases hu : clientUpdate r w1 (controllerutil.RemoveFinalizer hm finalizerName) with
        ⟨a, w2⟩
      obtain ⟨ht2, -⟩ := clientUpdate_inv hu
      refine ⟨_, ?_, (rfl : (Event.Update (controllerutil.RemoveFinalizer hm finalizerName)
        a).isInventoryCall = false)⟩
      rcases a with _ | a <;> exact ht2
    · simp only
      rcases hf : setStatusFailed r w1 hm e with ⟨hm1, a, w2⟩
      obtain ⟨-, ht2, -⟩ := setStatusFailed_inv hf
      refine ⟨_, ?_, (rfl : (Event.StatusUpdate hm1 a).isInventoryCall = false)⟩
      rcases a with _ | a <;> exact ht2
  obtain ⟨last, htl, hl⟩ := hlast
  rcases hmid : hm.Status.MappingID with _ | m
  · obtain ⟨-, rfl⟩ := deleteMapping_nil_inv hmid hd
    exact Or.inl ⟨[last], htl, by simpa using hl⟩
  · obtain ⟨-, k, a, h⟩ := deleteMapping_inv hmid hd
    rcases h with ⟨e, -, ht⟩ | ⟨d, ht, -⟩
    · refine Or.inl ⟨[Event.GetSecret k a, last], by rw [htl, ht]; simp, ?_⟩
      intro ev hev
      simp only [List.mem_cons, List.mem_singleton, List.not_mem_nil, or_false] at hev
      rcases hev with rfl | rfl
      · rfl
      · exact hl
    · exact Or.inr ⟨m, k, a, d, last, rfl, by rw [htl, ht]; simp, hl⟩

/-- An invocation that reaches neither `deleteMapping` nor `syncMapping` calls the store only. -/
theorem Reconcile_calls_of_no_entry (r : HANAMappingReconciler ε) (w : World ε)
    (req : NamespacedName) (hd : deleteEntry r w req = none) (hs : syncEntry r w req = none) :
    ∃ evs, (Reconcile r w req).2.trace = w.trace ++ evs ∧
      ∀ ev ∈ evs, ev.isInventoryCall = false := by
  simp only [deleteEntry] at hd
  simp only [syncEntry] at hs
  unfold Reconcile
  rcases hg : clientGet r w req with ⟨ge | obj, w0⟩
  · obtain ⟨-, ht0⟩ := clientGet_error_inv hg
    simp only
    split <;> exact ⟨_, ht0, by simp [Event.isInventoryCall]⟩
  obtain ⟨-, -, ht0⟩ := clientGet_ok_inv hg
  simp only [hg] at hd hs
  simp only
  by_cases hz : (!metav1.IsZero obj.DeletionTimestamp) = true
  · simp only [hz, if_true] at hd ⊢
    by_cases hc : controllerutil.ContainsFinalizer obj finalizerName = true
    · simp [hc] at hd
    · simp only [reconcileDeletion, hc]
      exact ⟨_, ht0, by simp [Event.isInventoryCall]⟩
  simp only [hz, if_false] at hs ⊢
  rcases ha : attachFinalizer r w0 obj with ⟨hm1, a1, w1⟩
  rw [ha] at hs
  have ht1 : ∃ evs, w1.trace = w.trace ++ evs ∧ ∀ ev ∈ evs, ev.isInventoryCall = false := by
    rcases attachFinalizer_inv ha with ⟨-, -, -, rfl⟩ | ⟨-, -, ht, -⟩
    · exact ⟨_, ht0, by simp [Event.isInventoryCall]⟩
    · exact ⟨[Event.Get req none] ++ [Event.Update hm1 a1], by rw [ht, ht0, List.append_assoc],
        by simp [Event.isInventoryCall]⟩
  rcases a1 with _ | a1
  swap
  · exact ht1
  simp only at hs ⊢
  obtain ⟨evs1, ht1, he1⟩ := ht1
  rcases hi : initStatus r w1 hm1 with ⟨hm2, a2, w2⟩
  rw [hi] at hs
  have ht2 : ∃ evs, w2.trace = w.trace ++ evs ∧ ∀ ev ∈ evs, ev.isInventoryCall = false := by
    rcases initStatus_inv hi with ⟨-, -, -, rfl⟩ | ⟨-, -, ht, -⟩
    · exact ⟨evs1, ht1, he1⟩
    · refine ⟨evs1 ++ [Event.StatusUpdate hm2 a2], by rw [ht, ht1, List.append_assoc], ?_⟩
      intro ev hev
      simp only [List.mem_append, List.mem_singleton] at hev
      rcases hev with hev | rfl
      · exact he1 ev hev
      · rfl
  rcases a2 with _ | a2
  swap
  · exact ht2
  simp only at hs ⊢
  obtain ⟨evs2, ht2, he2⟩ := ht2
  by_cases hlen : hm2.Spec.Mapping.TargetNamespace.length = 0
  swap
  · simp [hlen] at hs
  simp only [hlen, if_true]
  rcases hu : clientUpdate r w2
    { hm2 with
      Spec :=
        { hm2.Spec with
          Mapping := { hm2.Spec.Mapping with TargetNamespace := hm2.Namespace } } } with
    ⟨a3, w3⟩
  obtain ⟨o3, ht3⟩ : ∃ o, w3.trace = w2.trace ++ [Event.Update o a3] :=
    ⟨_, (clientUpdate_inv hu).1⟩
  have hfin : ∃ evs, w3.trace = w.trace ++ evs ∧ ∀ ev ∈ evs, ev.isInventoryCall = false := by
    refine ⟨evs2 ++ [Event.Update o3 a3], by rw [ht3, ht2, List.append_assoc], ?_⟩
    intro ev hev
    simp only [List.mem_append, List.mem_singleton] at hev
    rcases hev with hev | rfl
    · exact he2 ev hev
    · rfl
  rcases a3 with _ | a3 <;> exact hfin

theorem Event.not_create_of_quiet {ev : Event} (h : ev.isInventoryCall = false) :
    ev.isCreateMapping = false := by
  cases ev <;> simp_all [Event.isInventoryCall, Event.isCreateMapping]

theorem Event.not_delete_of_quiet {ev : Event} (h : ev.isInventoryCall = false) :
    ev.isDeleteMapping = false := by
  cases ev <;> simp_all [Event.isInventoryCall, Event.isDeleteMapping]

theorem Event.not_create_of_config {ev : Event} (h : ev.isConfigRead = true) :
    ev.isCreateMapping = false := by
  cases ev <;> simp_all [Event.isConfigRead, Event.isCreateMapping]

theorem Event.not_delete_of_config {ev : Event} (h : ev.isConfigRead = true) :
    ev.isDeleteMapping = false := by
  cases ev <;> simp_all [Event.isConfigRead, Event.isDeleteMapping]

theorem storeAfter_append (stored : Option HANAMapping) (xs ys : List Event) :
    storeAfter stored (xs ++ ys) = storeAfter (storeAfter stored xs) ys := by
  simp [storeAfter, List.foldl_append]

/-- Reads of configuration and calls of the inventory leave the stored resource. -/
theorem storeAfter_of_no_write (stored : Option HANAMapping) (evs : List Event)
    (h : ∀ ev ∈ evs, ev.isConfigRead = true ∨ ev.isInventoryCall = true) :
    storeAfter stored evs = stored := by
  induction evs generalizing stored with
  | nil => rfl
  | cons ev evs ih =>
    have hev := h ev (List.mem_cons_self _ _)
    have hrest : ∀ x ∈ evs, x.isConfigRead = true ∨ x.isInventoryCall = true :=
      fun x hx => h x (List.mem_cons_of_mem _ hx)
    have hstep : Event.persist stored ev = stored := by
      cases ev <;> simp_all [Event.isConfigRead, Event.isInventoryCall, Event.persist]
    simp only [storeAfter, List.foldl_cons, hstep]
    exact ih stored hrest

theorem storeAfter_write (stored : Option HANAMapping) (obj : HANAMapping)
    (a : Option GoError) :
    storeAfter stored [Event.Update obj a] = (if a = none then some obj else stored) ∧
      storeAfter stored [Event.StatusUpdate obj a] =
        (if a = none then some obj else stored) := by
  cases a <;> simp [storeAfter, Event.persist]

/-- An invocation that reaches `syncMapping` found a resource in the store. -/
theorem syncEntry_found {r : HANAMappingReconciler ε} {w w2 : World ε}
    {req : NamespacedName} {hm : HANAMapping} (h : syncEntry r w req = some (hm, w2)) :
    ∃ obj, w.stored = some obj := by
  simp only [syncEntry] at h
  rcases hg : clientGet r w req with ⟨ge | obj, w0⟩
  · simp [hg] at h
  · exact ⟨obj, (clientGet_ok_inv hg).1⟩

/-- The calls before `syncMapping` are calls of the store, and the store holds what their
writes left. -/
theorem syncEntry_store {r : HANAMappingReconciler ε} {w w2 : World ε}
    {req : NamespacedName} {hm : HANAMapping} (h : syncEntry r w req = some (hm, w2)) :
    ∃ pre, w2.trace = w.trace ++ pre ∧ (∀ ev ∈ pre, ev.isInventoryCall = false) ∧
      storeAfter w.stored pre = w2.stored := by
  simp only [syncEntry] at h
  rcases hg : clientGet r w req with ⟨ge | obj, w0⟩
  · simp [hg] at h
  obtain ⟨-, hs0, ht0⟩ := clientGet_ok_inv hg
  simp only [hg] at h
  by_cases hz : (!metav1.IsZero obj.DeletionTimestamp) = true
  · simp [hz] at h
  simp only [hz, if_false] at h
  rcases ha : attachFinalizer r w0 obj with ⟨hm1, a1, w1⟩
  rw [ha] at h
  rcases a1 with _ | a1
  swap
  · simp at h
  simp only at h
  have h1 : ∃ pre, w1.trace = w.trace ++ pre ∧ (∀ ev ∈ pre, ev.isInventoryCall = false) ∧
      storeAfter w.stored pre = w1.stored := by
    rcases attachFinalizer_inv ha with ⟨-, -, -, rfl⟩ | ⟨-, -, ht, hs⟩
    · exact ⟨[Event.Get req none], ht0, by simp [Event.isInventoryCall],
        by simp [storeAfter, Event.persist, hs0]⟩
    · refine ⟨[Event.Get req none, Event.Update hm1 none], by rw [ht, ht0]; simp,
        by simp [Event.isInventoryCall], ?_⟩
      simp [storeAfter, Event.persist, hs]
  obtain ⟨pre1, ht1, hq1, hs1⟩ := h1
  rcases hi : initStatus r w1 hm1 with ⟨hm2, a2, w2'⟩
  rw [hi] at h
  rcases a2 with _ | a2
  swap
  · simp at h
  simp only at h
  by_cases hlen : hm2.Spec.Mapping.TargetNamespace.length = 0
  · simp [hlen] at h
  simp only [hlen, if_false, Option.some.injEq, Prod.mk.injEq] at h
  obtain ⟨rfl, rfl⟩ := h
  rcases initStatus_inv hi with ⟨-, -, -, rfl⟩ | ⟨-, -, ht, hs⟩
  · exact ⟨pre1, ht1, hq1, hs1⟩
  · refine ⟨pre1 ++ [Event.StatusUpdate hm none], by rw [ht, ht1, List.append_assoc], ?_, ?_⟩
    · intro ev hev
      simp only [List.mem_append, List.mem_singleton] at hev
      rcases hev with hev | rfl
      · exact hq1 ev hev
      · rfl
    · rw [storeAfter_append, hs1]
      simp [storeAfter, Event.persist, hs]

/-- The calls of one invocation: calls of the store only; or, on the deletion branch, the
read of the resource, the read of the secret, one `DeleteMapping` for the observed mapping
and one write; or the calls before `syncMapping`, the calls of `syncMapping`, and the write
of the status. -/
theorem Reconcile_calls_cases (r : HANAMappingReconciler ε) (w : World ε)
    (req : NamespacedName) :
    (∀ ev ∈ calls r w req, ev.isInventoryCall = false) ∨
      (∃ hm w1 m k a d last, deleteEntry r w req = some (hm, w1) ∧
        hm.Status.MappingID = some m ∧
        calls r w req = [Event.Get req none, Event.GetSecret k a,
          Event.DeleteMapping m.ServiceInstanceID m.PrimaryID m.SecondaryID d, last] ∧
        last.isInventoryCall = false) ∨
      ∃ hm w2 pre c cfg dels cres o a, syncEntry r w req = some (hm, w2) ∧
        w2.trace = w.trace ++ pre ∧ (∀ ev ∈ pre, ev.isInventoryCall = false) ∧
        storeAfter w.stored pre = w2.stored ∧
        calls r w req = pre ++ (cfg ++ (dels ++ cres)) ++ [Event.StatusUpdate o a] ∧
        (∀ e ∈ cfg, e.isConfigRead = true) ∧
        (dels = [] ∨ ∃ old d, hm.Status.MappingID = some old ∧
          MappingID.mk hm.Spec.Mapping.ServiceInstanceID c hm.Spec.Mapping.TargetNamespace ≠
            old ∧
          dels = [Event.DeleteMapping old.ServiceInstanceID old.PrimaryID old.SecondaryID d]) ∧
        (cres = [] ∨ ∃ ca, cres = [Event.CreateMapping hm.Spec.Mapping.ServiceInstanceID
          { Platform := "kubernetes", PrimaryID := c,
            SecondaryID := hm.Spec.Mapping.TargetNamespace } ca]) ∧
        ((getClusterID r w2 hm).1 = Except.ok c ∨ (dels = [] ∧ cres = [])) := by
  rcases hd : deleteEntry r w req with _ | ⟨hm, w1⟩
  · rcases hs : syncEntry r w req with _ | ⟨hm, w2⟩
    · obtain ⟨evs, ht, hq⟩ := Reconcile_calls_of_no_entry r w req hd hs
      rw [calls_of_trace ht]
      exact Or.inl hq
    · obtain ⟨pre, htp, hqp, hsp⟩ := syncEntry_store hs
      obtain ⟨c, cfg, dels, cres, hts, hcfg, hdels, hcres, hc⟩ := syncMapping_calls r w2 hm
      obtain ⟨o, a, hta⟩ := syncAndReport_trace r w2 hm
      have ht : (Reconcile r w req).2.trace =
          w.trace ++ (pre ++ (cfg ++ (dels ++ cres)) ++ [Event.StatusUpdate o a]) := by
        rw [Reconcile_of_syncEntry r w req hm w2 hs, hta, hts, htp]
        simp
      exact Or.inr (Or.inr ⟨hm, w2, pre, c, cfg, dels, cres, o, a, rfl, htp, hqp, hsp,
        calls_of_trace ht, hcfg, hdels, hcres, hc⟩)
  · obtain ⟨-, -, ht1, -, -⟩ := deleteEntry_inv hd
    rcases reconcileDeletion_calls r w1 hm with ⟨evs, ht, hq⟩ | ⟨m, k, a, d, last, hm1, ht, hl⟩
    · have ht2 : (Reconcile r w req).2.trace = w.trace ++ ([Event.Get req none] ++ evs) := by
        rw [Reconcile_of_deleteEntry r w req hm w1 hd, ht, ht1, List.append_assoc]
      rw [calls_of_trace ht2]
      refine Or.inl ?_
      intro ev hev
      simp only [List.mem_append, List.mem_singleton] at hev
      rcases hev with rfl | hev
      · rfl
      · exact hq ev hev
    · have ht2 : (Reconcile r w req).2.trace = w.trace ++ [Event.Get req none,
          Event.GetSecret k a,
          Event.DeleteMapping m.ServiceInstanceID m.PrimaryID m.SecondaryID d, last] := by
        rw [Reconcile_of_deleteEntry r w req hm w1 hd, ht, ht1]
        simp
      exact Or.inr (Or.inl ⟨hm, w1, m, k, a, d, last, rfl, hm1, calls_of_trace ht2, hl⟩)

/-- After the finalizer is attached the invocation only adds calls to the trace. -/
theorem Reconcile_after_finalizer (r : HANAMappingReconciler ε) (w w0 : World ε)
    (req : NamespacedName) (obj : HANAMapping)
    (hget : clientGet r w req = (Except.ok obj, w0))
    (hdel : metav1.IsZero obj.DeletionTimestamp = true)
    (hfin : controllerutil.ContainsFinalizer obj finalizerName = false) :
    ∃ a rest, (Reconcile r w req).2.trace = w.trace ++
        (Event.Get req none ::
          Event.Update (controllerutil.AddFinalizer obj finalizerName) a :: rest) ∧
      ∀ e, a = some e → rest = [] ∧ (Reconcile r w req).1.2 = some e := by
  obtain ⟨-, -, ht0⟩ := clientGet_ok_inv hget
  unfold Reconcile
  rw [hget]
  simp only [hdel, Bool.not_true, Bool.false_eq_true, if_false]
  rcases ha : attachFinalizer r w0 obj with ⟨hm1, a1, w1⟩
  have ht1 : hm1 = controllerutil.AddFinalizer obj finalizerName ∧
      w1.trace = w.trace ++ [Event.Get req none, Event.Update hm1 a1] := by
    rcases attachFinalizer_inv ha with ⟨hc, -⟩ | ⟨-, h1, ht, -⟩
    · rw [hfin] at hc
      exact absurd hc (by simp)
    · exact ⟨h1, by rw [ht, ht0]; simp⟩
  obtain ⟨rfl, ht1⟩ := ht1
  rcases a1 with _ | a1
  swap
  · exact ⟨some a1, [], ht1, fun e he => ⟨rfl, by simpa using he⟩⟩
  simp only
  suffices hrest : ∃ rest, (match initStatus r w1
        (controllerutil.AddFinalizer obj finalizerName) with
      | (_, some statusErr, w) => ((({} : ctrl.Result), some statusErr), w)
      | (hanaMapping, none, w) =>
        if hanaMapping.Spec.Mapping.TargetNamespace.length = 0 then
          match clientUpdate r w
            { hanaMapping with
              Spec :=
                { hanaMapping.Spec with
                  Mapping :=
                    { hanaMapping.Spec.Mapping with
                      TargetNamespace := hanaMapping.Namespace } } } with
          | (some err, w) => (({}, some err), w)
          | (none, w) => (({ Requeue := true }, none), w)
        else syncAndReport r w hanaMapping).2.trace = w1.trace ++ rest by
    obtain ⟨rest, hr⟩ := hrest
    exact ⟨none, rest, by rw [hr, ht1]; simp, fun e he => by simp at he⟩
  rcases hi : initStatus r w1 (controllerutil.AddFinalizer obj finalizerName) with
    ⟨hm2, a2, w2⟩
  have ht2 : ∃ evs, w2.trace = w1.trace ++ evs := by
    rcases initStatus_inv hi with ⟨-, -, -, rfl⟩ | ⟨-, -, ht, -⟩
    · exact ⟨[], by simp⟩
    · exact ⟨_, ht⟩
  obtain ⟨evs2, ht2⟩ := ht2
  rcases a2 with _ | a2
  swap
  · exact ⟨evs2, ht2⟩
  simp only
  split
  · rcases hu : clientUpdate r w2
      { hm2 with
        Spec :=
          { hm2.Spec with
            Mapping := { hm2.Spec.Mapping with TargetNamespace := hm2.Namespace } } } with
      ⟨a3, w3⟩
    have ht3 := (clientUpdate_inv hu).1
    rcases a3 with _ | a3 <;> exact ⟨_, by rw [ht3, ht2, List.append_assoc]⟩
  · obtain ⟨o, a, hta⟩ := syncAndReport_trace r w2 hm2
    obtain ⟨evs, hts, -⟩ := syncMapping_trace r w2 hm2
    exact ⟨evs2 ++ (evs ++ [Event.StatusUpdate o a]), by rw [hta, hts, ht2]; simp⟩

/-- C14 (finalizer before any external record). When `Reconcile` reads a resource that is not
marked for deletion and lacks the finalizer, its first call after the read is the update of
the resource with the finalizer added, so every status write and every inventory call comes
after it; when that update fails the invocation issues no further call and returns the error
of the update. In every invocation that calls `CreateMapping` there is exactly one such call,
and the resource the store holds after the calls before it carries the finalizer: it is the
resource the store holds when `syncMapping` is entered, and `syncMapping` leaves it there. -/
theorem finalizer_before_external_record (r : HANAMappingReconciler ε) (w : World ε)
    (req : NamespacedName) :
    (∀ obj w0, clientGet r w req = (Except.ok obj, w0) →
        metav1.IsZero obj.DeletionTimestamp = true →
        controllerutil.ContainsFinalizer obj finalizerName = false →
        ∃ a rest, calls r w req = Event.Get req none ::
            Event.Update (controllerutil.AddFinalizer obj finalizerName) a :: rest ∧
          controllerutil.ContainsFinalizer (controllerutil.AddFinalizer obj finalizerName)
            finalizerName = true ∧
          (a = none → storeAfter w.stored [Event.Get req none,
              Event.Update (controllerutil.AddFinalizer obj finalizerName) a] =
            some (controllerutil.AddFinalizer obj finalizerName)) ∧
          ∀ e, a = some e → rest = [] ∧ (Reconcile r w req).1.2 = some e) ∧
      ∀ ev ∈ calls r w req, ev.isCreateMapping = true →
        ∃ pre post o w2, calls r w req = pre ++ ev :: post ∧
          (∀ x ∈ pre ++ post, x.isCreateMapping = false) ∧
          storeAfter w.stored pre = some o ∧
          controllerutil.ContainsFinalizer o finalizerName = true ∧
          syncEntry r w req = some (o, w2) ∧ w2.stored = some o ∧
          (syncMapping r w2 o).2.stored = some o := by
  constructor
  · intro obj w0 hget hdel hfin
    obtain ⟨a, rest, ht, herr⟩ := Reconcile_after_finalizer r w w0 req obj hget hdel hfin
    refine ⟨a, rest, calls_of_trace ht, ?_, ?_, herr⟩
    · have hn : finalizerName ∉ obj.Finalizers := by
        simpa [controllerutil.ContainsFinalizer] using hfin
      simp [controllerutil.ContainsFinalizer, controllerutil.AddFinalizer, hn]
    · rintro rfl
      simp [storeAfter, Event.persist]
  · intro ev hev hcr
    rcases Reconcile_calls_cases r w req with hq | ⟨hm, w1, m, k, a, d, last, -, -, hc, hl⟩ |
      ⟨hm, w2, pre, c, cfg, dels, cres, o, a, hs, -, hqp, hsp, hc, hcfg, hdels, hcres, -⟩
    · rw [Event.not_create_of_quiet (hq ev hev)] at hcr
      exact absurd hcr (by simp)
    · rw [hc] at hev
      simp only [List.mem_cons, List.mem_singleton, List.not_mem_nil, or_false] at hev
      rcases hev with rfl | rfl | rfl | rfl
      · exact absurd hcr (by simp [Event.isCreateMapping])
      · exact absurd hcr (by simp [Event.isCreateMapping])
      · exact absurd hcr (by simp [Event.isCreateMapping])
      · rw [Event.not_create_of_quiet hl] at hcr
        exact absurd hcr (by simp)
    · obtain ⟨obj, hstored⟩ := syncEntry_found hs
      obtain ⟨hw2, -, -, -, -, -, hfin, -⟩ := syncEntry_inv hstored hs
      have hdq : ∀ x ∈ dels, x.isCreateMapping = false ∧ x.isInventoryCall = true := by
        rcases hdels with rfl | ⟨old, d, -, -, rfl⟩
        · simp
        · simp [Event.isCreateMapping, Event.isInventoryCall]
      rw [hc] at hev ⊢
      simp only [List.mem_append, List.mem_singleton] at hev
      rcases hev with (hev | hev | hev | hev) | rfl
      · rw [Event.not_create_of_quiet (hqp ev hev)] at hcr
        exact absurd hcr (by simp)
      · rw [Event.not_create_of_config (hcfg ev hev)] at hcr
        exact absurd hcr (by simp)
      · rw [(hdq ev hev).1] at hcr
        exact absurd hcr (by simp)
      · rcases hcres with rfl | ⟨ca, rfl⟩
        · simp at hev
        · simp only [List.mem_singleton] at hev
          subst hev
          refine ⟨pre ++ (cfg ++ dels), [Event.StatusUpdate o a], hm, w2, by simp, ?_, ?_, hfin,
            hs, hw2, by rw [syncMapping_stored, hw2]⟩
          · intro x hx
            simp only [List.mem_append, List.mem_singleton] at hx
            rcases hx with (hx | hx | hx) | rfl
            · exact Event.not_create_of_quiet (hqp x hx)
            · exact Event.not_create_of_config (hcfg x hx)
            · exact (hdq x hx).1
            · rfl
          · rw [storeAfter_append, hsp, storeAfter_of_no_write, hw2]
            intro x hx
            simp only [List.mem_append] at hx
            rcases hx with hx | hx
            · exact Or.inl (hcfg x hx)
            · exact Or.inr (hdq x hx).2
      · exact absurd hcr (by simp [Event.isCreateMapping])

/-- C14 at concrete inputs: a new resource whose update with the finalizer is refused, and a
new resource over collaborators that answer without error. -/
theorem finalizer_before_external_record_witness :
    (∃ a rest, calls (stubReconciler { update := some (GoError.errorString "conflict") })
          (worldOf () newHANAMapping) testRequest =
          Event.Get testRequest none ::
            Event.Update (controllerutil.AddFinalizer newHANAMapping finalizerName) a :: rest ∧
        controllerutil.ContainsFinalizer
          (controllerutil.AddFinalizer newHANAMapping finalizerName) finalizerName = true ∧
        (a = none → storeAfter (worldOf () newHANAMapping).stored [Event.Get testRequest none,
            Event.Update (controllerutil.AddFinalizer newHANAMapping finalizerName) a] =
          some (controllerutil.AddFinalizer newHANAMapping finalizerName)) ∧
        ∀ e, a = some e → rest = [] ∧
          (Reconcile (stubReconciler { update := some (GoError.errorString "conflict") })
            (worldOf () newHANAMapping) testRequest).1.2 = some e) ∧
      ∃ pre post o w2, calls (stubReconciler {}) (worldOf () newHANAMapping) testRequest =
          pre ++ Event.CreateMapping "svc-1"
            { Platform := "kubernetes", PrimaryID := "cluster-42", SecondaryID := "ns-a" }
            none :: post ∧
        (∀ x ∈ pre ++ post, x.isCreateMapping = false) ∧
        storeAfter (worldOf () newHANAMapping).stored pre = some o ∧
        controllerutil.ContainsFinalizer o finalizerName = true ∧
        syncEntry (stubReconciler {}) (worldOf () newHANAMapping) testRequest = some (o, w2) ∧
        w2.stored = some o ∧ (syncMapping (stubReconciler {}) w2 o).2.stored = some o :=
  ⟨(finalizer_before_external_record
      (stubReconciler { update := some (GoError.errorString "conflict") })
      (worldOf () newHANAMapping) testRequest).1 newHANAMapping _ rfl rfl rfl,
    (finalizer_before_external_record (stubReconciler {}) (worldOf () newHANAMapping)
      testRequest).2 _ (by decide) rfl⟩

end controller
/-! ## Runs against the inventory service with outages -/

namespace controller

open hanav1

variable {ε : Type}

theorem faultyService_delete (b : inventory.Binding) (s : inventory.Outage) (S P Q : String) :
    (inventory.NewClient inventory.faultyService b).DeleteMapping s S P Q =
      if inventory.recordOf b.BaseURL S P Q ∈ s.records then
        (none, { records := s.records.filter (fun x => x != inventory.recordOf b.BaseURL S P Q),
                 faults := s.faults })
      else (some inventory.ErrMappingNotFound, s) := by
  by_cases h : inventory.recordOf b.BaseURL S P Q ∈ s.records
  · have h' := h
    simp only [inventory.recordOf] at h'
    simp [inventory.NewClient, inventory.DeleteMapping, inventory.faultyService,
      inventory.service, inventory.doAuthRequest, h, h', corev1.index, inventory.recordOf]
  · have h' := h
    simp only [inventory.recordOf] at h'
    simp [inventory.NewClient, inventory.DeleteMapping, inventory.faultyService,
      inventory.service, inventory.doAuthRequest, h, h', corev1.index]

theorem faultyService_create_fault (b : inventory.Binding) (records : List inventory.Record)
    (code : Int) (rest : List Int) (S : String) (m : inventory.Mapping)
    (h201 : code ≠ 201) (h200 : code ≠ 200) :
    (inventory.NewClient inventory.faultyService b).CreateMapping
        { records := records, faults := code :: rest } S m =
      (some (GoError.errorString ("failed to create mapping, HTTP " ++ toString code)),
        { records := records, faults := rest }) := by
  simp [inventory.NewClient, inventory.CreateMapping, inventory.faultyService,
    inventory.doAuthRequest, h201, h200]

theorem faultyService_create (b : inventory.Binding) (records : List inventory.Record)
    (S P Q : String) :
    (inventory.NewClient inventory.faultyService b).CreateMapping
        { records := records, faults := [] } S
        { Platform := "kubernetes", PrimaryID := P, SecondaryID := Q } =
      if inventory.recordOf b.BaseURL S P Q ∈ records then
        (some inventory.ErrMappingAlreadyExists, { records := records, faults := [] })
      else (none, { records := records ++ [inventory.recordOf b.BaseURL S P Q], faults := [] }) := by
  by_cases h : inventory.recordOf b.BaseURL S P Q ∈ records
  · have h' := h
    simp only [inventory.recordOf] at h'
    simp [inventory.NewClient, inventory.CreateMapping, inventory.faultyService,
      inventory.service, inventory.doAuthRequest, h, h']
  · have h' := h
    simp only [inventory.recordOf] at h'
    simp [inventory.NewClient, inventory.CreateMapping, inventory.faultyService,
      inventory.service, inventory.doAuthRequest, h, h', inventory.recordOf]

/-- C15 (migration is resumable). The inventory is the service with outages behind the HTTP
client, holding exactly the record of the observed mapping (`S`, `P`, `L1`), with one pending
fault whose status code is neither 201 nor 200; the store succeeds and the cluster identity is
`P`; the stored resource is not marked for deletion and asks for the target `L2`, which is not
empty and differs from `L1`. The first `Reconcile` deletes (`S`, `P`, `L1`) with answer nil,
its create fails with the generic error of the status code, and it returns that error leaving
the observed mapping and no record. The second `Reconcile`, on the state the first left, gets
`ErrMappingNotFound` for the delete and nil for the create, returns no error, and leaves the
condition Ready with status True and reason Succeeded, the observed mapping (`S`, `P`, `L2`),
and an inventory whose records are exactly the record of (`S`, `P`, `L2`). -/
theorem migration_resumable (r : HANAMappingReconciler inventory.Outage)
    (w : World inventory.Outage) (req : NamespacedName) (obj : HANAMapping)
    (P base L1 : String) (code : Int) (hr : StoreSucceeds r P base)
    (hinv : ∀ b, r.GetInventoryClient b = inventory.NewClient inventory.faultyService b)
    (hstored : w.stored = some obj) (hdel : metav1.IsZero obj.DeletionTimestamp = true)
    (htarget : obj.Spec.Mapping.TargetNamespace ≠ "")
    (hobs : obj.Status.MappingID =
      some (MappingID.mk obj.Spec.Mapping.ServiceInstanceID P L1))
    (hne : obj.Spec.Mapping.TargetNamespace ≠ L1)
    (henv : w.env =
      { records := [inventory.recordOf base obj.Spec.Mapping.ServiceInstanceID P L1],
        faults := [code] })
    (h201 : code ≠ 201) (h200 : code ≠ 200) :
    (Event.DeleteMapping obj.Spec.Mapping.ServiceInstanceID P L1 none ∈ calls r w req ∧
        Event.CreateMapping obj.Spec.Mapping.ServiceInstanceID
          { Platform := "kubernetes", PrimaryID := P,
            SecondaryID := obj.Spec.Mapping.TargetNamespace }
          (some (GoError.errorString ("failed to create mapping, HTTP " ++ toString code))) ∈
          calls r w req ∧
        (Reconcile r w req).1.2 =
          some (GoError.errorString ("failed to create mapping, HTTP " ++ toString code)) ∧
        (Reconcile r w req).2.env.records = [] ∧
        ∃ o1, (Reconcile r w req).2.stored = some o1 ∧
          o1.Status.MappingID =
            some (MappingID.mk obj.Spec.Mapping.ServiceInstanceID P L1)) ∧
      Event.DeleteMapping obj.Spec.Mapping.ServiceInstanceID P L1
          (some inventory.ErrMappingNotFound) ∈ calls r (Reconcile r w req).2 req ∧
      Event.CreateMapping obj.Spec.Mapping.ServiceInstanceID
          { Platform := "kubernetes", PrimaryID := P,
            SecondaryID := obj.Spec.Mapping.TargetNamespace } none ∈
          calls r (Reconcile r w req).2 req ∧
      (Reconcile r (Reconcile r w req).2 req).1 = ({}, none) ∧
      (Reconcile r (Reconcile r w req).2 req).2.env.records =
        [inventory.recordOf base obj.Spec.Mapping.ServiceInstanceID P
          obj.Spec.Mapping.TargetNamespace] ∧
      ∃ o2 c, (Reconcile r (Reconcile r w req).2 req).2.stored = some o2 ∧
        meta.FindStatusCondition (o2.Status.Conditions.getD []) conditionTypeReady = some c ∧
        c.Status = metav1.ConditionTrue ∧ c.Reason = conditionReasonSucceeded ∧
        o2.Status.MappingID = some (MappingID.mk obj.Spec.Mapping.ServiceInstanceID P
          obj.Spec.Mapping.TargetNamespace) := by
  have hid : MappingID.mk obj.Spec.Mapping.ServiceInstanceID P
      obj.Spec.Mapping.TargetNamespace ≠
      MappingID.mk obj.Spec.Mapping.ServiceInstanceID P L1 := by
    intro h
    exact hne (MappingID.mk.inj h).2.2
  obtain ⟨hres1, henv1, hdel1, hcre1, o1, c1, hs1, hspec1, hdt1, -, -, hfail⟩ :=
    Reconcile_migrate_run hr w req obj
      (MappingID.mk obj.Spec.Mapping.ServiceInstanceID P L1) none
      (some (GoError.errorString ("failed to create mapping, HTTP " ++ toString code)))
      { records := [], faults := [code] } { records := [], faults := [] }
      hstored hdel htarget hobs hid (Or.inl rfl)
      (by
        intro b hb
        rw [hinv, faultyService_delete, henv, hb]
        simp)
      (by
        intro b _
        rw [hinv]
        exact faultyService_create_fault b [] code [] _ _ h201 h200)
  obtain ⟨hmid1, -⟩ := hfail _ rfl
  obtain ⟨hres2, henv2, hdel2, hcre2, o2, c2, hs2, -, -, hc2, hsucc, -⟩ :=
    Reconcile_migrate_run hr (Reconcile r w req).2 req o1
      (MappingID.mk obj.Spec.Mapping.ServiceInstanceID P L1)
      (some inventory.ErrMappingNotFound) none
      { records := [], faults := [] }
      { records := [inventory.recordOf base obj.Spec.Mapping.ServiceInstanceID P
          obj.Spec.Mapping.TargetNamespace], faults := [] }
      hs1 (by rw [hdt1]; exact hdel) (by rw [hspec1]; exact htarget) hmid1
      (by rw [hspec1]; exact hid) (Or.inr rfl)
      (by
        intro b hb
        rw [hinv, faultyService_delete, henv1]
        simp)
      (by
        intro b hb
        rw [hinv, hspec1, faultyService_create, hb]
        simp)
  obtain ⟨hmid2, hc2s, hc2r⟩ := hsucc rfl
  rw [hspec1] at hcre2 hmid2
  refine ⟨⟨hdel1, hcre1, by rw [hres1], by rw [henv1], o1, hs1, hmid1⟩, hdel2, hcre2, hres2,
    by rw [henv2], o2, c2, hs2, hc2, hc2s, hc2r, hmid2⟩

/-- C15 at a concrete input: the synced resource whose target namespace was edited from
`ns-a` to `ns-b`, against a service that holds the record of `ns-a` and answers the next
POST with 500. -/
theorem migration_resumable_witness :
    (Reconcile (reconcilerOver {} (inventory.NewClient inventory.faultyService))
        (worldOf
          { records := [inventory.recordOf "inventory.example" "svc-1" "cluster-42" "ns-a"],
            faults := [500] } movedHANAMapping) testRequest).1.2 =
        some (GoError.errorString "failed to create mapping, HTTP 500") ∧
      (Reconcile (reconcilerOver {} (inventory.NewClient inventory.faultyService))
        (Reconcile (reconcilerOver {} (inventory.NewClient inventory.faultyService))
          (worldOf
            { records := [inventory.recordOf "inventory.example" "svc-1" "cluster-42" "ns-a"],
              faults := [500] } movedHANAMapping) testRequest).2 testRequest).2.env.records =
        [inventory.recordOf "inventory.example" "svc-1" "cluster-42" "ns-b"] :=
  have h := migration_resumable (reconcilerOver {} (inventory.NewClient inventory.faultyService))
    (worldOf
      { records := [inventory.recordOf "inventory.example" "svc-1" "cluster-42" "ns-a"],
        faults := [500] } movedHANAMapping) testRequest movedHANAMapping
    "cluster-42" "inventory.example" "ns-a" 500
    ⟨fun _ _ => rfl, fun _ _ => rfl, fun _ _ => rfl, fun _ _ => ⟨_, rfl, rfl⟩,
      fun _ _ => ⟨_, _, rfl, rfl, rfl⟩⟩
    (fun _ => rfl) rfl rfl (by decide) rfl (by decide) rfl (by decide) (by decide)
  ⟨h.1.2.2.1, h.2.2.2.2.1⟩

end controller
/-! ## Call discipline of one invocation -/

namespace controller

open hanav1

variable {ε : Type}

theorem countP_create_of_quiet {l : List Event} (h : ∀ ev ∈ l, ev.isInventoryCall = false) :
    l.countP Event.isCreateMapping = 0 := by
  rw [List.countP_eq_zero]
  intro ev hev
  simp [Event.not_create_of_quiet (h ev hev)]

theorem countP_delete_of_quiet {l : List Event} (h : ∀ ev ∈ l, ev.isInventoryCall = false) :
    l.countP Event.isDeleteMapping = 0 := by
  rw [List.countP_eq_zero]
  intro ev hev
  simp [Event.not_delete_of_quiet (h ev hev)]

theorem countP_create_of_config {l : List Event} (h : ∀ ev ∈ l, ev.isConfigRead = true) :
    l.countP Event.isCreateMapping = 0 := by
  rw [List.countP_eq_zero]
  intro ev hev
  simp [Event.not_create_of_config (h ev hev)]

theorem countP_delete_of_config {l : List Event} (h : ∀ ev ∈ l, ev.isConfigRead = true) :
    l.countP Event.isDeleteMapping = 0 := by
  rw [List.countP_eq_zero]
  intro ev hev
  simp [Event.not_delete_of_config (h ev hev)]

/-- On the sync branch the calls of `DeleteMapping` are those of the delete step of
`syncMapping`, and the calls of `CreateMapping` those of its create step. -/
theorem sync_calls_mem {pre cfg dels cres : List Event} {o : HANAMapping}
    {a : Option GoError} {s : String} {c : String} {t : String} {old : Option MappingID}
    (hqp : ∀ ev ∈ pre, ev.isInventoryCall = false)
    (hcfg : ∀ ev ∈ cfg, ev.isConfigRead = true)
    (hdels : dels = [] ∨ ∃ m d, old = some m ∧ MappingID.mk s c t ≠ m ∧
      dels = [Event.DeleteMapping m.ServiceInstanceID m.PrimaryID m.SecondaryID d])
    (hcres : cres = [] ∨ ∃ ca, cres = [Event.CreateMapping s
      { Platform := "kubernetes", PrimaryID := c, SecondaryID := t } ca])
    (ev : Event) (hev : ev ∈ pre ++ (cfg ++ (dels ++ cres)) ++ [Event.StatusUpdate o a]) :
    (ev.isDeleteMapping = true → ev ∈ dels) ∧ (ev.isCreateMapping = true → ev ∈ cres) := by
  simp only [List.mem_append, List.mem_singleton] at hev
  rcases hev with (hev | hev | hev | hev) | rfl
  · exact ⟨fun h => by simp [Event.not_delete_of_quiet (hqp ev hev)] at h,
      fun h => by simp [Event.not_create_of_quiet (hqp ev hev)] at h⟩
  · exact ⟨fun h => by simp [Event.not_delete_of_config (hcfg ev hev)] at h,
      fun h => by simp [Event.not_create_of_config (hcfg ev hev)] at h⟩
  · refine ⟨fun _ => hev, fun h => ?_⟩
    rcases hdels with rfl | ⟨m, d, -, -, rfl⟩
    · simp at hev
    · simp only [List.mem_singleton] at hev
      subst hev
      simp [Event.isCreateMapping] at h
  · refine ⟨fun h => ?_, fun _ => hev⟩
    rcases hcres with rfl | ⟨ca, rfl⟩
    · simp at hev
    · simp only [List.mem_singleton] at hev
      subst hev
      simp [Event.isDeleteMapping] at h
  · exact ⟨fun h => by simp [Event.isDeleteMapping] at h,
      fun h => by simp [Event.isCreateMapping] at h⟩

/-- C16 (call discipline of one invocation). For every reconciler, world and request, one
invocation of `Reconcile` issues at most one `DeleteMapping` and at most one `CreateMapping`.
For a resource marked for deletion it issues no `CreateMapping`. For a resource not marked
for deletion every `DeleteMapping` is for the observed mapping of the resource, which is
present and differs from the desired identity (service instance and target namespace of the
spec, with the cluster identity read in this invocation). The identity given to
`DeleteMapping` is never the identity given to `CreateMapping` in the same invocation. -/
theorem call_discipline (r : HANAMappingReconciler ε) (w : World ε) (req : NamespacedName) :
    (calls r w req).countP Event.isDeleteMapping ≤ 1 ∧
      (calls r w req).countP Event.isCreateMapping ≤ 1 ∧
      (∀ obj, w.stored = some obj → metav1.IsZero obj.DeletionTimestamp = false →
        ∀ ev ∈ calls r w req, ev.isCreateMapping = false) ∧
      (∀ obj, w.stored = some obj → metav1.IsZero obj.DeletionTimestamp = true →
        ∀ s p q d, Event.DeleteMapping s p q d ∈ calls r w req →
          ∃ hm w2 c, syncEntry r w req = some (hm, w2) ∧
            (getClusterID r w2 hm).1 = Except.ok c ∧
            obj.Status.MappingID = some (MappingID.mk s p q) ∧
            MappingID.mk obj.Spec.Mapping.ServiceInstanceID c
              obj.Spec.Mapping.TargetNamespace ≠ MappingID.mk s p q) ∧
      ∀ s p q d s2 m a, Event.DeleteMapping s p q d ∈ calls r w req →
        Event.CreateMapping s2 m a ∈ calls r w req →
        MappingID.mk s2 m.PrimaryID m.SecondaryID ≠ MappingID.mk s p q := by
  rcases Reconcile_calls_cases r w req with hq | ⟨hm, w1, m, k, a, d, last, hd, hmid, hc, hl⟩ |
    ⟨hm, w2, pre, c, cfg, dels, cres, o, a, hs, -, hqp, -, hc, hcfg, hdels, hcres, hcl⟩
  · refine ⟨by rw [countP_delete_of_quiet hq]; exact Nat.zero_le _,
      by rw [countP_create_of_quiet hq]; exact Nat.zero_le _,
      fun _ _ _ ev hev => Event.not_create_of_quiet (hq ev hev), ?_, ?_⟩
    · intro obj _ _ s p q d hmem
      exact absurd (hq _ hmem) (by simp [Event.isInventoryCall])
    · intro s p q d s2 m a hmem _
      exact absurd (hq _ hmem) (by simp [Event.isInventoryCall])
  · obtain ⟨hst, -, -, hz, -⟩ := deleteEntry_inv hd
    have hnc : ∀ ev ∈ calls r w req, ev.isCreateMapping = false := by
      intro ev hev
      rw [hc] at hev
      simp only [List.mem_cons, List.mem_singleton, List.not_mem_nil, or_false] at hev
      rcases hev with rfl | rfl | rfl | rfl
      · rfl
      · rfl
      · rfl
      · exact Event.not_create_of_quiet hl
    refine ⟨?_, ?_, fun _ _ _ => hnc, ?_, ?_⟩
    · rw [hc]
      simp only [List.countP_cons, List.countP_nil, Event.not_delete_of_quiet hl]
      simp [Event.isDeleteMapping]
    · rw [hc]
      simp only [List.countP_cons, List.countP_nil, Event.not_create_of_quiet hl]
      simp [Event.isCreateMapping]
    · intro obj hstored hzero
      rw [hst, Option.some.injEq] at hstored
      subst hstored
      rw [hz] at hzero
      exact absurd hzero (by simp)
    · intro s p q d s2 m a _ hmem
      exact absurd (hnc _ hmem) (by simp [Event.isCreateMapping])
  · have hmem := sync_calls_mem (o := o) (a := a) hqp hcfg hdels hcres
    rw [← hc] at hmem
    have hdel_id : ∀ s p q d, Event.DeleteMapping s p q d ∈ calls r w req →
        (getClusterID r w2 hm).1 = Except.ok c ∧
          hm.Status.MappingID = some (MappingID.mk s p q) ∧
          MappingID.mk hm.Spec.Mapping.ServiceInstanceID c hm.Spec.Mapping.TargetNamespace ≠
            MappingID.mk s p q := by
      intro s p q d hin
      have hin2 := (hmem _ hin).1 rfl
      rcases hdels with rfl | ⟨old, d2, hold, hne, rfl⟩
      · simp at hin2
      · simp only [List.mem_singleton, Event.DeleteMapping.injEq] at hin2
        obtain ⟨rfl, rfl, rfl, -⟩ := hin2
        refine ⟨?_, hold, hne⟩
        rcases hcl with hcl | ⟨hcl, -⟩
        · exact hcl
        · simp at hcl
    have hcre_id : ∀ s2 m a2, Event.CreateMapping s2 m a2 ∈ calls r w req →
        s2 = hm.Spec.Mapping.ServiceInstanceID ∧ m.PrimaryID = c ∧
          m.SecondaryID = hm.Spec.Mapping.TargetNamespace := by
      intro s2 m a2 hin
      have hin2 := (hmem _ hin).2 rfl
      rcases hcres with rfl | ⟨ca, rfl⟩
      · simp at hin2
      · simp only [List.mem_singleton, Event.CreateMapping.injEq] at hin2
        obtain ⟨rfl, rfl, -⟩ := hin2
        exact ⟨rfl, rfl, rfl⟩
    have hcd : dels.countP Event.isDeleteMapping ≤ 1 ∧ dels.countP Event.isCreateMapping = 0 := by
      rcases hdels with rfl | ⟨old, d2, -, -, rfl⟩
      · simp
      · simp [List.countP_cons, Event.isDeleteMapping, Event.isCreateMapping]
    have hcc : cres.countP Event.isCreateMapping ≤ 1 ∧ cres.countP Event.isDeleteMapping = 0 := by
      rcases hcres with rfl | ⟨ca, rfl⟩
      · simp
      · simp [List.countP_cons, Event.isDeleteMapping, Event.isCreateMapping]
    refine ⟨?_, ?_, ?_, ?_, ?_⟩
    · rw [hc]
      simp only [List.countP_append, countP_delete_of_quiet hqp, countP_delete_of_config hcfg,
        hcc.2]
      have := hcd.1
      simp [List.countP_cons, Event.isDeleteMapping]
      omega
    · rw [hc]
      simp only [List.countP_append, countP_create_of_quiet hqp, countP_create_of_config hcfg,
        hcd.2]
      have := hcc.1
      simp [List.countP_cons, Event.isCreateMapping]
      omega
    · intro obj hstored hzero
      obtain ⟨-, -, -, -, hz, -⟩ := syncEntry_inv hstored hs
      rw [hz] at hzero
      exact absurd hzero (by simp)
    · intro obj hstored _ s p q d hin
      obtain ⟨-, hmid, hspec, -⟩ := syncEntry_inv hstored hs
      obtain ⟨h1, h2, h3⟩ := hdel_id s p q d hin
      rw [hmid] at h2
      rw [hspec] at h3
      exact ⟨hm, w2, c, hs, h1, h2, h3⟩
    · intro s p q d s2 m a2 hin1 hin2
      obtain ⟨-, -, h3⟩ := hdel_id s p q d hin1
      obtain ⟨rfl, rfl, hq2⟩ := hcre_id s2 m a2 hin2
      rw [hq2]
      exact h3

/-- C16 at a concrete input: the synced resource whose target namespace was edited, over
collaborators that answer without error; the old mapping is deleted and the new one created. -/
theorem call_discipline_witness :
    (∃ hm w2 c, syncEntry (stubReconciler {}) (worldOf () movedHANAMapping) testRequest =
          some (hm, w2) ∧
        (getClusterID (stubReconciler {}) w2 hm).1 = Except.ok c ∧
        movedHANAMapping.Status.MappingID = some (MappingID.mk "svc-1" "cluster-42" "ns-a") ∧
        MappingID.mk movedHANAMapping.Spec.Mapping.ServiceInstanceID c
          movedHANAMapping.Spec.Mapping.TargetNamespace ≠
            MappingID.mk "svc-1" "cluster-42" "ns-a") ∧
      MappingID.mk "svc-1" "cluster-42" "ns-b" ≠ MappingID.mk "svc-1" "cluster-42" "ns-a" :=
  ⟨(call_discipline (stubReconciler {}) (worldOf () movedHANAMapping) testRequest).2.2.2.1
      movedHANAMapping rfl rfl "svc-1" "cluster-42" "ns-a" none (by decide),
    (call_discipline (stubReconciler {}) (worldOf () movedHANAMapping) testRequest).2.2.2.2
      "svc-1" "cluster-42" "ns-a" none "svc-1"
      { Platform := "kubernetes", PrimaryID := "cluster-42", SecondaryID := "ns-b" } none
      (by decide) (by decide)⟩

end controller
